import Mathlib

/-! ILI9341 display driver: protocol driver, burst pipeline and rasteriser.

A shallow embedding of `Core/Src/ILI9341.c` and `Core/Src/ILI9341_GFX.c`.

* The hardware abstraction layer (`HAL_GPIO_WritePin`, `HAL_SPI_Transmit`,
  `HAL_Delay`) is the boundary: every call to it is recorded, in program
  order, as an `Event` of the trace carried by the driver state `Lcd`.
* The two globals `LCD_WIDTH` and `LCD_HEIGHT` are the other two fields of `Lcd`.
* `uint8_t`/`uint16_t`/`uint32_t` values are natural numbers; an expression
  that C evaluates in `int` is evaluated in `Int` and converted back with
  `u8`/`u16`/`u32` exactly where the C code converts (argument passing,
  assignment, array initialiser).
* The macros of `ILI9341.h` and of the font header (chunk size, panel size,
  orientation codes, glyph size, font table) are the fields of `Config`.
* A division by zero stops the run with `Fault.divByZero`, carrying the state
  reached at that point.
-/

namespace ILI9341

/-! ## Machine integers -/

/-- Conversion of an `int` value to `uint8_t`. -/
def u8 (i : Int) : Nat := (i % 256).toNat

/-- Conversion of an `int` value to `uint16_t`. -/
def u16 (i : Int) : Nat := (i % 65536).toNat

/-- Conversion of an `int` value to `uint32_t`. -/
def u32 (i : Int) : Nat := (i % 4294967296).toNat

/-! ## Boundary: pins, events, state -/

/-- The three output lines driven through `HAL_GPIO_WritePin`. -/
inductive Pin where
  | CHIP_SELECT
  | DC
  | RESET
  deriving DecidableEq, Repr

/-- The level written to a pin. -/
inductive PinState where
  | GPIO_PIN_RESET
  | GPIO_PIN_SET
  deriving DecidableEq, Repr

/-- One call into the hardware abstraction layer.
`transmit bytes` is `HAL_SPI_Transmit(&hspi2, buf, len, _)`, where `bytes` are
the first `len` bytes of `buf` (so `transmit []` is a call with `len = 0`). -/
inductive Event where
  | gpio (pin : Pin) (level : PinState)
  | transmit (bytes : List Nat)
  | delay (ms : Nat)
  deriving DecidableEq, Repr

/-- Driver state: the two geometry globals and the calls made so far. -/
structure Lcd where
  LCD_WIDTH : Nat
  LCD_HEIGHT : Nat
  trace : List Event
  deriving DecidableEq, Repr

/-- Why a run stopped without returning. -/
inductive Fault where
  | divByZero (reached : Lcd)
  | outOfFuel (reached : Lcd)
  deriving DecidableEq, Repr

/-- The macros of `ILI9341.h` and of the font header, as parameters.
`BURST_MAX_SIZE` is used as a `uint32_t` value, the four orientation codes as
labels of one `switch`, `CHAR_WIDTH` and `CHAR_HEIGHT` as bounds of `uint8_t`
loop counters, and `font c k` is the byte `font[c][k]`. -/
structure Config where
  BURST_MAX_SIZE : Nat
  ILI9341_SCREEN_WIDTH : Nat
  ILI9341_SCREEN_HEIGHT : Nat
  SCREEN_VERTICAL_1 : Nat
  SCREEN_HORIZONTAL_1 : Nat
  SCREEN_VERTICAL_2 : Nat
  SCREEN_HORIZONTAL_2 : Nat
  CHAR_WIDTH : Nat
  CHAR_HEIGHT : Nat
  font : Nat → Nat → Nat

/-- Record one boundary call. -/
def emit (e : Event) (s : Lcd) : Lcd :=
  { s with trace := s.trace ++ [e] }

/-- Model of `HAL_GPIO_WritePin(port, pin, level)`. -/
def HAL_GPIO_WritePin (p : Pin) (l : PinState) (s : Lcd) : Lcd :=
  emit (Event.gpio p l) s

/-- Model of `HAL_SPI_Transmit(&hspi2, buf, len, timeout)` with `bytes = buf[0..len)`. -/
def HAL_SPI_Transmit (bytes : List Nat) (s : Lcd) : Lcd :=
  emit (Event.transmit bytes) s

/-- Model of `HAL_Delay(ms)`. -/
def HAL_Delay (ms : Nat) (s : Lcd) : Lcd :=
  emit (Event.delay ms) s

/-- The state a run ended in, whether it returned or stopped at a fault. -/
def finalState : Except Fault Lcd → Lcd
  | Except.ok s => s
  | Except.error (Fault.divByZero s) => s
  | Except.error (Fault.outOfFuel s) => s

/-- All bytes handed to `HAL_SPI_Transmit` in a list of events, in order. -/
def txBytes : List Event → List Nat
  | [] => []
  | Event.transmit bs :: es => bs ++ txBytes es
  | _ :: es => txBytes es

/-- Sum of the lengths of all transmits in a list of events. -/
def txLength : List Event → Nat
  | [] => 0
  | Event.transmit bs :: es => bs.length + txLength es
  | _ :: es => txLength es

/-! ## Protocol driver (`ILI9341.c`) -/

/-- Model of `ILI9341_SPI_SEND`: one transmit of one byte. -/
def ILI9341_SPI_SEND (SPI_Data : Nat) (s : Lcd) : Lcd :=
  HAL_SPI_Transmit [SPI_Data] s

/-- Model of `ILI9341_Write_Command`. -/
def ILI9341_Write_Command (Command : Nat) (s : Lcd) : Lcd :=
  let s := HAL_GPIO_WritePin Pin.CHIP_SELECT PinState.GPIO_PIN_RESET s
  let s := HAL_GPIO_WritePin Pin.DC PinState.GPIO_PIN_RESET s
  let s := ILI9341_SPI_SEND Command s
  HAL_GPIO_WritePin Pin.CHIP_SELECT PinState.GPIO_PIN_SET s

/-- Model of `ILI9341_Write_Data`. -/
def ILI9341_Write_Data (Data : Nat) (s : Lcd) : Lcd :=
  let s := HAL_GPIO_WritePin Pin.DC PinState.GPIO_PIN_SET s
  let s := HAL_GPIO_WritePin Pin.CHIP_SELECT PinState.GPIO_PIN_RESET s
  let s := ILI9341_SPI_SEND Data s
  HAL_GPIO_WritePin Pin.CHIP_SELECT PinState.GPIO_PIN_SET s

/-- Model of `ILI9341_Set_Address`; the arguments are `uint16_t`, each byte argument is
converted to `uint8_t` at the call. -/
def ILI9341_Set_Address (X1 Y1 X2 Y2 : Nat) (s : Lcd) : Lcd :=
  let s := ILI9341_Write_Command 0x2A s
  let s := ILI9341_Write_Data (u8 (X1 >>> 8)) s
  let s := ILI9341_Write_Data (u8 X1) s
  let s := ILI9341_Write_Data (u8 (X2 >>> 8)) s
  let s := ILI9341_Write_Data (u8 X2) s
  let s := ILI9341_Write_Command 0x2B s
  let s := ILI9341_Write_Data (u8 (Y1 >>> 8)) s
  let s := ILI9341_Write_Data (u8 Y1) s
  let s := ILI9341_Write_Data (u8 (Y2 >>> 8)) s
  let s := ILI9341_Write_Data (u8 Y2) s
  ILI9341_Write_Command 0x2C s

/-- Model of `ILI9341_Set_Rotation`: the command is written before the `switch`. -/
def ILI9341_Set_Rotation (cfg : Config) (Rotation : Nat) (s : Lcd) : Lcd :=
  let screen_rotation := Rotation
  let s := ILI9341_Write_Command 0x36 s
  let s := HAL_Delay 1 s
  if screen_rotation = cfg.SCREEN_VERTICAL_1 then
    let s := ILI9341_Write_Data (0x40 ||| 0x08) s
    { s with LCD_WIDTH := 240, LCD_HEIGHT := 320 }
  else if screen_rotation = cfg.SCREEN_HORIZONTAL_1 then
    let s := ILI9341_Write_Data (0x20 ||| 0x08) s
    { s with LCD_WIDTH := 320, LCD_HEIGHT := 240 }
  else if screen_rotation = cfg.SCREEN_VERTICAL_2 then
    let s := ILI9341_Write_Data (0x80 ||| 0x08) s
    { s with LCD_WIDTH := 240, LCD_HEIGHT := 320 }
  else if screen_rotation = cfg.SCREEN_HORIZONTAL_2 then
    let s := ILI9341_Write_Data (0x40 ||| 0x80 ||| 0x20 ||| 0x08) s
    { s with LCD_WIDTH := 320, LCD_HEIGHT := 240 }
  else
    s

/-! ## Burst pipeline -/

/-- The fill loop of `ILI9341_Draw_Colour_Burst`:
`for (j = 0; j < Buffer_Size; j += 2) { buf[j] = chifted; buf[j+1] = Colour; }`
on a buffer of `Buffer_Size = buf.length` bytes. A store at an index that is
not below the length of the array leaves the array as it is. -/
def fillBurstBuffer (chifted lo : Nat) : Nat → Nat → List Nat → List Nat
  | 0, _, buf => buf
  | fuel + 1, j, buf =>
    if j < buf.length then
      fillBurstBuffer chifted lo fuel (j + 2) ((buf.set j chifted).set (j + 1) lo)
    else buf

/-- The block loop: `n` transmits of the whole buffer. -/
def sendBlocks (buf : List Nat) : Nat → Lcd → Lcd
  | 0, s => s
  | n + 1, s => sendBlocks buf n (HAL_SPI_Transmit buf s)

/-- Model of `ILI9341_Draw_Colour_Burst(Colour, Size)`. `Size * 2` is computed in
`uint32_t`. The division and the modulo by `Buffer_Size` stop the run when
`Buffer_Size` is zero. -/
def ILI9341_Draw_Colour_Burst (cfg : Config) (Colour Size : Nat) (s : Lcd) :
    Except Fault Lcd :=
  let Buffer_Size := if u32 ((Size : Int) * 2) < cfg.BURST_MAX_SIZE then Size
                     else cfg.BURST_MAX_SIZE
  let s := HAL_GPIO_WritePin Pin.DC PinState.GPIO_PIN_SET s
  let s := HAL_GPIO_WritePin Pin.CHIP_SELECT PinState.GPIO_PIN_RESET s
  let chifted := u8 (Colour >>> 8)
  let burst_buffer :=
    fillBurstBuffer chifted (u8 Colour) Buffer_Size 0 (List.replicate Buffer_Size 0)
  let Sending_Size := u32 ((Size : Int) * 2)
  if Buffer_Size = 0 then Except.error (Fault.divByZero s) else
  let Sending_in_Block := Sending_Size / Buffer_Size
  let Remainder_from_block := Sending_Size % Buffer_Size
  let s := if Sending_in_Block ≠ 0 then sendBlocks burst_buffer Sending_in_Block s else s
  let s := HAL_SPI_Transmit (burst_buffer.take Remainder_from_block) s
  Except.ok (HAL_GPIO_WritePin Pin.CHIP_SELECT PinState.GPIO_PIN_SET s)

/-! ## Rasteriser (`ILI9341.c`) -/

/-- Model of `ILI9341_Fill_Screen`. The product `LCD_WIDTH*LCD_HEIGHT` is an `int`
converted to `uint32_t`. -/
def ILI9341_Fill_Screen (cfg : Config) (Colour : Nat) (s : Lcd) : Except Fault Lcd :=
  let W := s.LCD_WIDTH
  let H := s.LCD_HEIGHT
  let s := ILI9341_Set_Address 0 0 W H s
  ILI9341_Draw_Colour_Burst cfg Colour (u32 ((W : Int) * H)) s

/-- Model of `ILI9341_Draw_Pixel`. -/
def ILI9341_Draw_Pixel (X Y Colour : Nat) (s : Lcd) : Lcd :=
  if X ≥ s.LCD_WIDTH ∨ Y ≥ s.LCD_HEIGHT then s else
  -- ADDRESS
  let s := HAL_GPIO_WritePin Pin.DC PinState.GPIO_PIN_RESET s
  let s := HAL_GPIO_WritePin Pin.CHIP_SELECT PinState.GPIO_PIN_RESET s
  let s := ILI9341_SPI_SEND 0x2A s
  let s := HAL_GPIO_WritePin Pin.DC PinState.GPIO_PIN_SET s
  let s := HAL_GPIO_WritePin Pin.CHIP_SELECT PinState.GPIO_PIN_SET s
  -- XDATA
  let s := HAL_GPIO_WritePin Pin.CHIP_SELECT PinState.GPIO_PIN_RESET s
  let s := HAL_SPI_Transmit [u8 (X >>> 8), u8 X, u8 ((X + 1) >>> 8), u8 (X + 1)] s
  let s := HAL_GPIO_WritePin Pin.CHIP_SELECT PinState.GPIO_PIN_SET s
  -- ADDRESS
  let s := HAL_GPIO_WritePin Pin.DC PinState.GPIO_PIN_RESET s
  let s := HAL_GPIO_WritePin Pin.CHIP_SELECT PinState.GPIO_PIN_RESET s
  let s := ILI9341_SPI_SEND 0x2B s
  let s := HAL_GPIO_WritePin Pin.DC PinState.GPIO_PIN_SET s
  let s := HAL_GPIO_WritePin Pin.CHIP_SELECT PinState.GPIO_PIN_SET s
  -- YDATA
  let s := HAL_GPIO_WritePin Pin.CHIP_SELECT PinState.GPIO_PIN_RESET s
  let s := HAL_SPI_Transmit [u8 (Y >>> 8), u8 Y, u8 ((Y + 1) >>> 8), u8 (Y + 1)] s
  let s := HAL_GPIO_WritePin Pin.CHIP_SELECT PinState.GPIO_PIN_SET s
  -- ADDRESS
  let s := HAL_GPIO_WritePin Pin.DC PinState.GPIO_PIN_RESET s
  let s := HAL_GPIO_WritePin Pin.CHIP_SELECT PinState.GPIO_PIN_RESET s
  let s := ILI9341_SPI_SEND 0x2C s
  let s := HAL_GPIO_WritePin Pin.DC PinState.GPIO_PIN_SET s
  let s := HAL_GPIO_WritePin Pin.CHIP_SELECT PinState.GPIO_PIN_SET s
  -- COLOUR
  let s := HAL_GPIO_WritePin Pin.CHIP_SELECT PinState.GPIO_PIN_RESET s
  let s := HAL_SPI_Transmit [u8 (Colour >>> 8), u8 Colour] s
  HAL_GPIO_WritePin Pin.CHIP_SELECT PinState.GPIO_PIN_SET s

/-- Model of `ILI9341_Draw_Rectangle`. `X+Width-1` and `LCD_WIDTH-X` are `int`
expressions; assignment to `Width` and argument passing convert to `uint16_t`,
and `Height*Width` is converted to `uint32_t`. -/
def ILI9341_Draw_Rectangle (cfg : Config) (X Y Width Height Colour : Nat) (s : Lcd) :
    Except Fault Lcd :=
  if X ≥ s.LCD_WIDTH ∨ Y ≥ s.LCD_HEIGHT then Except.ok s else
  let Width := if (X : Int) + Width - 1 ≥ s.LCD_WIDTH then u16 ((s.LCD_WIDTH : Int) - X)
               else Width
  let Height := if (Y : Int) + Height - 1 ≥ s.LCD_HEIGHT then u16 ((s.LCD_HEIGHT : Int) - Y)
                else Height
  let s := ILI9341_Set_Address X Y (u16 ((X : Int) + Width - 1)) (u16 ((Y : Int) + Height - 1)) s
  ILI9341_Draw_Colour_Burst cfg Colour (u32 ((Height : Int) * Width)) s

/-- Model of `ILI9341_Draw_Horizontal_Line`. -/
def ILI9341_Draw_Horizontal_Line (cfg : Config) (X Y Width Colour : Nat) (s : Lcd) :
    Except Fault Lcd :=
  if X ≥ s.LCD_WIDTH ∨ Y ≥ s.LCD_HEIGHT then Except.ok s else
  let Width := if (X : Int) + Width - 1 ≥ s.LCD_WIDTH then u16 ((s.LCD_WIDTH : Int) - X)
               else Width
  let s := ILI9341_Set_Address X Y (u16 ((X : Int) + Width - 1)) Y s
  ILI9341_Draw_Colour_Burst cfg Colour Width s

/-- Model of `ILI9341_Draw_Vertical_Line`. -/
def ILI9341_Draw_Vertical_Line (cfg : Config) (X Y Height Colour : Nat) (s : Lcd) :
    Except Fault Lcd :=
  if X ≥ s.LCD_WIDTH ∨ Y ≥ s.LCD_HEIGHT then Except.ok s else
  let Height := if (Y : Int) + Height - 1 ≥ s.LCD_HEIGHT then u16 ((s.LCD_HEIGHT : Int) - Y)
                else Height
  let s := ILI9341_Set_Address X Y X (u16 ((Y : Int) + Height - 1)) s
  ILI9341_Draw_Colour_Burst cfg Colour Height s

/-! ## Graphics layer (`ILI9341_GFX.c`) -/

/-- Sequencing of a step that cannot fail after one that can. -/
def andThen (r : Except Fault Lcd) (f : Lcd → Except Fault Lcd) : Except Fault Lcd :=
  match r with
  | Except.ok s => f s
  | Except.error e => Except.error e

/-- A counted loop `for (k = first; ...; k++) body(k)` over the listed values
of `k`, stopping at the first fault. -/
def forEach (body : Nat → Lcd → Except Fault Lcd) : List Nat → Lcd → Except Fault Lcd
  | [], s => Except.ok s
  | k :: ks, s => andThen (body k s) (forEach body ks)

/-- The eight `ILI9341_Draw_Pixel` calls of one step of the hollow circle. -/
def hollowCirclePoints (X Y Colour : Nat) (x y : Int) (s : Lcd) : Lcd :=
  let s := ILI9341_Draw_Pixel (u16 (X + x)) (u16 (Y + y)) Colour s
  let s := ILI9341_Draw_Pixel (u16 (X + y)) (u16 (Y + x)) Colour s
  let s := ILI9341_Draw_Pixel (u16 (X - y)) (u16 (Y + x)) Colour s
  let s := ILI9341_Draw_Pixel (u16 (X - x)) (u16 (Y + y)) Colour s
  let s := ILI9341_Draw_Pixel (u16 (X - x)) (u16 (Y - y)) Colour s
  let s := ILI9341_Draw_Pixel (u16 (X - y)) (u16 (Y - x)) Colour s
  let s := ILI9341_Draw_Pixel (u16 (X + y)) (u16 (Y - x)) Colour s
  ILI9341_Draw_Pixel (u16 (X + x)) (u16 (Y - y)) Colour s

/-- The `while (x >= y)` loop of `ILI9341_Draw_Hollow_Circle`, with a bound on
the number of iterations; running out of it is reported as a fault. -/
def hollowCircleLoop (X Y Radius Colour : Nat) :
    Nat → Int → Int → Int → Int → Int → Lcd → Except Fault Lcd
  | 0, x, y, _, _, _, s => if x ≥ y then Except.error (Fault.outOfFuel s) else Except.ok s
  | fuel + 1, x, y, dx, dy, err, s =>
    if x ≥ y then
      let s := hollowCirclePoints X Y Colour x y s
      let y1 := if err ≤ 0 then y + 1 else y
      let err1 := if err ≤ 0 then err + dy else err
      let dy1 := if err ≤ 0 then dy + 2 else dy
      let x2 := if err1 > 0 then x - 1 else x
      let dx2 := if err1 > 0 then dx + 2 else dx
      let err2 := if err1 > 0 then err1 + (-(Radius : Int) * 2 + (dx + 2)) else err1
      hollowCircleLoop X Y Radius Colour fuel x2 y1 dx2 dy1 err2 s
    else Except.ok s

/-- Model of `ILI9341_Draw_Hollow_Circle`. -/
def ILI9341_Draw_Hollow_Circle (X Y Radius Colour : Nat) (s : Lcd) : Except Fault Lcd :=
  let x : Int := (Radius : Int) - 1
  let y : Int := 0
  let dx : Int := 1
  let dy : Int := 1
  let err : Int := dx - (Radius : Int) * 2
  hollowCircleLoop X Y Radius Colour (Radius + 1) x y dx dy err s

/-- One inner loop of the filled circle:
`for (int i = lo; i <= hi; i++) { Draw_Pixel(i, Ya); Draw_Pixel(i, Yb); }`. -/
def filledCircleSpan (Colour : Nat) (lo hi Ya Yb : Int) (s : Lcd) : Lcd :=
  (List.range (hi - lo + 1).toNat).foldl
    (fun (s : Lcd) (k : Nat) =>
      let i : Int := lo + (k : Int)
      let s := ILI9341_Draw_Pixel (u16 i) (u16 Ya) Colour s
      ILI9341_Draw_Pixel (u16 i) (u16 Yb) Colour s) s

/-- The `while (x >= y)` loop of `ILI9341_Draw_Filled_Circle`, with a bound on
the number of iterations; running out of it is reported as a fault. -/
def filledCircleLoop (X Y Colour : Nat) :
    Nat → Int → Int → Int → Int → Int → Lcd → Except Fault Lcd
  | 0, x, y, _, _, _, s => if x ≥ y then Except.error (Fault.outOfFuel s) else Except.ok s
  | fuel + 1, x, y, xChange, yChange, radiusError, s =>
    if x ≥ y then
      let s := filledCircleSpan Colour (X - x) (X + x) (Y + y) (Y - y) s
      let s := filledCircleSpan Colour (X - y) (X + y) (Y + x) (Y - x) s
      let y := y + 1
      let radiusError := radiusError + yChange
      let yChange := yChange + 2
      if radiusError * 2 + xChange > 0 then
        filledCircleLoop X Y Colour fuel (x - 1) y (xChange + 2) yChange
          (radiusError + xChange) s
      else
        filledCircleLoop X Y Colour fuel x y xChange yChange radiusError s
    else Except.ok s

/-- Model of `ILI9341_Draw_Filled_Circle`. -/
def ILI9341_Draw_Filled_Circle (X Y Radius Colour : Nat) (s : Lcd) : Except Fault Lcd :=
  let x : Int := Radius
  let y : Int := 0
  let xChange : Int := 1 - (Radius : Int) * 2
  let yChange : Int := 0
  let radiusError : Int := 0
  filledCircleLoop X Y Colour (Radius + 1) x y xChange yChange radiusError s

/-- Model of `ILI9341_Draw_Hollow_Rectangle_Coord`. `Calc_Negative` holds the `int`
difference of two `uint16_t` values (every such difference is exactly
representable in a `float`), so the two tests are sign tests in `Int`. -/
def ILI9341_Draw_Hollow_Rectangle_Coord (cfg : Config) (X0 Y0 X1 Y1 Colour : Nat) (s : Lcd) :
    Except Fault Lcd :=
  let Negative_X : Bool := decide ((X1 : Int) - X0 < 0)
  let Negative_Y : Bool := decide ((Y1 : Int) - Y0 < 0)
  -- DRAW HORIZONTAL!
  let X_length := if !Negative_X then u16 ((X1 : Int) - X0) else u16 ((X0 : Int) - X1)
  andThen (ILI9341_Draw_Horizontal_Line cfg X0 Y0 X_length Colour s) fun s =>
  andThen (ILI9341_Draw_Horizontal_Line cfg X0 Y1 X_length Colour s) fun s =>
  -- DRAW VERTICAL!
  let Y_length := if !Negative_Y then u16 ((Y1 : Int) - Y0) else u16 ((Y0 : Int) - Y1)
  andThen (ILI9341_Draw_Vertical_Line cfg X0 Y0 Y_length Colour s) fun s =>
  andThen (ILI9341_Draw_Vertical_Line cfg X1 Y0 Y_length Colour s) fun s =>
  if X_length > 0 ∨ Y_length > 0 then Except.ok (ILI9341_Draw_Pixel X1 Y1 Colour s)
  else Except.ok s

/-- Model of `ILI9341_Draw_Filled_Rectangle_Coord`. -/
def ILI9341_Draw_Filled_Rectangle_Coord (cfg : Config) (X0 Y0 X1 Y1 Colour : Nat) (s : Lcd) :
    Except Fault Lcd :=
  let Negative_X : Bool := decide ((X1 : Int) - X0 < 0)
  let Negative_Y : Bool := decide ((Y1 : Int) - Y0 < 0)
  -- DRAW HORIZONTAL!
  let X_length := if !Negative_X then u16 ((X1 : Int) - X0) else u16 ((X0 : Int) - X1)
  let X0_true := if !Negative_X then X0 else X1
  -- DRAW VERTICAL!
  let Y_length := if !Negative_Y then u16 ((Y1 : Int) - Y0) else u16 ((Y0 : Int) - Y1)
  let Y0_true := if !Negative_Y then Y0 else Y1
  ILI9341_Draw_Rectangle cfg X0_true Y0_true X_length Y_length Colour s

/-- The body of the two nested loops of `ILI9341_Draw_Char` for column `j` and
row `i`: nothing unless bit `i` of `temp[j]` is set. -/
def drawCharCell (cfg : Config) (temp : Nat → Nat) (X Y Colour Size : Nat) (j i : Nat)
    (s : Lcd) : Except Fault Lcd :=
  if temp j &&& (1 <<< i) ≠ 0 then
    if Size = 1 then
      Except.ok (ILI9341_Draw_Pixel (u16 ((X : Int) + j)) (u16 ((Y : Int) + i)) Colour s)
    else
      ILI9341_Draw_Rectangle cfg (u16 ((X : Int) + j * Size)) (u16 ((Y : Int) + i * Size))
        Size Size Colour s
  else Except.ok s

/-- Model of `ILI9341_Draw_Char`. `X` and `Y` are `uint8_t` parameters: the body reads the
arguments converted to 8 bits. The test of `function_char` against the space character assigns `Character`,
not `function_char`, so below 32 the index stays the character code.
`temp[k]` is the byte `font[function_char][k]` (plain `char` is unsigned on
the ARM target). The loop counters `j`, `i` are `uint8_t`: the two loops are
modelled for a font cell with `CHAR_WIDTH` and `CHAR_HEIGHT` at most 255. -/
def ILI9341_Draw_Char (cfg : Config) (Character X Y Colour Size Background_Colour : Nat)
    (s : Lcd) : Except Fault Lcd :=
  let X := u8 X
  let Y := u8 Y
  let function_char := u8 Character
  let function_char := if function_char < 32 then function_char
                       else u8 ((function_char : Int) - 32)
  let temp : Nat → Nat := fun k => u8 (cfg.font function_char k)
  -- Draw pixels
  andThen (ILI9341_Draw_Rectangle cfg X Y (u16 ((cfg.CHAR_WIDTH : Int) * Size))
      (u16 ((cfg.CHAR_HEIGHT : Int) * Size)) Background_Colour s) fun s =>
  forEach (fun j => forEach (drawCharCell cfg temp X Y Colour Size j)
      (List.range cfg.CHAR_HEIGHT)) (List.range cfg.CHAR_WIDTH) s

/-- Model of `ILI9341_Draw_Text`; `Text` lists the bytes of the string, the loop ends at
the first zero byte. `X` and `Y` are `uint8_t` parameters: the body reads the
arguments converted to 8 bits, and `X += CHAR_WIDTH*Size` is reduced modulo 256. -/
def ILI9341_Draw_Text (cfg : Config) (Text : List Nat) (X Y Colour Size Background_Colour : Nat)
    (s : Lcd) : Except Fault Lcd :=
  let X := u8 X
  let Y := u8 Y
  match Text with
  | [] => Except.ok s
  | ch :: rest =>
    if ch = 0 then Except.ok s else
    andThen (ILI9341_Draw_Char cfg ch X Y Colour Size Background_Colour s) fun s =>
    ILI9341_Draw_Text cfg rest (u8 ((X : Int) + (cfg.CHAR_WIDTH : Int) * Size)) Y Colour Size
      Background_Colour s

/-- The chunk loop of `ILI9341_Draw_Image`: each of the `n` iterations copies
`BURST_MAX_SIZE` bytes starting at `counter` and transmits them. A read past
the end of the array is given the value 0. -/
def imageChunks (cfg : Config) (Image_Array : List Nat) : Nat → Nat → Lcd → Lcd
  | 0, _, s => s
  | n + 1, counter, s =>
    let Temp_small_buffer :=
      (List.range cfg.BURST_MAX_SIZE).map fun k => Image_Array.getD (counter + k) 0
    imageChunks cfg Image_Array n (counter + cfg.BURST_MAX_SIZE)
      (HAL_SPI_Transmit Temp_small_buffer s)

/-- The part of `ILI9341_Draw_Image` that its four branches share, after the
rotation is set: address window, then the chunked transfer under one
chip-select. -/
def drawImageBody (cfg : Config) (Image_Array : List Nat) (X2 Y2 : Nat) (s : Lcd) :
    Except Fault Lcd :=
  let s := ILI9341_Set_Address 0 0 X2 Y2 s
  let s := HAL_GPIO_WritePin Pin.DC PinState.GPIO_PIN_SET s
  let s := HAL_GPIO_WritePin Pin.CHIP_SELECT PinState.GPIO_PIN_RESET s
  if cfg.BURST_MAX_SIZE = 0 then Except.error (Fault.divByZero s) else
  let s := imageChunks cfg Image_Array
    (cfg.ILI9341_SCREEN_WIDTH * cfg.ILI9341_SCREEN_HEIGHT * 2 / cfg.BURST_MAX_SIZE) 0 s
  Except.ok (HAL_GPIO_WritePin Pin.CHIP_SELECT PinState.GPIO_PIN_SET s)

/-- Model of `ILI9341_Draw_Image`. -/
def ILI9341_Draw_Image (cfg : Config) (Image_Array : List Nat) (Orientation : Nat) (s : Lcd) :
    Except Fault Lcd :=
  if Orientation = cfg.SCREEN_HORIZONTAL_1 then
    let s := ILI9341_Set_Rotation cfg cfg.SCREEN_HORIZONTAL_1 s
    drawImageBody cfg Image_Array cfg.ILI9341_SCREEN_WIDTH cfg.ILI9341_SCREEN_HEIGHT s
  else if Orientation = cfg.SCREEN_HORIZONTAL_2 then
    let s := ILI9341_Set_Rotation cfg cfg.SCREEN_HORIZONTAL_2 s
    drawImageBody cfg Image_Array cfg.ILI9341_SCREEN_WIDTH cfg.ILI9341_SCREEN_HEIGHT s
  else if Orientation = cfg.SCREEN_VERTICAL_2 then
    let s := ILI9341_Set_Rotation cfg cfg.SCREEN_VERTICAL_2 s
    drawImageBody cfg Image_Array cfg.ILI9341_SCREEN_HEIGHT cfg.ILI9341_SCREEN_WIDTH s
  else if Orientation = cfg.SCREEN_VERTICAL_1 then
    let s := ILI9341_Set_Rotation cfg cfg.SCREEN_VERTICAL_1 s
    drawImageBody cfg Image_Array cfg.ILI9341_SCREEN_HEIGHT cfg.ILI9341_SCREEN_WIDTH s
  else Except.ok s

/-! ## Public operations as data -/

/-- A call of one public drawing or orientation operation with its arguments. -/
inductive Op where
  | Set_Rotation (Rotation : Nat)
  | Fill_Screen (Colour : Nat)
  | Draw_Pixel (X Y Colour : Nat)
  | Draw_Rectangle (X Y Width Height Colour : Nat)
  | Draw_Horizontal_Line (X Y Width Colour : Nat)
  | Draw_Vertical_Line (X Y Height Colour : Nat)
  | Draw_Hollow_Circle (X Y Radius Colour : Nat)
  | Draw_Filled_Circle (X Y Radius Colour : Nat)
  | Draw_Hollow_Rectangle_Coord (X0 Y0 X1 Y1 Colour : Nat)
  | Draw_Filled_Rectangle_Coord (X0 Y0 X1 Y1 Colour : Nat)
  | Draw_Char (Character X Y Colour Size Background_Colour : Nat)
  | Draw_Text (Text : List Nat) (X Y Colour Size Background_Colour : Nat)
  | Draw_Image (Image_Array : List Nat) (Orientation : Nat)

/-- Whether the operation is one of the two that set the orientation. -/
def Op.setsOrientation : Op → Bool
  | Op.Set_Rotation _ => true
  | Op.Draw_Image _ _ => true
  | _ => false

/-- Run one operation. -/
def Op.run (cfg : Config) : Op → Lcd → Except Fault Lcd
  | Op.Set_Rotation r, s => Except.ok (ILI9341_Set_Rotation cfg r s)
  | Op.Fill_Screen c, s => ILI9341_Fill_Screen cfg c s
  | Op.Draw_Pixel x y c, s => Except.ok (ILI9341_Draw_Pixel x y c s)
  | Op.Draw_Rectangle x y w h c, s => ILI9341_Draw_Rectangle cfg x y w h c s
  | Op.Draw_Horizontal_Line x y w c, s => ILI9341_Draw_Horizontal_Line cfg x y w c s
  | Op.Draw_Vertical_Line x y h c, s => ILI9341_Draw_Vertical_Line cfg x y h c s
  | Op.Draw_Hollow_Circle x y r c, s => ILI9341_Draw_Hollow_Circle x y r c s
  | Op.Draw_Filled_Circle x y r c, s => ILI9341_Draw_Filled_Circle x y r c s
  | Op.Draw_Hollow_Rectangle_Coord x0 y0 x1 y1 c, s =>
    ILI9341_Draw_Hollow_Rectangle_Coord cfg x0 y0 x1 y1 c s
  | Op.Draw_Filled_Rectangle_Coord x0 y0 x1 y1 c, s =>
    ILI9341_Draw_Filled_Rectangle_Coord cfg x0 y0 x1 y1 c s
  | Op.Draw_Char ch x y c sz bg, s => ILI9341_Draw_Char cfg ch x y c sz bg s
  | Op.Draw_Text t x y c sz bg, s => ILI9341_Draw_Text cfg t x y c sz bg s
  | Op.Draw_Image img o, s => ILI9341_Draw_Image cfg img o s

/-- Run a sequence of operations, in order, stopping at the first fault. -/
def runOps (cfg : Config) : List Op → Lcd → Except Fault Lcd
  | [], s => Except.ok s
  | op :: ops, s => andThen (op.run cfg s) (runOps cfg ops)

/-- The pair of geometry globals. -/
def geometry (s : Lcd) : Nat × Nat := (s.LCD_WIDTH, s.LCD_HEIGHT)

/-- The state of the globals at program start (their initialisers), with
nothing sent yet. -/
def initialLcd (cfg : Config) : Lcd :=
  { LCD_WIDTH := cfg.ILI9341_SCREEN_WIDTH, LCD_HEIGHT := cfg.ILI9341_SCREEN_HEIGHT, trace := [] }

/-! ## Derived notions used in the statements -/

/-- The state `s` after the calls `evs` were made, geometry untouched. -/
def appendTrace (evs : List Event) (s : Lcd) : Lcd :=
  { s with trace := s.trace ++ evs }

/-- The value of `Buffer_Size` chosen by `ILI9341_Draw_Colour_Burst`. -/
def burstBufferSize (cfg : Config) (Size : Nat) : Nat :=
  if u32 ((Size : Int) * 2) < cfg.BURST_MAX_SIZE then Size else cfg.BURST_MAX_SIZE

/-- The contents of `burst_buffer` after the fill loop. -/
def burstBuffer (cfg : Config) (Colour Size : Nat) : List Nat :=
  fillBurstBuffer (u8 (Colour >>> 8)) (u8 Colour) (burstBufferSize cfg Size) 0
    (List.replicate (burstBufferSize cfg Size) 0)

/-- The calls made by a burst that does not fault. -/
def burstEvents (cfg : Config) (Colour Size : Nat) : List Event :=
  [Event.gpio Pin.DC PinState.GPIO_PIN_SET, Event.gpio Pin.CHIP_SELECT PinState.GPIO_PIN_RESET]
    ++ List.replicate (u32 ((Size : Int) * 2) / burstBufferSize cfg Size)
        (Event.transmit (burstBuffer cfg Colour Size))
    ++ [Event.transmit ((burstBuffer cfg Colour Size).take
          (u32 ((Size : Int) * 2) % burstBufferSize cfg Size)),
        Event.gpio Pin.CHIP_SELECT PinState.GPIO_PIN_SET]

/-- A sample configuration, used to instantiate statements at concrete inputs. -/
def sampleConfig : Config :=
  { BURST_MAX_SIZE := 500
    ILI9341_SCREEN_WIDTH := 240
    ILI9341_SCREEN_HEIGHT := 320
    SCREEN_VERTICAL_1 := 0
    SCREEN_HORIZONTAL_1 := 1
    SCREEN_VERTICAL_2 := 2
    SCREEN_HORIZONTAL_2 := 3
    CHAR_WIDTH := 6
    CHAR_HEIGHT := 8
    font := fun _ _ => 0 }

/-- The calls made by `ILI9341_Draw_Pixel` for a point inside the panel. -/
def drawPixelEvents (X Y Colour : Nat) : List Event :=
  [Event.gpio Pin.DC PinState.GPIO_PIN_RESET,
   Event.gpio Pin.CHIP_SELECT PinState.GPIO_PIN_RESET,
   Event.transmit [0x2A],
   Event.gpio Pin.DC PinState.GPIO_PIN_SET,
   Event.gpio Pin.CHIP_SELECT PinState.GPIO_PIN_SET,
   Event.gpio Pin.CHIP_SELECT PinState.GPIO_PIN_RESET,
   Event.transmit [u8 (X >>> 8), u8 X, u8 ((X + 1) >>> 8), u8 (X + 1)],
   Event.gpio Pin.CHIP_SELECT PinState.GPIO_PIN_SET,
   Event.gpio Pin.DC PinState.GPIO_PIN_RESET,
   Event.gpio Pin.CHIP_SELECT PinState.GPIO_PIN_RESET,
   Event.transmit [0x2B],
   Event.gpio Pin.DC PinState.GPIO_PIN_SET,
   Event.gpio Pin.CHIP_SELECT PinState.GPIO_PIN_SET,
   Event.gpio Pin.CHIP_SELECT PinState.GPIO_PIN_RESET,
   Event.transmit [u8 (Y >>> 8), u8 Y, u8 ((Y + 1) >>> 8), u8 (Y + 1)],
   Event.gpio Pin.CHIP_SELECT PinState.GPIO_PIN_SET,
   Event.gpio Pin.DC PinState.GPIO_PIN_RESET,
   Event.gpio Pin.CHIP_SELECT PinState.GPIO_PIN_RESET,
   Event.transmit [0x2C],
   Event.gpio Pin.DC PinState.GPIO_PIN_SET,
   Event.gpio Pin.CHIP_SELECT PinState.GPIO_PIN_SET,
   Event.gpio Pin.CHIP_SELECT PinState.GPIO_PIN_RESET,
   Event.transmit [u8 (Colour >>> 8), u8 Colour],
   Event.gpio Pin.CHIP_SELECT PinState.GPIO_PIN_SET]

/-- The bytes of a pixel write as the specification words it: a 1x1 window
(column range `X..X`, row range `Y..Y`, each bound as two big-endian bytes),
the memory-write command, then the two bytes of one colour. -/
def pixelBytes_spec (X Y Colour : Nat) : List Nat :=
  [0x2A, X >>> 8, X &&& 0xFF, X >>> 8, X &&& 0xFF,
   0x2B, Y >>> 8, Y &&& 0xFF, Y >>> 8, Y &&& 0xFF,
   0x2C, Colour >>> 8, Colour &&& 0xFF]

/-- The four `case` labels of the `switch` in `ILI9341_Set_Rotation` are
pairwise different (C requires it of the labels of one `switch`). -/
def Config.modesDistinct (cfg : Config) : Prop :=
  cfg.SCREEN_VERTICAL_1 ≠ cfg.SCREEN_HORIZONTAL_1 ∧
  cfg.SCREEN_VERTICAL_1 ≠ cfg.SCREEN_VERTICAL_2 ∧
  cfg.SCREEN_VERTICAL_1 ≠ cfg.SCREEN_HORIZONTAL_2 ∧
  cfg.SCREEN_HORIZONTAL_1 ≠ cfg.SCREEN_VERTICAL_2 ∧
  cfg.SCREEN_HORIZONTAL_1 ≠ cfg.SCREEN_HORIZONTAL_2 ∧
  cfg.SCREEN_VERTICAL_2 ≠ cfg.SCREEN_HORIZONTAL_2

instance (cfg : Config) : Decidable cfg.modesDistinct := by
  unfold Config.modesDistinct
  infer_instance

/-- The step `f` leaves the geometry as it found it, whether it returns or
stops at a fault. -/
def KeepsGeometry (f : Lcd → Except Fault Lcd) : Prop :=
  ∀ s, geometry (finalState (f s)) = geometry s

/-- The geometry is one of the two panel geometries. -/
def validGeometry (s : Lcd) : Prop :=
  geometry s = (240, 320) ∨ geometry s = (320, 240)

/-- The four calls of `ILI9341_Write_Command` for the command byte `c`:
select, command mode, one 1-byte transmit, deselect. -/
def commandFrame (c : Nat) : List Event :=
  [Event.gpio Pin.CHIP_SELECT PinState.GPIO_PIN_RESET,
   Event.gpio Pin.DC PinState.GPIO_PIN_RESET,
   Event.transmit [c],
   Event.gpio Pin.CHIP_SELECT PinState.GPIO_PIN_SET]

/-- The four calls of `ILI9341_Write_Data` for the data byte `d`:
data mode, select, one 1-byte transmit, deselect. -/
def dataFrame (d : Nat) : List Event :=
  [Event.gpio Pin.DC PinState.GPIO_PIN_SET,
   Event.gpio Pin.CHIP_SELECT PinState.GPIO_PIN_RESET,
   Event.transmit [d],
   Event.gpio Pin.CHIP_SELECT PinState.GPIO_PIN_SET]

/-- The payloads of the transmits in a list of events, one entry per call. -/
def transmits : List Event → List (List Nat)
  | [] => []
  | Event.transmit bs :: es => bs :: transmits es
  | _ :: es => transmits es

/-- The calls made by `ILI9341_Set_Address`. -/
def setAddressEvents (X1 Y1 X2 Y2 : Nat) : List Event :=
  commandFrame 0x2A ++ dataFrame (u8 (X1 >>> 8)) ++ dataFrame (u8 X1)
    ++ dataFrame (u8 (X2 >>> 8)) ++ dataFrame (u8 X2)
    ++ commandFrame 0x2B ++ dataFrame (u8 (Y1 >>> 8)) ++ dataFrame (u8 Y1)
    ++ dataFrame (u8 (Y2 >>> 8)) ++ dataFrame (u8 Y2)
    ++ commandFrame 0x2C

/-- The part of `ILI9341_Draw_Char` after `temp` is filled: the background
rectangle, then the two nested loops over the glyph columns `temp`, at the
origin `X`, `Y` converted to 8 bits as in `ILI9341_Draw_Char`. -/
def drawGlyph (cfg : Config) (temp : Nat → Nat) (X Y Colour Size Background_Colour : Nat)
    (s : Lcd) : Except Fault Lcd :=
  let X := u8 X
  let Y := u8 Y
  andThen (ILI9341_Draw_Rectangle cfg X Y (u16 ((cfg.CHAR_WIDTH : Int) * Size))
      (u16 ((cfg.CHAR_HEIGHT : Int) * Size)) Background_Colour s) fun s =>
  forEach (fun j => forEach (drawCharCell cfg temp X Y Colour Size j)
      (List.range cfg.CHAR_HEIGHT)) (List.range cfg.CHAR_WIDTH) s

/-- The sample configuration with a font table in which only row 10 has a set
bit (bit 0 of column 0); row 0 is blank. -/
def markedFontConfig : Config :=
  { sampleConfig with font := fun c k => if c = 10 ∧ k = 0 then 1 else 0 }

/-- A sequence of `ILI9341_Draw_Char` calls, one per listed pair of character
code and horizontal origin, in order, all with the same `Y`, colours and size. -/
def drawCharsAt (cfg : Config) (Y Colour Size Background_Colour : Nat) :
    List (Nat × Nat) → Lcd → Except Fault Lcd
  | [], s => Except.ok s
  | (ch, X) :: rest, s =>
    andThen (ILI9341_Draw_Char cfg ch X Y Colour Size Background_Colour s)
      (drawCharsAt cfg Y Colour Size Background_Colour rest)

/-- The horizontal origins of `n` characters as the specification words them:
the `k`-th at `X + k*CHAR_WIDTH*Size`. -/
def textOrigins_spec (cfg : Config) (X Size n : Nat) : List Nat :=
  (List.range n).map fun k => X + k * (cfg.CHAR_WIDTH * Size)

/-- The horizontal origins of `n` characters with the 8-bit cursor of
`ILI9341_Draw_Text`: the `k`-th at `(X + k*CHAR_WIDTH*Size) mod 256`. -/
def textOrigins (cfg : Config) (X Size n : Nat) : List Nat :=
  (List.range n).map fun k => (X + k * (cfg.CHAR_WIDTH * Size)) % 256

/-- The transmits of the chunk loop of `ILI9341_Draw_Image`, one per
iteration, in order. -/
def imageChunkEvents (cfg : Config) (Image_Array : List Nat) : Nat → Nat → List Event
  | 0, _ => []
  | n + 1, counter =>
    Event.transmit ((List.range cfg.BURST_MAX_SIZE).map fun k => Image_Array.getD (counter + k) 0)
      :: imageChunkEvents cfg Image_Array n (counter + cfg.BURST_MAX_SIZE)

/-- The controller's side of the wire, as far as addressing goes: the level
of the data/command line, the current command and its parameter bytes, the
address window (`0x2A` column range, `0x2B` row range, each two big-endian
16-bit bounds), the number of data bytes received since the memory-write
command `0x2C`, and the pixels written so far, in order. -/
structure Controller where
  dc : PinState
  command : Nat
  params : List Nat
  colStart : Nat
  colEnd : Nat
  rowStart : Nat
  rowEnd : Nat
  received : Nat
  written : List (Nat × Nat)
  deriving DecidableEq, Repr

/-- The controller before anything was sent. -/
def Controller.start : Controller :=
  { dc := PinState.GPIO_PIN_SET, command := 0, params := [], colStart := 0, colEnd := 0,
    rowStart := 0, rowEnd := 0, received := 0, written := [] }

/-- The controller takes one byte: with the data/command line low it is a new
command; with the line high it is a parameter of the current command, or,
after `0x2C`, pixel data: every second byte completes a pixel, written at the
next position of the window, row by row from `(colStart, rowStart)`. -/
def Controller.byte (k : Controller) (b : Nat) : Controller :=
  match k.dc with
  | PinState.GPIO_PIN_RESET => { k with command := b, params := [], received := 0 }
  | PinState.GPIO_PIN_SET =>
    if k.command = 0x2A then
      match k.params ++ [b] with
      | [p0, p1, p2, p3] =>
        { k with params := [p0, p1, p2, p3], colStart := p0 * 256 + p1, colEnd := p2 * 256 + p3 }
      | ps => { k with params := ps }
    else if k.command = 0x2B then
      match k.params ++ [b] with
      | [p0, p1, p2, p3] =>
        { k with params := [p0, p1, p2, p3], rowStart := p0 * 256 + p1, rowEnd := p2 * 256 + p3 }
      | ps => { k with params := ps }
    else if k.command = 0x2C then
      if k.received % 2 = 1 then
        let i := k.received / 2
        let w := k.colEnd + 1 - k.colStart
        let h := k.rowEnd + 1 - k.rowStart
        { k with received := k.received + 1,
                 written := k.written ++ [(k.colStart + i % w, k.rowStart + i / w % h)] }
      else { k with received := k.received + 1 }
    else k

/-- The controller sees one call: a write to the data/command pin sets the
line, a transmit delivers its bytes in order, nothing else matters to it. -/
def Controller.event (k : Controller) : Event → Controller
  | Event.gpio Pin.DC l => { k with dc := l }
  | Event.gpio _ _ => k
  | Event.transmit bs => bs.foldl Controller.byte k
  | Event.delay _ => k

/-- The panel pixels `(column, row)` that a list of calls writes, in order. -/
def writtenPixels (evs : List Event) : List (Nat × Nat) :=
  (evs.foldl Controller.event Controller.start).written

/-- The offsets from the centre of the eight `ILI9341_Draw_Pixel` calls of one
step of the hollow circle at loop state `(x, y)`, in program order. -/
def hollowCircleStepOffsets (x y : Int) : List (Int × Int) :=
  [(x, y), (y, x), (-y, x), (-x, y), (-x, -y), (-y, -x), (y, -x), (x, -y)]

/-- The offsets passed to `ILI9341_Draw_Pixel` by the loop of
`ILI9341_Draw_Hollow_Circle`, in order: the same loop as `hollowCircleLoop`,
collecting the offsets of each step. -/
def hollowCircleLoopOffsets (Radius : Nat) :
    Nat → Int → Int → Int → Int → Int → List (Int × Int)
  | 0, _, _, _, _, _ => []
  | fuel + 1, x, y, dx, dy, err =>
    if x ≥ y then
      let y1 := if err ≤ 0 then y + 1 else y
      let err1 := if err ≤ 0 then err + dy else err
      let dy1 := if err ≤ 0 then dy + 2 else dy
      let x2 := if err1 > 0 then x - 1 else x
      let dx2 := if err1 > 0 then dx + 2 else dx
      let err2 := if err1 > 0 then err1 + (-(Radius : Int) * 2 + (dx + 2)) else err1
      hollowCircleStepOffsets x y ++ hollowCircleLoopOffsets Radius fuel x2 y1 dx2 dy1 err2
    else []

/-- The offsets passed to `ILI9341_Draw_Pixel` by `ILI9341_Draw_Hollow_Circle`. -/
def hollowCircleOffsets (Radius : Nat) : List (Int × Int) :=
  hollowCircleLoopOffsets Radius (Radius + 1) ((Radius : Int) - 1) 0 1 1
    (1 - (Radius : Int) * 2)

/-- The calls `ILI9341_Draw_Pixel(X + dx, Y + dy, Colour)` for the listed
offsets `(dx, dy)`, in order, each coordinate converted to `uint16_t`. -/
def drawPixelsAt (X Y Colour : Nat) (offsets : List (Int × Int)) (s : Lcd) : Lcd :=
  offsets.foldl
    (fun (s : Lcd) (p : Int × Int) =>
      ILI9341_Draw_Pixel (u16 ((X : Int) + p.1)) (u16 ((Y : Int) + p.2)) Colour s) s

/-- The eight reflections `(±a, ±b)` and `(±b, ±a)` of an offset `(a, b)`. -/
def reflections (p : Int × Int) : List (Int × Int) :=
  [(p.1, p.2), (-p.1, p.2), (p.1, -p.2), (-p.1, -p.2),
   (p.2, p.1), (-p.2, p.1), (p.2, -p.1), (-p.2, -p.1)]

/-- The framing of one byte as the specification words it for both single-byte
writes: select, then mode-select, then one transmit of the byte, then deselect. -/
def singleByteFrame_spec (mode : PinState) (b : Nat) : List Event :=
  [Event.gpio Pin.CHIP_SELECT PinState.GPIO_PIN_RESET,
   Event.gpio Pin.DC mode,
   Event.transmit [b],
   Event.gpio Pin.CHIP_SELECT PinState.GPIO_PIN_SET]

/-- The indices of `burst_buffer` stored to by the fill loop of
`ILI9341_Draw_Colour_Burst`, in order: `j` and `j+1` for `j = 0, 2, 4, ...`
while `j < Buffer_Size` (the same loop as `fillBurstBuffer`). -/
def fillBurstIndices : Nat → Nat → Nat → List Nat
  | 0, _, _ => []
  | fuel + 1, j, Buffer_Size =>
    if j < Buffer_Size then j :: (j + 1) :: fillBurstIndices fuel (j + 2) Buffer_Size
    else []

/-- The indices stored to by the fill loop of a burst of `Size` pixels. -/
def burstFillIndices (cfg : Config) (Size : Nat) : List Nat :=
  fillBurstIndices (burstBufferSize cfg Size) 0 (burstBufferSize cfg Size)

/-- The offsets from the centre of the pixel calls of one inner loop of the
filled circle, in order: column offsets `-a, ..., a`, each in the two rows
with offsets `r1` and `r2`. -/
def filledCircleSpanOffsets (a r1 r2 : Int) : List (Int × Int) :=
  (List.range (a - (-a) + 1).toNat).flatMap fun k => [(-a + (k : Int), r1), (-a + (k : Int), r2)]

/-- The offsets passed to `ILI9341_Draw_Pixel` by the loop of
`ILI9341_Draw_Filled_Circle`, in order: the same loop as `filledCircleLoop`,
collecting the offsets of the two inner loops of each step. -/
def filledCircleLoopOffsets :
    Nat → Int → Int → Int → Int → Int → List (Int × Int)
  | 0, _, _, _, _, _ => []
  | fuel + 1, x, y, xChange, yChange, radiusError =>
    if x ≥ y then
      let here := filledCircleSpanOffsets x y (-y) ++ filledCircleSpanOffsets y x (-x)
      let y := y + 1
      let radiusError := radiusError + yChange
      let yChange := yChange + 2
      if radiusError * 2 + xChange > 0 then
        here ++ filledCircleLoopOffsets fuel (x - 1) y (xChange + 2) yChange
          (radiusError + xChange)
      else
        here ++ filledCircleLoopOffsets fuel x y xChange yChange radiusError
    else []

/-- The offsets passed to `ILI9341_Draw_Pixel` by `ILI9341_Draw_Filled_Circle`. -/
def filledCircleOffsets (Radius : Nat) : List (Int × Int) :=
  filledCircleLoopOffsets (Radius + 1) (Radius : Int) 0 (1 - (Radius : Int) * 2) 0 0

/-- The states `(x, y)` at which the loop of `ILI9341_Draw_Filled_Circle`
draws, in order: `y` grows by 1 in each step and `x` drops by 1 exactly when
`2*radiusError + xChange > 0`, while `x ≥ y`. -/
def filledCircleLoopSteps :
    Nat → Int → Int → Int → Int → Int → List (Int × Int)
  | 0, _, _, _, _, _ => []
  | fuel + 1, x, y, xChange, yChange, radiusError =>
    if x ≥ y then
      let y1 := y + 1
      let radiusError := radiusError + yChange
      let yChange := yChange + 2
      if radiusError * 2 + xChange > 0 then
        (x, y) :: filledCircleLoopSteps fuel (x - 1) y1 (xChange + 2) yChange
          (radiusError + xChange)
      else
        (x, y) :: filledCircleLoopSteps fuel x y1 xChange yChange radiusError
    else []

/-- The steps of the midpoint iteration for radius `Radius`: start `x = Radius`,
`y = 0`. -/
def filledCircleSteps (Radius : Nat) : List (Int × Int) :=
  filledCircleLoopSteps (Radius + 1) (Radius : Int) 0 (1 - (Radius : Int) * 2) 0 0

/-- The offset `p` lies in the spans of the step `(x, y)` as the specification
words them: the span `[-x, x]` in the rows `+y` and `-y`, or the span
`[-y, y]` in the rows `+x` and `-x`. -/
def inSpans_spec (x y : Int) (p : Int × Int) : Prop :=
  (-x ≤ p.1 ∧ p.1 ≤ x ∧ (p.2 = y ∨ p.2 = -y)) ∨
  (-y ≤ p.1 ∧ p.1 ≤ y ∧ (p.2 = x ∨ p.2 = -x))

instance (x y : Int) (p : Int × Int) : Decidable (inSpans_spec x y p) := by
  unfold inSpans_spec
  infer_instance

/-- The pixels that the controller writes while it receives `n` pixel-data
bytes, the first of them being data byte number `r` since the memory-write
command, into the window `cs..ce` by `rs..re`: every byte with an odd number
`j` completes pixel `j / 2`, placed row by row from `(cs, rs)`. -/
def memoryWritePixels (cs ce rs re : Nat) : Nat → Nat → List (Nat × Nat)
  | _, 0 => []
  | r, n + 1 =>
    (if r % 2 = 1 then [(cs + r / 2 % (ce + 1 - cs), rs + r / 2 / (ce + 1 - cs) % (re + 1 - rs))]
     else []) ++ memoryWritePixels cs ce rs re (r + 1) n

/-- The list of calls holds only transmits and chip-select writes. -/
def dataOnly (evs : List Event) : Prop :=
  ∀ e ∈ evs, (∃ bs, e = Event.transmit bs) ∨ (∃ l, e = Event.gpio Pin.CHIP_SELECT l)

/-- The point at offset `p` from the centre `(X, Y)`, computed in unbounded
integers, lies on the panel of `W` columns and `H` rows. -/
def onPanel (W H X Y : Nat) (p : Int × Int) : Bool :=
  decide (0 ≤ (X : Int) + p.1 ∧ (X : Int) + p.1 < W ∧ 0 ≤ (Y : Int) + p.2 ∧ (Y : Int) + p.2 < H)

/-- The pixels of a clipped drawing as the specification words it: of the
points `centre + offset`, in order, those that lie on the panel, each at its
mathematical coordinate. -/
def clippedPixels_spec (W H X Y : Nat) (offsets : List (Int × Int)) : List (Nat × Nat) :=
  (offsets.filter (onPanel W H X Y)).map fun p =>
    (((X : Int) + p.1).toNat, ((Y : Int) + p.2).toNat)

/-- The calls of a clipped drawing as the specification words it: the calls of
one `ILI9341_Draw_Pixel` for each pixel of `clippedPixels_spec`, and no call
for any other point. -/
def clippedPixelEvents_spec (W H X Y Colour : Nat) (offsets : List (Int × Int)) : List Event :=
  (clippedPixels_spec W H X Y offsets).flatMap fun q => drawPixelEvents q.1 q.2 Colour

/-- The calls of `ILI9341_Draw_Image` after its address window: data mode,
select, the chunks, deselect. -/
def imageTransferEvents (cfg : Config) (Image_Array : List Nat) : List Event :=
  [Event.gpio Pin.DC PinState.GPIO_PIN_SET,
   Event.gpio Pin.CHIP_SELECT PinState.GPIO_PIN_RESET]
  ++ imageChunkEvents cfg Image_Array
       (cfg.ILI9341_SCREEN_WIDTH * cfg.ILI9341_SCREEN_HEIGHT * 2 / cfg.BURST_MAX_SIZE) 0
  ++ [Event.gpio Pin.CHIP_SELECT PinState.GPIO_PIN_SET]

/-- The sample configuration with the size macros of a panel that is 320 wide
and 240 high in its native orientation. -/
def landscapeConfig : Config :=
  { sampleConfig with ILI9341_SCREEN_WIDTH := 320, ILI9341_SCREEN_HEIGHT := 240 }

/-- The statement guarded by the bit test in the loops of `ILI9341_Draw_Char`,
for the cell `c = (j, i)`: a pixel when `Size == 1`, a `Size` by `Size`
rectangle otherwise, with the coordinates converted to `uint16_t` as the
calls do. -/
def drawCharBlock (cfg : Config) (X Y Colour Size : Nat) (c : Nat × Nat) (s : Lcd) :
    Except Fault Lcd :=
  if Size = 1 then
    Except.ok (ILI9341_Draw_Pixel (u16 ((X : Int) + c.1)) (u16 ((Y : Int) + c.2)) Colour s)
  else
    ILI9341_Draw_Rectangle cfg (u16 ((X : Int) + c.1 * Size)) (u16 ((Y : Int) + c.2 * Size))
      Size Size Colour s

/-- A sequence of steps, one per listed cell, stopping at the first fault. -/
def forEachCell (body : Nat × Nat → Lcd → Except Fault Lcd) :
    List (Nat × Nat) → Lcd → Except Fault Lcd
  | [], s => Except.ok s
  | c :: cs, s => andThen (body c s) (forEachCell body cs)

/-- The cells `(j, i)` with `j < CHAR_WIDTH`, `i < CHAR_HEIGHT` and bit `i` of
the glyph column `temp j` set, in the order of the two nested loops (column
by column, rows ascending). -/
def setCells (cfg : Config) (temp : Nat → Nat) : List (Nat × Nat) :=
  (List.range cfg.CHAR_WIDTH).flatMap fun j =>
    ((List.range cfg.CHAR_HEIGHT).filter fun i => decide (temp j &&& (1 <<< i) ≠ 0)).map
      fun i => (j, i)

/-- The foreground operation for the cell `c = (j, i)` as the specification
words it, in unbounded arithmetic: `Draw_Pixel(X+j, Y+i, fg)` when the scale
is 1, `Draw_Rectangle(X+j*S, Y+i*S, S, S, fg)` otherwise. -/
def foregroundOp_spec (cfg : Config) (X Y Colour Size : Nat) (c : Nat × Nat) (s : Lcd) :
    Except Fault Lcd :=
  if Size = 1 then Except.ok (ILI9341_Draw_Pixel (X + c.1) (Y + c.2) Colour s)
  else ILI9341_Draw_Rectangle cfg (X + c.1 * Size) (Y + c.2 * Size) Size Size Colour s

/-- The character call as the specification words it, in unbounded
arithmetic: the background rectangle of `CHAR_WIDTH*S` by `CHAR_HEIGHT*S`,
then the foreground operation of each set cell. -/
def drawChar_spec (cfg : Config) (temp : Nat → Nat) (X Y Colour Size Background_Colour : Nat)
    (s : Lcd) : Except Fault Lcd :=
  andThen (ILI9341_Draw_Rectangle cfg X Y (cfg.CHAR_WIDTH * Size) (cfg.CHAR_HEIGHT * Size)
      Background_Colour s)
    (forEachCell (foregroundOp_spec cfg X Y Colour Size) (setCells cfg temp))

/-- The buffer length as the specification words it: `min(count*2, BURST_MAX_SIZE)`
bytes. -/
def bufferSize_spec (cfg : Config) (count : Nat) : Nat :=
  min (count * 2) cfg.BURST_MAX_SIZE

/-! ## Basic facts -/

theorem emit_eq_appendTrace (e : Event) (s : Lcd) : emit e s = appendTrace [e] s := rfl

theorem appendTrace_appendTrace (a b : List Event) (s : Lcd) :
    appendTrace a (appendTrace b s) = appendTrace (b ++ a) s := by
  simp [appendTrace, List.append_assoc]

theorem appendTrace_nil (s : Lcd) : appendTrace [] s = s := by
  simp [appendTrace]

theorem txLength_append (a b : List Event) : txLength (a ++ b) = txLength a + txLength b := by
  induction a with
  | nil => simp [txLength]
  | cons e es ih =>
    cases e <;> simp [txLength, ih, Nat.add_assoc]

theorem txLength_replicate_transmit (n : Nat) (bs : List Nat) :
    txLength (List.replicate n (Event.transmit bs)) = n * bs.length := by
  induction n with
  | zero => simp [txLength]
  | succ n ih => simp [List.replicate_succ, txLength, ih, Nat.succ_mul, Nat.add_comm]

theorem txBytes_append (a b : List Event) : txBytes (a ++ b) = txBytes a ++ txBytes b := by
  induction a with
  | nil => simp [txBytes]
  | cons e es ih =>
    cases e <;> simp [txBytes, ih, List.append_assoc]

theorem transmits_append (a b : List Event) : transmits (a ++ b) = transmits a ++ transmits b := by
  induction a with
  | nil => simp [transmits]
  | cons e es ih =>
    cases e <;> simp [transmits, ih]

theorem transmits_replicate_transmit (n : Nat) (bs : List Nat) :
    transmits (List.replicate n (Event.transmit bs)) = List.replicate n bs := by
  induction n with
  | zero => simp [transmits]
  | succ n ih => simp [List.replicate_succ, transmits, ih]

theorem fillBurstBuffer_length (hi lo : Nat) (fuel j : Nat) (buf : List Nat) :
    (fillBurstBuffer hi lo fuel j buf).length = buf.length := by
  induction fuel generalizing j buf with
  | zero => simp [fillBurstBuffer]
  | succ n ih =>
    simp only [fillBurstBuffer]
    split
    · rw [ih]; simp
    · rfl

theorem burstBuffer_length (cfg : Config) (Colour Size : Nat) :
    (burstBuffer cfg Colour Size).length = burstBufferSize cfg Size := by
  simp [burstBuffer, fillBurstBuffer_length]

theorem sendBlocks_eq (buf : List Nat) (n : Nat) (s : Lcd) :
    sendBlocks buf n s = appendTrace (List.replicate n (Event.transmit buf)) s := by
  induction n generalizing s with
  | zero => simp [sendBlocks, appendTrace_nil]
  | succ n ih =>
    simp [sendBlocks, ih, HAL_SPI_Transmit, emit_eq_appendTrace, appendTrace_appendTrace,
      List.replicate_succ]

/-- A burst whose buffer size is not zero returns, having made exactly the
calls `burstEvents`. -/
theorem burst_eq_of_ne_zero (cfg : Config) (Colour Size : Nat) (s : Lcd)
    (h : burstBufferSize cfg Size ≠ 0) :
    ILI9341_Draw_Colour_Burst cfg Colour Size s
      = Except.ok (appendTrace (burstEvents cfg Colour Size) s) := by
  have hB : (if u32 ((Size : Int) * 2) < cfg.BURST_MAX_SIZE then Size else cfg.BURST_MAX_SIZE)
      = burstBufferSize cfg Size := rfl
  have hbuf : fillBurstBuffer (u8 (Colour >>> 8)) (u8 Colour) (burstBufferSize cfg Size) 0
      (List.replicate (burstBufferSize cfg Size) 0) = burstBuffer cfg Colour Size := rfl
  unfold ILI9341_Draw_Colour_Burst
  simp only [hB, hbuf]
  rw [if_neg h]
  by_cases hb : u32 ((Size : Int) * 2) / burstBufferSize cfg Size = 0
  · simp [hb, burstEvents, HAL_SPI_Transmit, HAL_GPIO_WritePin, emit_eq_appendTrace,
      appendTrace_appendTrace]
  · simp [hb, burstEvents, sendBlocks_eq, HAL_SPI_Transmit, HAL_GPIO_WritePin,
      emit_eq_appendTrace, appendTrace_appendTrace]

/-- A burst whose buffer size is zero stops at the division, after the two
pin writes. -/
theorem burst_eq_of_zero (cfg : Config) (Colour Size : Nat) (s : Lcd)
    (h : burstBufferSize cfg Size = 0) :
    ILI9341_Draw_Colour_Burst cfg Colour Size s
      = Except.error (Fault.divByZero (appendTrace
          [Event.gpio Pin.DC PinState.GPIO_PIN_SET,
           Event.gpio Pin.CHIP_SELECT PinState.GPIO_PIN_RESET] s)) := by
  have hB : (if u32 ((Size : Int) * 2) < cfg.BURST_MAX_SIZE then Size else cfg.BURST_MAX_SIZE)
      = burstBufferSize cfg Size := rfl
  unfold ILI9341_Draw_Colour_Burst
  simp only [hB]
  rw [if_pos h]
  simp [HAL_GPIO_WritePin, emit_eq_appendTrace, appendTrace_appendTrace]

theorem txLength_burstEvents (cfg : Config) (Colour Size : Nat)
    (h : burstBufferSize cfg Size ≠ 0) :
    txLength (burstEvents cfg Colour Size) = u32 ((Size : Int) * 2) := by
  unfold burstEvents
  rw [txLength_append, txLength_append, txLength_replicate_transmit, burstBuffer_length]
  simp only [txLength, List.length_take, burstBuffer_length]
  have hm : u32 ((Size : Int) * 2) % burstBufferSize cfg Size < burstBufferSize cfg Size :=
    Nat.mod_lt _ (Nat.pos_of_ne_zero h)
  have hd := Nat.div_add_mod (u32 ((Size : Int) * 2)) (burstBufferSize cfg Size)
  rw [Nat.min_eq_left (Nat.le_of_lt hm)]
  rw [Nat.mul_comm] at hd
  omega

theorem u32_double (count : Nat) (h : count < 2 ^ 31) : u32 ((count : Int) * 2) = count * 2 := by
  unfold u32
  omega

/-! ## Burst pipeline: statements -/

/-- C1: for every colour, every chunk constant `BURST_MAX_SIZE ≥ 2` and every
pixel count with `1 ≤ count < 2^31`, `ILI9341_Draw_Colour_Burst` returns, and
the lengths of all the transmits it issued sum to exactly `count * 2` bytes. -/
theorem burst_total_bytes (cfg : Config) (Colour count : Nat) (s : Lcd)
    (hB : 2 ≤ cfg.BURST_MAX_SIZE) (h1 : 1 ≤ count) (h2 : count < 2 ^ 31) :
    ∃ evs, ILI9341_Draw_Colour_Burst cfg Colour count s
        = Except.ok { s with trace := s.trace ++ evs } ∧ txLength evs = count * 2 := by
  have hne : burstBufferSize cfg count ≠ 0 := by
    unfold burstBufferSize
    split <;> omega
  refine ⟨burstEvents cfg Colour count, ?_, ?_⟩
  · exact burst_eq_of_ne_zero cfg Colour count s hne
  · rw [txLength_burstEvents cfg Colour count hne, u32_double count h2]

/-- Instance of `burst_total_bytes`: 3 pixels with the sample configuration. -/
theorem burst_total_bytes_witness :
    ∃ evs, ILI9341_Draw_Colour_Burst sampleConfig 0x1234 3 (initialLcd sampleConfig)
        = Except.ok { initialLcd sampleConfig with
            trace := (initialLcd sampleConfig).trace ++ evs } ∧ txLength evs = 3 * 2 :=
  burst_total_bytes sampleConfig 0x1234 3 (initialLcd sampleConfig)
    (by decide) (by decide) (by decide)

/-- C2 (evaluation at the failing input): with any chunk constant above 2, a
burst of one pixel of colour `0x1234` transmits the one-byte buffer `[0x12]`
twice, so the bytes on the wire are `0x12, 0x12` and not `0x12, 0x34`. -/
theorem burst_one_pixel_bytes (cfg : Config) (s : Lcd) (hB : 2 < cfg.BURST_MAX_SIZE) :
    ILI9341_Draw_Colour_Burst cfg 0x1234 1 s
      = Except.ok { s with trace := s.trace ++
          [Event.gpio Pin.DC PinState.GPIO_PIN_SET,
           Event.gpio Pin.CHIP_SELECT PinState.GPIO_PIN_RESET,
           Event.transmit [0x12], Event.transmit [0x12], Event.transmit [],
           Event.gpio Pin.CHIP_SELECT PinState.GPIO_PIN_SET] } := by
  have hsz : burstBufferSize cfg 1 = 1 := by
    unfold burstBufferSize
    rw [if_pos]
    show u32 2 < cfg.BURST_MAX_SIZE
    have : u32 2 = 2 := by decide
    omega
  rw [burst_eq_of_ne_zero cfg 0x1234 1 s (by omega)]
  have hbuf : burstBuffer cfg 0x1234 1 = [0x12] := by
    unfold burstBuffer
    rw [hsz]
    decide
  have h2 : u32 2 = 2 := by decide
  simp [burstEvents, hsz, hbuf, h2, appendTrace, List.replicate]

/-- Instance of `burst_one_pixel_bytes` with the sample configuration. -/
theorem burst_one_pixel_bytes_witness :
    ILI9341_Draw_Colour_Burst sampleConfig 0x1234 1 (initialLcd sampleConfig)
      = Except.ok { initialLcd sampleConfig with trace := (initialLcd sampleConfig).trace ++
          [Event.gpio Pin.DC PinState.GPIO_PIN_SET,
           Event.gpio Pin.CHIP_SELECT PinState.GPIO_PIN_RESET,
           Event.transmit [0x12], Event.transmit [0x12], Event.transmit [],
           Event.gpio Pin.CHIP_SELECT PinState.GPIO_PIN_SET] } :=
  burst_one_pixel_bytes sampleConfig (initialLcd sampleConfig) (by decide)

/-- C3 (evaluation at the failing input): with `Size = 0` the burst writes the
two pins, gets `Buffer_Size = 0`, and stops at the division by it. -/
theorem burst_zero_count_divides_by_zero (cfg : Config) (Colour : Nat) (s : Lcd) :
    ILI9341_Draw_Colour_Burst cfg Colour 0 s
      = Except.error (Fault.divByZero { s with trace := s.trace ++
          [Event.gpio Pin.DC PinState.GPIO_PIN_SET,
           Event.gpio Pin.CHIP_SELECT PinState.GPIO_PIN_RESET] }) := by
  have hsz : burstBufferSize cfg 0 = 0 := by
    unfold burstBufferSize
    split
    · rfl
    · rename_i h
      have : u32 (((0 : Nat) : Int) * 2) = 0 := by decide
      omega
  exact burst_eq_of_zero cfg Colour 0 s hsz

/-! ## Pixel -/

theorem u8_of_lt (n : Nat) (h : n < 256) : u8 n = n := by
  unfold u8
  omega

theorem u8_shift_of_lt (n : Nat) (h : n < 65536) : u8 ((n >>> 8 : Nat) : Int) = n >>> 8 := by
  rw [Nat.shiftRight_eq_div_pow]
  apply u8_of_lt
  omega

theorem u8_low (n : Nat) : u8 (n : Int) = n &&& 0xFF := by
  have h := Nat.and_pow_two_sub_one_eq_mod n 8
  have h' : n &&& 0xFF = n % 256 := by simpa using h
  rw [h']
  unfold u8
  omega

theorem drawPixel_of_inBounds (X Y Colour : Nat) (s : Lcd)
    (hX : X < s.LCD_WIDTH) (hY : Y < s.LCD_HEIGHT) :
    ILI9341_Draw_Pixel X Y Colour s = appendTrace (drawPixelEvents X Y Colour) s := by
  unfold ILI9341_Draw_Pixel
  rw [if_neg (by omega)]
  simp [HAL_GPIO_WritePin, HAL_SPI_Transmit, ILI9341_SPI_SEND, emit_eq_appendTrace,
    appendTrace_appendTrace, drawPixelEvents]

theorem drawPixel_of_outOfBounds (X Y Colour : Nat) (s : Lcd)
    (h : X ≥ s.LCD_WIDTH ∨ Y ≥ s.LCD_HEIGHT) :
    ILI9341_Draw_Pixel X Y Colour s = s := by
  unfold ILI9341_Draw_Pixel
  rw [if_pos h]

/-- C4: for every geometry, every colour and every `(X, Y)` with
`X ≥ LCD_WIDTH` or `Y ≥ LCD_HEIGHT`, `ILI9341_Draw_Pixel` returns the state it
was given: no call is added to the trace and the geometry is unchanged. -/
theorem draw_pixel_out_of_bounds_noop (X Y Colour : Nat) (s : Lcd)
    (h : X ≥ s.LCD_WIDTH ∨ Y ≥ s.LCD_HEIGHT) :
    ILI9341_Draw_Pixel X Y Colour s = s ∧
    (ILI9341_Draw_Pixel X Y Colour s).trace = s.trace ∧
    geometry (ILI9341_Draw_Pixel X Y Colour s) = geometry s := by
  rw [drawPixel_of_outOfBounds X Y Colour s h]
  exact ⟨rfl, rfl, rfl⟩

/-- Instance of `draw_pixel_out_of_bounds_noop`: column 240 of a 240-wide panel. -/
theorem draw_pixel_out_of_bounds_noop_witness :
    ILI9341_Draw_Pixel 240 5 0xF800 (initialLcd sampleConfig) = initialLcd sampleConfig ∧
    (ILI9341_Draw_Pixel 240 5 0xF800 (initialLcd sampleConfig)).trace
      = (initialLcd sampleConfig).trace ∧
    geometry (ILI9341_Draw_Pixel 240 5 0xF800 (initialLcd sampleConfig))
      = geometry (initialLcd sampleConfig) :=
  draw_pixel_out_of_bounds_noop 240 5 0xF800 (initialLcd sampleConfig) (by decide)

/-- C5 (as stated, refuted): for the in-bounds point `(10, 20)` the bytes sent
are not those of a 1x1 window `10..10`, `20..20` followed by the colour. -/
theorem draw_pixel_window_is_not_1x1 :
    txBytes (ILI9341_Draw_Pixel 10 20 0xF800 (initialLcd sampleConfig)).trace
      ≠ pixelBytes_spec 10 20 0xF800 := by
  decide

/-- C5 (amended): for every `(X, Y)` with `X < LCD_WIDTH` and `Y < LCD_HEIGHT`
the call makes exactly these calls: command `0x2A`, one 4-byte transmit with
the big-endian column bounds `X` and `X + 1`, command `0x2B`, one 4-byte
transmit with the big-endian row bounds `Y` and `Y + 1`, the memory-write
command `0x2C`, and one 2-byte transmit `(Colour >> 8, Colour & 0xFF)`. -/
theorem draw_pixel_in_bounds (X Y Colour : Nat) (s : Lcd)
    (hW : s.LCD_WIDTH < 65536) (hH : s.LCD_HEIGHT < 65536) (hC : Colour < 65536)
    (hX : X < s.LCD_WIDTH) (hY : Y < s.LCD_HEIGHT) :
    ILI9341_Draw_Pixel X Y Colour s = { s with trace := s.trace ++
      [Event.gpio Pin.DC PinState.GPIO_PIN_RESET,
       Event.gpio Pin.CHIP_SELECT PinState.GPIO_PIN_RESET,
       Event.transmit [0x2A],
       Event.gpio Pin.DC PinState.GPIO_PIN_SET,
       Event.gpio Pin.CHIP_SELECT PinState.GPIO_PIN_SET,
       Event.gpio Pin.CHIP_SELECT PinState.GPIO_PIN_RESET,
       Event.transmit [X >>> 8, X &&& 0xFF, (X + 1) >>> 8, (X + 1) &&& 0xFF],
       Event.gpio Pin.CHIP_SELECT PinState.GPIO_PIN_SET,
       Event.gpio Pin.DC PinState.GPIO_PIN_RESET,
       Event.gpio Pin.CHIP_SELECT PinState.GPIO_PIN_RESET,
       Event.transmit [0x2B],
       Event.gpio Pin.DC PinState.GPIO_PIN_SET,
       Event.gpio Pin.CHIP_SELECT PinState.GPIO_PIN_SET,
       Event.gpio Pin.CHIP_SELECT PinState.GPIO_PIN_RESET,
       Event.transmit [Y >>> 8, Y &&& 0xFF, (Y + 1) >>> 8, (Y + 1) &&& 0xFF],
       Event.gpio Pin.CHIP_SELECT PinState.GPIO_PIN_SET,
       Event.gpio Pin.DC PinState.GPIO_PIN_RESET,
       Event.gpio Pin.CHIP_SELECT PinState.GPIO_PIN_RESET,
       Event.transmit [0x2C],
       Event.gpio Pin.DC PinState.GPIO_PIN_SET,
       Event.gpio Pin.CHIP_SELECT PinState.GPIO_PIN_SET,
       Event.gpio Pin.CHIP_SELECT PinState.GPIO_PIN_RESET,
       Event.transmit [Colour >>> 8, Colour &&& 0xFF],
       Event.gpio Pin.CHIP_SELECT PinState.GPIO_PIN_SET] } := by
  rw [drawPixel_of_inBounds X Y Colour s hX hY]
  unfold drawPixelEvents appendTrace
  rw [u8_shift_of_lt X (by omega), u8_shift_of_lt (X + 1) (by omega),
    u8_shift_of_lt Y (by omega), u8_shift_of_lt (Y + 1) (by omega),
    u8_shift_of_lt Colour hC, u8_low X, u8_low Y, u8_low Colour,
    show ((X : Int) + 1) = ((X + 1 : Nat) : Int) from by push_cast; rfl,
    show ((Y : Int) + 1) = ((Y + 1 : Nat) : Int) from by push_cast; rfl,
    u8_low (X + 1), u8_low (Y + 1)]

/-- Instance of `draw_pixel_in_bounds`: the point `(10, 20)` on the 240x320 panel. -/
theorem draw_pixel_in_bounds_witness :
    ILI9341_Draw_Pixel 10 20 0xF800 (initialLcd sampleConfig)
      = { initialLcd sampleConfig with trace := (initialLcd sampleConfig).trace ++
      [Event.gpio Pin.DC PinState.GPIO_PIN_RESET,
       Event.gpio Pin.CHIP_SELECT PinState.GPIO_PIN_RESET,
       Event.transmit [0x2A],
       Event.gpio Pin.DC PinState.GPIO_PIN_SET,
       Event.gpio Pin.CHIP_SELECT PinState.GPIO_PIN_SET,
       Event.gpio Pin.CHIP_SELECT PinState.GPIO_PIN_RESET,
       Event.transmit [10 >>> 8, 10 &&& 0xFF, (10 + 1) >>> 8, (10 + 1) &&& 0xFF],
       Event.gpio Pin.CHIP_SELECT PinState.GPIO_PIN_SET,
       Event.gpio Pin.DC PinState.GPIO_PIN_RESET,
       Event.gpio Pin.CHIP_SELECT PinState.GPIO_PIN_RESET,
       Event.transmit [0x2B],
       Event.gpio Pin.DC PinState.GPIO_PIN_SET,
       Event.gpio Pin.CHIP_SELECT PinState.GPIO_PIN_SET,
       Event.gpio Pin.CHIP_SELECT PinState.GPIO_PIN_RESET,
       Event.transmit [20 >>> 8, 20 &&& 0xFF, (20 + 1) >>> 8, (20 + 1) &&& 0xFF],
       Event.gpio Pin.CHIP_SELECT PinState.GPIO_PIN_SET,
       Event.gpio Pin.DC PinState.GPIO_PIN_RESET,
       Event.gpio Pin.CHIP_SELECT PinState.GPIO_PIN_RESET,
       Event.transmit [0x2C],
       Event.gpio Pin.DC PinState.GPIO_PIN_SET,
       Event.gpio Pin.CHIP_SELECT PinState.GPIO_PIN_SET,
       Event.gpio Pin.CHIP_SELECT PinState.GPIO_PIN_RESET,
       Event.transmit [0xF800 >>> 8, 0xF800 &&& 0xFF],
       Event.gpio Pin.CHIP_SELECT PinState.GPIO_PIN_SET] } :=
  draw_pixel_in_bounds 10 20 0xF800 (initialLcd sampleConfig)
    (by decide) (by decide) (by decide) (by decide) (by decide)

/-! ## Rectangles and lines -/

theorem u16_of_lt (n : Nat) (h : n < 65536) : u16 n = n := by
  unfold u16
  omega

/-- C6: for every geometry (16-bit, area below `2^31`), every origin with
`X < LCD_WIDTH` and `Y < LCD_HEIGHT` and every 16-bit `W ≥ 1`, `H ≥ 1`, with
`w' = min W (LCD_WIDTH - X)` and `h' = min H (LCD_HEIGHT - Y)`:
`ILI9341_Draw_Rectangle` sets the address window `(X, Y, X+w'-1, Y+h'-1)` and
then runs the burst for exactly `w' * h'` pixels, which returns after
transmitting `w' * h' * 2` bytes; and whenever `X + W - 1 ≥ LCD_WIDTH` the
drawn width `w'` is exactly `LCD_WIDTH - X`. -/
theorem draw_rectangle_clamped (cfg : Config) (X Y W H Colour : Nat) (s : Lcd)
    (hB : 1 ≤ cfg.BURST_MAX_SIZE)
    (hGW : s.LCD_WIDTH < 65536) (hGH : s.LCD_HEIGHT < 65536)
    (hArea : s.LCD_WIDTH * s.LCD_HEIGHT < 2 ^ 31)
    (hX : X < s.LCD_WIDTH) (hY : Y < s.LCD_HEIGHT)
    (hW1 : 1 ≤ W) (hW : W < 65536) (hH1 : 1 ≤ H) (hH : H < 65536) :
    ILI9341_Draw_Rectangle cfg X Y W H Colour s
      = ILI9341_Draw_Colour_Burst cfg Colour
          (min W (s.LCD_WIDTH - X) * min H (s.LCD_HEIGHT - Y))
          (ILI9341_Set_Address X Y (X + min W (s.LCD_WIDTH - X) - 1)
            (Y + min H (s.LCD_HEIGHT - Y) - 1) s) ∧
    (∃ evs, ILI9341_Draw_Rectangle cfg X Y W H Colour s
        = Except.ok (appendTrace evs (ILI9341_Set_Address X Y (X + min W (s.LCD_WIDTH - X) - 1)
            (Y + min H (s.LCD_HEIGHT - Y) - 1) s)) ∧
      txLength evs = min W (s.LCD_WIDTH - X) * min H (s.LCD_HEIGHT - Y) * 2) ∧
    (X + W - 1 ≥ s.LCD_WIDTH → min W (s.LCD_WIDTH - X) = s.LCD_WIDTH - X) := by
  have hw' : (if (X : Int) + W - 1 ≥ s.LCD_WIDTH then u16 ((s.LCD_WIDTH : Int) - X) else W)
      = min W (s.LCD_WIDTH - X) := by
    unfold u16
    split <;> omega
  have hh' : (if (Y : Int) + H - 1 ≥ s.LCD_HEIGHT then u16 ((s.LCD_HEIGHT : Int) - Y) else H)
      = min H (s.LCD_HEIGHT - Y) := by
    unfold u16
    split <;> omega
  have hwpos : 1 ≤ min W (s.LCD_WIDTH - X) := by omega
  have hhpos : 1 ≤ min H (s.LCD_HEIGHT - Y) := by omega
  have hwle : min W (s.LCD_WIDTH - X) ≤ s.LCD_WIDTH := by omega
  have hhle : min H (s.LCD_HEIGHT - Y) ≤ s.LCD_HEIGHT := by omega
  have hprod : min W (s.LCD_WIDTH - X) * min H (s.LCD_HEIGHT - Y) < 2 ^ 31 :=
    Nat.lt_of_le_of_lt (Nat.mul_le_mul hwle hhle) hArea
  have hprod1 : 1 ≤ min W (s.LCD_WIDTH - X) * min H (s.LCD_HEIGHT - Y) :=
    Nat.mul_le_mul hwpos hhpos
  have hx2 : u16 ((X : Int) + (min W (s.LCD_WIDTH - X) : Nat) - 1)
      = X + min W (s.LCD_WIDTH - X) - 1 := by
    unfold u16
    omega
  have hy2 : u16 ((Y : Int) + (min H (s.LCD_HEIGHT - Y) : Nat) - 1)
      = Y + min H (s.LCD_HEIGHT - Y) - 1 := by
    unfold u16
    omega
  have hsz : u32 (((min H (s.LCD_HEIGHT - Y) : Nat) : Int) * (min W (s.LCD_WIDTH - X) : Nat))
      = min W (s.LCD_WIDTH - X) * min H (s.LCD_HEIGHT - Y) := by
    have hc : ((min H (s.LCD_HEIGHT - Y) : Nat) : Int) * (min W (s.LCD_WIDTH - X) : Nat)
        = ((min W (s.LCD_WIDTH - X) * min H (s.LCD_HEIGHT - Y) : Nat) : Int) := by
      push_cast
      ring
    rw [hc]
    unfold u32
    omega
  have hmain : ILI9341_Draw_Rectangle cfg X Y W H Colour s
      = ILI9341_Draw_Colour_Burst cfg Colour
          (min W (s.LCD_WIDTH - X) * min H (s.LCD_HEIGHT - Y))
          (ILI9341_Set_Address X Y (X + min W (s.LCD_WIDTH - X) - 1)
            (Y + min H (s.LCD_HEIGHT - Y) - 1) s) := by
    unfold ILI9341_Draw_Rectangle
    rw [if_neg (by omega)]
    simp only [hw', hh', hx2, hy2, hsz]
  have hne : burstBufferSize cfg (min W (s.LCD_WIDTH - X) * min H (s.LCD_HEIGHT - Y)) ≠ 0 := by
    unfold burstBufferSize
    split <;> omega
  refine ⟨hmain, ⟨burstEvents cfg Colour
    (min W (s.LCD_WIDTH - X) * min H (s.LCD_HEIGHT - Y)), ?_, ?_⟩, by omega⟩
  · rw [hmain, burst_eq_of_ne_zero _ _ _ _ hne]
  · rw [txLength_burstEvents _ _ _ hne, u32_double _ hprod]

/-- Instance of `draw_rectangle_clamped`: `Draw_Rectangle(238, 0, 10, 10, c)` on
the 240-wide panel addresses columns 238..239, rows 0..9, and the burst is for
`2 * 10` pixels (40 bytes). -/
theorem draw_rectangle_clamped_witness :
    ILI9341_Draw_Rectangle sampleConfig 238 0 10 10 0xF800 (initialLcd sampleConfig)
      = ILI9341_Draw_Colour_Burst sampleConfig 0xF800 (2 * 10)
          (ILI9341_Set_Address 238 0 239 9 (initialLcd sampleConfig)) ∧
    (∃ evs, ILI9341_Draw_Rectangle sampleConfig 238 0 10 10 0xF800 (initialLcd sampleConfig)
        = Except.ok (appendTrace evs (ILI9341_Set_Address 238 0 239 9 (initialLcd sampleConfig))) ∧
      txLength evs = 2 * 10 * 2) ∧
    (238 + 10 - 1 ≥ 240 → min 10 (240 - 238) = 240 - 238) :=
  draw_rectangle_clamped sampleConfig 238 0 10 10 0xF800 (initialLcd sampleConfig)
    (by decide) (by decide) (by decide) (by decide) (by decide) (by decide)
    (by decide) (by decide) (by decide) (by decide)

/-- C7: for every origin with `X ≥ LCD_WIDTH` or `Y ≥ LCD_HEIGHT` (any size,
any colour), `ILI9341_Draw_Rectangle`, `ILI9341_Draw_Horizontal_Line` and
`ILI9341_Draw_Vertical_Line` return the state they were given: no call is
added to the trace and the geometry is unchanged. -/
theorem out_of_bounds_origin_noop (cfg : Config) (X Y W H Colour : Nat) (s : Lcd)
    (h : X ≥ s.LCD_WIDTH ∨ Y ≥ s.LCD_HEIGHT) :
    ILI9341_Draw_Rectangle cfg X Y W H Colour s = Except.ok s ∧
    ILI9341_Draw_Horizontal_Line cfg X Y W Colour s = Except.ok s ∧
    ILI9341_Draw_Vertical_Line cfg X Y H Colour s = Except.ok s := by
  refine ⟨?_, ?_, ?_⟩
  · unfold ILI9341_Draw_Rectangle
    rw [if_pos h]
  · unfold ILI9341_Draw_Horizontal_Line
    rw [if_pos h]
  · unfold ILI9341_Draw_Vertical_Line
    rw [if_pos h]

/-- Instance of `out_of_bounds_origin_noop`: row 320 of a 320-high panel. -/
theorem out_of_bounds_origin_noop_witness :
    ILI9341_Draw_Rectangle sampleConfig 3 320 10 7 0x001F (initialLcd sampleConfig)
      = Except.ok (initialLcd sampleConfig) ∧
    ILI9341_Draw_Horizontal_Line sampleConfig 3 320 10 0x001F (initialLcd sampleConfig)
      = Except.ok (initialLcd sampleConfig) ∧
    ILI9341_Draw_Vertical_Line sampleConfig 3 320 7 0x001F (initialLcd sampleConfig)
      = Except.ok (initialLcd sampleConfig) :=
  out_of_bounds_origin_noop sampleConfig 3 320 10 7 0x001F (initialLcd sampleConfig)
    (by decide)

/-! ## Orientation -/

theorem writeCommand_eq (c : Nat) (s : Lcd) :
    ILI9341_Write_Command c s = appendTrace
      [Event.gpio Pin.CHIP_SELECT PinState.GPIO_PIN_RESET,
       Event.gpio Pin.DC PinState.GPIO_PIN_RESET,
       Event.transmit [c],
       Event.gpio Pin.CHIP_SELECT PinState.GPIO_PIN_SET] s := by
  simp [ILI9341_Write_Command, HAL_GPIO_WritePin, HAL_SPI_Transmit, ILI9341_SPI_SEND,
    emit_eq_appendTrace, appendTrace_appendTrace]

theorem writeData_eq (d : Nat) (s : Lcd) :
    ILI9341_Write_Data d s = appendTrace
      [Event.gpio Pin.DC PinState.GPIO_PIN_SET,
       Event.gpio Pin.CHIP_SELECT PinState.GPIO_PIN_RESET,
       Event.transmit [d],
       Event.gpio Pin.CHIP_SELECT PinState.GPIO_PIN_SET] s := by
  simp [ILI9341_Write_Data, HAL_GPIO_WritePin, HAL_SPI_Transmit, ILI9341_SPI_SEND,
    emit_eq_appendTrace, appendTrace_appendTrace]

theorem appendTrace_width (evs : List Event) (s : Lcd) :
    (appendTrace evs s).LCD_WIDTH = s.LCD_WIDTH := rfl

theorem appendTrace_height (evs : List Event) (s : Lcd) :
    (appendTrace evs s).LCD_HEIGHT = s.LCD_HEIGHT := rfl

theorem geometry_appendTrace (evs : List Event) (s : Lcd) :
    geometry (appendTrace evs s) = geometry s := rfl

/-- After `ILI9341_Set_Rotation` the geometry is one of the two panel
geometries or the one before the call. -/
theorem setRotation_geometry_cases (cfg : Config) (r : Nat) (s : Lcd) :
    geometry (ILI9341_Set_Rotation cfg r s) = (240, 320) ∨
    geometry (ILI9341_Set_Rotation cfg r s) = (320, 240) ∨
    geometry (ILI9341_Set_Rotation cfg r s) = geometry s := by
  unfold ILI9341_Set_Rotation
  simp only [writeCommand_eq, writeData_eq, HAL_Delay, emit_eq_appendTrace]
  split
  · exact Or.inl rfl
  · split
    · exact Or.inr (Or.inl rfl)
    · split
      · exact Or.inl rfl
      · split
        · exact Or.inr (Or.inl rfl)
        · exact Or.inr (Or.inr rfl)

/-- C8: with pairwise different mode constants, for every prior geometry the
geometry after `ILI9341_Set_Rotation` is `(240, 320)` for `SCREEN_VERTICAL_1`
and `SCREEN_VERTICAL_2`, `(320, 240)` for `SCREEN_HORIZONTAL_1` and
`SCREEN_HORIZONTAL_2`, and the prior geometry for every other mode value. -/
theorem set_rotation_geometry (cfg : Config) (hd : cfg.modesDistinct) (r : Nat) (s : Lcd) :
    geometry (ILI9341_Set_Rotation cfg r s) =
      if r = cfg.SCREEN_VERTICAL_1 ∨ r = cfg.SCREEN_VERTICAL_2 then (240, 320)
      else if r = cfg.SCREEN_HORIZONTAL_1 ∨ r = cfg.SCREEN_HORIZONTAL_2 then (320, 240)
      else geometry s := by
  obtain ⟨h1, h2, h3, h4, h5, h6⟩ := hd
  unfold ILI9341_Set_Rotation
  simp only [writeCommand_eq, writeData_eq, HAL_Delay, emit_eq_appendTrace]
  by_cases a : r = cfg.SCREEN_VERTICAL_1
  · simp [a, geometry]
  · by_cases b : r = cfg.SCREEN_HORIZONTAL_1
    · subst b
      simp [geometry, Ne.symm h1, h4]
    · by_cases c : r = cfg.SCREEN_VERTICAL_2
      · subst c
        simp [geometry, Ne.symm h2, Ne.symm h4]
      · by_cases d : r = cfg.SCREEN_HORIZONTAL_2
        · subst d
          simp [geometry, Ne.symm h3, Ne.symm h5, Ne.symm h6]
        · simp [a, b, c, d, geometry, appendTrace_width, appendTrace_height]

/-- Instance of `set_rotation_geometry`: `SCREEN_HORIZONTAL_2` from the
240x320 start. -/
theorem set_rotation_geometry_witness :
    sampleConfig.modesDistinct ∧
    geometry (ILI9341_Set_Rotation sampleConfig 3 (initialLcd sampleConfig)) =
      if 3 = sampleConfig.SCREEN_VERTICAL_1 ∨ 3 = sampleConfig.SCREEN_VERTICAL_2 then (240, 320)
      else if 3 = sampleConfig.SCREEN_HORIZONTAL_1 ∨ 3 = sampleConfig.SCREEN_HORIZONTAL_2
        then (320, 240)
      else geometry (initialLcd sampleConfig) :=
  ⟨by decide, set_rotation_geometry sampleConfig (by decide) 3 (initialLcd sampleConfig)⟩

/-- C9 (as stated, refuted): with the mode value 7, which is none of the four
modes of the sample configuration, `ILI9341_Set_Rotation` is not a no-op: the
command byte `0x36` is sent. -/
theorem set_rotation_invalid_mode_sends_command :
    ILI9341_Set_Rotation sampleConfig 7 (initialLcd sampleConfig) ≠ initialLcd sampleConfig ∧
    txBytes (ILI9341_Set_Rotation sampleConfig 7 (initialLcd sampleConfig)).trace = [0x36] := by
  decide

/-- C9 (amended): with a mode value that is none of the four orientation
modes, `ILI9341_Set_Rotation` leaves the geometry unchanged and sends no data
byte; the only calls it makes are the framed command byte `0x36` and the
1 ms delay. -/
theorem set_rotation_invalid_mode (cfg : Config) (r : Nat) (s : Lcd)
    (h1 : r ≠ cfg.SCREEN_VERTICAL_1) (h2 : r ≠ cfg.SCREEN_HORIZONTAL_1)
    (h3 : r ≠ cfg.SCREEN_VERTICAL_2) (h4 : r ≠ cfg.SCREEN_HORIZONTAL_2) :
    ILI9341_Set_Rotation cfg r s = { s with trace := s.trace ++
      [Event.gpio Pin.CHIP_SELECT PinState.GPIO_PIN_RESET,
       Event.gpio Pin.DC PinState.GPIO_PIN_RESET,
       Event.transmit [0x36],
       Event.gpio Pin.CHIP_SELECT PinState.GPIO_PIN_SET,
       Event.delay 1] } := by
  unfold ILI9341_Set_Rotation
  simp only [writeCommand_eq, HAL_Delay, emit_eq_appendTrace, appendTrace_appendTrace]
  simp [h1, h2, h3, h4, appendTrace]

/-- Instance of `set_rotation_invalid_mode`: mode value 7. -/
theorem set_rotation_invalid_mode_witness :
    ILI9341_Set_Rotation sampleConfig 7 (initialLcd sampleConfig)
      = { initialLcd sampleConfig with trace := (initialLcd sampleConfig).trace ++
      [Event.gpio Pin.CHIP_SELECT PinState.GPIO_PIN_RESET,
       Event.gpio Pin.DC PinState.GPIO_PIN_RESET,
       Event.transmit [0x36],
       Event.gpio Pin.CHIP_SELECT PinState.GPIO_PIN_SET,
       Event.delay 1] } :=
  set_rotation_invalid_mode sampleConfig 7 (initialLcd sampleConfig)
    (by decide) (by decide) (by decide) (by decide)

/-! ## Geometry invariant -/

theorem geometry_andThen {r : Except Fault Lcd} {f : Lcd → Except Fault Lcd} {g : Nat × Nat}
    (hr : geometry (finalState r) = g) (hf : KeepsGeometry f) :
    geometry (finalState (andThen r f)) = g := by
  cases r with
  | error e => exact hr
  | ok s =>
    show geometry (finalState (f s)) = g
    rw [hf s]
    exact hr

theorem keeps_andThen {f g : Lcd → Except Fault Lcd} (hf : KeepsGeometry f)
    (hg : KeepsGeometry g) : KeepsGeometry (fun s => andThen (f s) g) :=
  fun s => geometry_andThen (hf s) hg

theorem keeps_burst (cfg : Config) (c n : Nat) :
    KeepsGeometry (ILI9341_Draw_Colour_Burst cfg c n) := by
  intro s
  by_cases h : burstBufferSize cfg n = 0
  · rw [burst_eq_of_zero _ _ _ _ h]; rfl
  · rw [burst_eq_of_ne_zero _ _ _ _ h]; rfl

theorem geometry_setAddress (X1 Y1 X2 Y2 : Nat) (s : Lcd) :
    geometry (ILI9341_Set_Address X1 Y1 X2 Y2 s) = geometry s := by
  simp [ILI9341_Set_Address, writeCommand_eq, writeData_eq, geometry_appendTrace]

theorem geometry_drawPixel (X Y c : Nat) (s : Lcd) :
    geometry (ILI9341_Draw_Pixel X Y c s) = geometry s := by
  by_cases h : X ≥ s.LCD_WIDTH ∨ Y ≥ s.LCD_HEIGHT
  · rw [drawPixel_of_outOfBounds X Y c s h]
  · rw [drawPixel_of_inBounds X Y c s (by omega) (by omega)]
    rfl

theorem keeps_fillScreen (cfg : Config) (c : Nat) : KeepsGeometry (ILI9341_Fill_Screen cfg c) := by
  intro s
  exact (keeps_burst _ _ _ _).trans (geometry_setAddress _ _ _ _ _)

theorem keeps_drawRectangle (cfg : Config) (X Y W H c : Nat) :
    KeepsGeometry (ILI9341_Draw_Rectangle cfg X Y W H c) := by
  intro s
  unfold ILI9341_Draw_Rectangle
  split
  · rfl
  · exact (keeps_burst _ _ _ _).trans (geometry_setAddress _ _ _ _ _)

theorem keeps_drawHorizontalLine (cfg : Config) (X Y W c : Nat) :
    KeepsGeometry (ILI9341_Draw_Horizontal_Line cfg X Y W c) := by
  intro s
  unfold ILI9341_Draw_Horizontal_Line
  split
  · rfl
  · exact (keeps_burst _ _ _ _).trans (geometry_setAddress _ _ _ _ _)

theorem keeps_drawVerticalLine (cfg : Config) (X Y H c : Nat) :
    KeepsGeometry (ILI9341_Draw_Vertical_Line cfg X Y H c) := by
  intro s
  unfold ILI9341_Draw_Vertical_Line
  split
  · rfl
  · exact (keeps_burst _ _ _ _).trans (geometry_setAddress _ _ _ _ _)

theorem geometry_hollowCirclePoints (X Y c : Nat) (x y : Int) (s : Lcd) :
    geometry (hollowCirclePoints X Y c x y s) = geometry s := by
  simp [hollowCirclePoints, geometry_drawPixel]

theorem keeps_hollowCircleLoop (X Y R c : Nat) (fuel : Nat) (x y dx dy err : Int) :
    KeepsGeometry (hollowCircleLoop X Y R c fuel x y dx dy err) := by
  induction fuel generalizing x y dx dy err with
  | zero =>
    intro s
    unfold hollowCircleLoop
    split <;> rfl
  | succ n ih =>
    intro s
    unfold hollowCircleLoop
    split
    · exact (ih _ _ _ _ _ _).trans (geometry_hollowCirclePoints _ _ _ _ _ _)
    · rfl

theorem geometry_foldl_step (step : Lcd → Nat → Lcd)
    (h : ∀ s k, geometry (step s k) = geometry s) (ks : List Nat) (s : Lcd) :
    geometry (ks.foldl step s) = geometry s := by
  induction ks generalizing s with
  | nil => rfl
  | cons k ks ih => rw [List.foldl_cons, ih, h]

theorem geometry_filledCircleSpan (c : Nat) (lo hi Ya Yb : Int) (s : Lcd) :
    geometry (filledCircleSpan c lo hi Ya Yb s) = geometry s := by
  unfold filledCircleSpan
  apply geometry_foldl_step
  intro s k
  simp [geometry_drawPixel]

theorem keeps_filledCircleLoop (X Y c : Nat) (fuel : Nat) (x y xc yc re : Int) :
    KeepsGeometry (filledCircleLoop X Y c fuel x y xc yc re) := by
  induction fuel generalizing x y xc yc re with
  | zero =>
    intro s
    unfold filledCircleLoop
    split <;> rfl
  | succ n ih =>
    intro s
    unfold filledCircleLoop
    split
    · have hs : geometry (filledCircleSpan c (X - y) (X + y) (Y + x) (Y - x)
          (filledCircleSpan c (X - x) (X + x) (Y + y) (Y - y) s)) = geometry s := by
        rw [geometry_filledCircleSpan, geometry_filledCircleSpan]
      simp only []
      split
      · exact (ih _ _ _ _ _ _).trans hs
      · exact (ih _ _ _ _ _ _).trans hs
    · rfl

theorem keeps_of_pure (g : Lcd → Lcd) (h : ∀ s, geometry (g s) = geometry s) :
    KeepsGeometry (fun s => Except.ok (g s)) :=
  fun s => h s

theorem geometry_ite {p : Prop} [Decidable p] {a b : Except Fault Lcd} {g : Nat × Nat}
    (ha : geometry (finalState a) = g) (hb : geometry (finalState b) = g) :
    geometry (finalState (if p then a else b)) = g := by
  split <;> assumption

theorem keeps_drawHollowCircle (X Y R c : Nat) :
    KeepsGeometry (ILI9341_Draw_Hollow_Circle X Y R c) := by
  intro s
  unfold ILI9341_Draw_Hollow_Circle
  exact keeps_hollowCircleLoop _ _ _ _ _ _ _ _ _ _ s

theorem keeps_drawFilledCircle (X Y R c : Nat) :
    KeepsGeometry (ILI9341_Draw_Filled_Circle X Y R c) := by
  intro s
  unfold ILI9341_Draw_Filled_Circle
  exact keeps_filledCircleLoop _ _ _ _ _ _ _ _ _ s

theorem keeps_hollowRectangleCoord (cfg : Config) (X0 Y0 X1 Y1 c : Nat) :
    KeepsGeometry (ILI9341_Draw_Hollow_Rectangle_Coord cfg X0 Y0 X1 Y1 c) := by
  intro s
  unfold ILI9341_Draw_Hollow_Rectangle_Coord
  refine geometry_andThen (keeps_drawHorizontalLine _ _ _ _ _ s) ?_
  intro s
  refine geometry_andThen (keeps_drawHorizontalLine _ _ _ _ _ s) ?_
  intro s
  refine geometry_andThen (keeps_drawVerticalLine _ _ _ _ _ s) ?_
  intro s
  refine geometry_andThen (keeps_drawVerticalLine _ _ _ _ _ s) ?_
  intro s
  exact geometry_ite (geometry_drawPixel _ _ _ _) rfl

theorem keeps_filledRectangleCoord (cfg : Config) (X0 Y0 X1 Y1 c : Nat) :
    KeepsGeometry (ILI9341_Draw_Filled_Rectangle_Coord cfg X0 Y0 X1 Y1 c) := by
  intro s
  exact keeps_drawRectangle _ _ _ _ _ _ s

theorem keeps_forEach (body : Nat → Lcd → Except Fault Lcd)
    (h : ∀ k, KeepsGeometry (body k)) (ks : List Nat) : KeepsGeometry (forEach body ks) := by
  induction ks with
  | nil => intro s; rfl
  | cons k ks ih =>
    intro s
    exact geometry_andThen (h k s) ih

theorem keeps_drawCharCell (cfg : Config) (temp : Nat → Nat) (X Y c Size j i : Nat) :
    KeepsGeometry (drawCharCell cfg temp X Y c Size j i) := by
  intro s
  unfold drawCharCell
  split
  · split
    · exact geometry_drawPixel _ _ _ _
    · exact keeps_drawRectangle _ _ _ _ _ _ s
  · rfl

theorem keeps_drawChar (cfg : Config) (ch X Y c Size bg : Nat) :
    KeepsGeometry (ILI9341_Draw_Char cfg ch X Y c Size bg) := by
  intro s
  unfold ILI9341_Draw_Char
  refine geometry_andThen (keeps_drawRectangle _ _ _ _ _ _ s) ?_
  apply keeps_forEach
  intro j
  apply keeps_forEach
  intro i
  exact keeps_drawCharCell _ _ _ _ _ _ _ _

theorem keeps_drawText (cfg : Config) (Text : List Nat) (X Y c Size bg : Nat) :
    KeepsGeometry (ILI9341_Draw_Text cfg Text X Y c Size bg) := by
  induction Text generalizing X Y with
  | nil => intro s; rfl
  | cons ch rest ih =>
    intro s
    unfold ILI9341_Draw_Text
    simp only []
    split
    · rfl
    · exact geometry_andThen (keeps_drawChar _ _ _ _ _ _ _ s) (ih _ _)

theorem geometry_imageChunks (cfg : Config) (img : List Nat) (n counter : Nat) (s : Lcd) :
    geometry (imageChunks cfg img n counter s) = geometry s := by
  induction n generalizing counter s with
  | zero => rfl
  | succ n ih =>
    unfold imageChunks
    exact (ih _ _).trans rfl

theorem keeps_drawImageBody (cfg : Config) (img : List Nat) (X2 Y2 : Nat) :
    KeepsGeometry (drawImageBody cfg img X2 Y2) := by
  intro s
  unfold drawImageBody
  simp only [HAL_GPIO_WritePin, emit_eq_appendTrace]
  split
  · simp only [finalState, geometry_appendTrace, geometry_setAddress]
  · simp only [finalState, geometry_appendTrace, geometry_imageChunks, geometry_setAddress]

/-- Every operation other than `Set_Rotation` and `Draw_Image` keeps the geometry. -/
theorem keeps_of_not_setsOrientation (cfg : Config) (op : Op)
    (h : op.setsOrientation = false) : KeepsGeometry (op.run cfg) := by
  cases op with
  | Set_Rotation r => simp [Op.setsOrientation] at h
  | Draw_Image img o => simp [Op.setsOrientation] at h
  | Fill_Screen c => exact keeps_fillScreen _ _
  | Draw_Pixel x y c => exact fun s => geometry_drawPixel _ _ _ _
  | Draw_Rectangle x y w h c => exact keeps_drawRectangle _ _ _ _ _ _
  | Draw_Horizontal_Line x y w c => exact keeps_drawHorizontalLine _ _ _ _ _
  | Draw_Vertical_Line x y h c => exact keeps_drawVerticalLine _ _ _ _ _
  | Draw_Hollow_Circle x y r c => exact keeps_drawHollowCircle _ _ _ _
  | Draw_Filled_Circle x y r c => exact keeps_drawFilledCircle _ _ _ _
  | Draw_Hollow_Rectangle_Coord x0 y0 x1 y1 c => exact keeps_hollowRectangleCoord _ _ _ _ _ _
  | Draw_Filled_Rectangle_Coord x0 y0 x1 y1 c => exact keeps_filledRectangleCoord _ _ _ _ _ _
  | Draw_Char ch x y c sz bg => exact keeps_drawChar _ _ _ _ _ _ _
  | Draw_Text t x y c sz bg => exact keeps_drawText _ _ _ _ _ _ _

theorem validGeometry_setRotation (cfg : Config) (r : Nat) (s : Lcd) (h : validGeometry s) :
    validGeometry (ILI9341_Set_Rotation cfg r s) := by
  rcases setRotation_geometry_cases cfg r s with h1 | h1 | h1
  · exact Or.inl h1
  · exact Or.inr h1
  · unfold validGeometry
    rw [h1]
    exact h

theorem validGeometry_drawImage (cfg : Config) (img : List Nat) (o : Nat) (s : Lcd)
    (h : validGeometry s) : validGeometry (finalState (ILI9341_Draw_Image cfg img o s)) := by
  have key : ∀ r X2 Y2, validGeometry (finalState
      (drawImageBody cfg img X2 Y2 (ILI9341_Set_Rotation cfg r s))) := by
    intro r X2 Y2
    have hv := validGeometry_setRotation cfg r s h
    unfold validGeometry at hv ⊢
    rw [keeps_drawImageBody cfg img X2 Y2 (ILI9341_Set_Rotation cfg r s)]
    exact hv
  unfold ILI9341_Draw_Image
  split
  · exact key _ _ _
  · split
    · exact key _ _ _
    · split
      · exact key _ _ _
      · split
        · exact key _ _ _
        · exact h

theorem validGeometry_run (cfg : Config) (op : Op) (s : Lcd) (h : validGeometry s) :
    validGeometry (finalState (op.run cfg s)) := by
  cases hso : op.setsOrientation with
  | false =>
    unfold validGeometry
    rw [keeps_of_not_setsOrientation cfg op hso s]
    exact h
  | true =>
    cases op with
    | Set_Rotation r => exact validGeometry_setRotation cfg r s h
    | Draw_Image img o => exact validGeometry_drawImage cfg img o s h
    | Fill_Screen c => simp [Op.setsOrientation] at hso
    | Draw_Pixel x y c => simp [Op.setsOrientation] at hso
    | Draw_Rectangle x y w h c => simp [Op.setsOrientation] at hso
    | Draw_Horizontal_Line x y w c => simp [Op.setsOrientation] at hso
    | Draw_Vertical_Line x y h c => simp [Op.setsOrientation] at hso
    | Draw_Hollow_Circle x y r c => simp [Op.setsOrientation] at hso
    | Draw_Filled_Circle x y r c => simp [Op.setsOrientation] at hso
    | Draw_Hollow_Rectangle_Coord x0 y0 x1 y1 c => simp [Op.setsOrientation] at hso
    | Draw_Filled_Rectangle_Coord x0 y0 x1 y1 c => simp [Op.setsOrientation] at hso
    | Draw_Char ch x y c sz bg => simp [Op.setsOrientation] at hso
    | Draw_Text t x y c sz bg => simp [Op.setsOrientation] at hso

theorem validGeometry_runOps (cfg : Config) (ops : List Op) (s : Lcd) (h : validGeometry s) :
    validGeometry (finalState (runOps cfg ops s)) := by
  induction ops generalizing s with
  | nil => exact h
  | cons op ops ih =>
    have hop := validGeometry_run cfg op s h
    unfold runOps
    cases hr : op.run cfg s with
    | error e =>
      rw [hr] at hop
      exact hop
    | ok s1 =>
      rw [hr] at hop
      exact ih s1 hop

/-- C10: starting from the geometry `(240, 320)`, after any finite sequence of
public operations with arbitrary arguments the geometry is `(240, 320)` or
`(320, 240)` (also when the run stops at a fault); and every operation other
than `Set_Rotation` and `Draw_Image` leaves the geometry exactly as it was. -/
theorem geometry_invariant (cfg : Config) (ops : List Op) (s0 : Lcd)
    (h0 : geometry s0 = (240, 320)) :
    (geometry (finalState (runOps cfg ops s0)) = (240, 320) ∨
      geometry (finalState (runOps cfg ops s0)) = (320, 240)) ∧
    (∀ (op : Op) (s : Lcd), op.setsOrientation = false →
      geometry (finalState (op.run cfg s)) = geometry s) :=
  ⟨validGeometry_runOps cfg ops s0 (Or.inl h0),
   fun op s h => keeps_of_not_setsOrientation cfg op h s⟩

/-- Instance of `geometry_invariant`: a run from the initial state of the
sample configuration that rotates, draws, and passes an invalid mode. -/
theorem geometry_invariant_witness :
    geometry (initialLcd sampleConfig) = (240, 320) ∧
    ((geometry (finalState (runOps sampleConfig
        [Op.Set_Rotation 1, Op.Draw_Rectangle 238 0 10 10 0xF800,
         Op.Draw_Hollow_Circle 50 50 9 0x001F, Op.Set_Rotation 9,
         Op.Draw_Text [65, 66] 10 10 0 1 0xFFFF] (initialLcd sampleConfig))) = (240, 320) ∨
      geometry (finalState (runOps sampleConfig
        [Op.Set_Rotation 1, Op.Draw_Rectangle 238 0 10 10 0xF800,
         Op.Draw_Hollow_Circle 50 50 9 0x001F, Op.Set_Rotation 9,
         Op.Draw_Text [65, 66] 10 10 0 1 0xFFFF] (initialLcd sampleConfig))) = (320, 240)) ∧
    (∀ (op : Op) (s : Lcd), op.setsOrientation = false →
      geometry (finalState (op.run sampleConfig s)) = geometry s)) :=
  ⟨rfl, geometry_invariant sampleConfig
    [Op.Set_Rotation 1, Op.Draw_Rectangle 238 0 10 10 0xF800,
     Op.Draw_Hollow_Circle 50 50 9 0x001F, Op.Set_Rotation 9,
     Op.Draw_Text [65, 66] 10 10 0 1 0xFFFF] (initialLcd sampleConfig) rfl⟩

/-! ## Address window -/

theorem setAddress_eq (X1 Y1 X2 Y2 : Nat) (s : Lcd) :
    ILI9341_Set_Address X1 Y1 X2 Y2 s = appendTrace (setAddressEvents X1 Y1 X2 Y2) s := by
  simp [ILI9341_Set_Address, writeCommand_eq, writeData_eq, appendTrace_appendTrace,
    setAddressEvents, commandFrame, dataFrame]

theorem be16_decode (n : Nat) : (n >>> 8) * 256 + (n &&& 0xFF) = n := by
  have h := Nat.and_pow_two_sub_one_eq_mod n 8
  have h' : n &&& 0xFF = n % 256 := by simpa using h
  rw [h', Nat.shiftRight_eq_div_pow]
  omega

/-- C11: for all 16-bit `X1`, `Y1`, `X2`, `Y2`, `ILI9341_Set_Address` makes
exactly the calls of: command `0x2A`, data `X1>>8`, `X1&0xFF`, `X2>>8`,
`X2&0xFF`, command `0x2B`, data `Y1>>8`, `Y1&0xFF`, `Y2>>8`, `Y2&0xFF`,
command `0x2C`, each framed on its own; these are 11 transmits of one byte
each, nothing follows the `0x2C`, and each data-byte pair read as big-endian
(`hi*256 + lo`) gives back `X1`, `X2`, `Y1`, `Y2`. -/
theorem set_address_trace (X1 Y1 X2 Y2 : Nat) (s : Lcd)
    (hX1 : X1 < 65536) (hY1 : Y1 < 65536) (hX2 : X2 < 65536) (hY2 : Y2 < 65536) :
    ILI9341_Set_Address X1 Y1 X2 Y2 s = { s with trace := s.trace ++
      (commandFrame 0x2A ++ dataFrame (X1 >>> 8) ++ dataFrame (X1 &&& 0xFF)
        ++ dataFrame (X2 >>> 8) ++ dataFrame (X2 &&& 0xFF)
        ++ commandFrame 0x2B ++ dataFrame (Y1 >>> 8) ++ dataFrame (Y1 &&& 0xFF)
        ++ dataFrame (Y2 >>> 8) ++ dataFrame (Y2 &&& 0xFF)
        ++ commandFrame 0x2C) } ∧
    transmits (commandFrame 0x2A ++ dataFrame (X1 >>> 8) ++ dataFrame (X1 &&& 0xFF)
        ++ dataFrame (X2 >>> 8) ++ dataFrame (X2 &&& 0xFF)
        ++ commandFrame 0x2B ++ dataFrame (Y1 >>> 8) ++ dataFrame (Y1 &&& 0xFF)
        ++ dataFrame (Y2 >>> 8) ++ dataFrame (Y2 &&& 0xFF)
        ++ commandFrame 0x2C)
      = [[0x2A], [X1 >>> 8], [X1 &&& 0xFF], [X2 >>> 8], [X2 &&& 0xFF],
         [0x2B], [Y1 >>> 8], [Y1 &&& 0xFF], [Y2 >>> 8], [Y2 &&& 0xFF], [0x2C]] ∧
    (X1 >>> 8) * 256 + (X1 &&& 0xFF) = X1 ∧ (X2 >>> 8) * 256 + (X2 &&& 0xFF) = X2 ∧
    (Y1 >>> 8) * 256 + (Y1 &&& 0xFF) = Y1 ∧ (Y2 >>> 8) * 256 + (Y2 &&& 0xFF) = Y2 := by
  refine ⟨?_, ?_, be16_decode X1, be16_decode X2, be16_decode Y1, be16_decode Y2⟩
  · rw [setAddress_eq]
    unfold setAddressEvents appendTrace
    rw [u8_shift_of_lt X1 hX1, u8_shift_of_lt X2 hX2, u8_shift_of_lt Y1 hY1,
      u8_shift_of_lt Y2 hY2, u8_low X1, u8_low X2, u8_low Y1, u8_low Y2]
  · simp [commandFrame, dataFrame, transmits]

/-- Instance of `set_address_trace`: the window `(238, 0, 239, 319)`. -/
theorem set_address_trace_witness :
    ILI9341_Set_Address 238 0 239 319 (initialLcd sampleConfig)
      = { initialLcd sampleConfig with trace := (initialLcd sampleConfig).trace ++
      (commandFrame 0x2A ++ dataFrame (238 >>> 8) ++ dataFrame (238 &&& 0xFF)
        ++ dataFrame (239 >>> 8) ++ dataFrame (239 &&& 0xFF)
        ++ commandFrame 0x2B ++ dataFrame (0 >>> 8) ++ dataFrame (0 &&& 0xFF)
        ++ dataFrame (319 >>> 8) ++ dataFrame (319 &&& 0xFF)
        ++ commandFrame 0x2C) } ∧
    transmits (commandFrame 0x2A ++ dataFrame (238 >>> 8) ++ dataFrame (238 &&& 0xFF)
        ++ dataFrame (239 >>> 8) ++ dataFrame (239 &&& 0xFF)
        ++ commandFrame 0x2B ++ dataFrame (0 >>> 8) ++ dataFrame (0 &&& 0xFF)
        ++ dataFrame (319 >>> 8) ++ dataFrame (319 &&& 0xFF)
        ++ commandFrame 0x2C)
      = [[0x2A], [238 >>> 8], [238 &&& 0xFF], [239 >>> 8], [239 &&& 0xFF],
         [0x2B], [0 >>> 8], [0 &&& 0xFF], [319 >>> 8], [319 &&& 0xFF], [0x2C]] ∧
    (238 >>> 8) * 256 + (238 &&& 0xFF) = 238 ∧ (239 >>> 8) * 256 + (239 &&& 0xFF) = 239 ∧
    (0 >>> 8) * 256 + (0 &&& 0xFF) = 0 ∧ (319 >>> 8) * 256 + (319 &&& 0xFF) = 319 :=
  set_address_trace 238 0 239 319 (initialLcd sampleConfig)
    (by decide) (by decide) (by decide) (by decide)

/-- C12: for every geometry and all 16-bit `X`, `Y`, length and colour,
`ILI9341_Draw_Horizontal_Line X Y W c` gives exactly the result (trace and
all) of `ILI9341_Draw_Rectangle X Y W 1 c`, and `ILI9341_Draw_Vertical_Line
X Y H c` exactly that of `ILI9341_Draw_Rectangle X Y 1 H c`. -/
theorem lines_are_thin_rectangles (cfg : Config) (X Y W H Colour : Nat) (s : Lcd)
    (hX : X < 65536) (hY : Y < 65536) (hW : W < 65536) (hH : H < 65536) :
    ILI9341_Draw_Horizontal_Line cfg X Y W Colour s
      = ILI9341_Draw_Rectangle cfg X Y W 1 Colour s ∧
    ILI9341_Draw_Vertical_Line cfg X Y H Colour s
      = ILI9341_Draw_Rectangle cfg X Y 1 H Colour s := by
  constructor
  · unfold ILI9341_Draw_Horizontal_Line ILI9341_Draw_Rectangle
    by_cases hb : X ≥ s.LCD_WIDTH ∨ Y ≥ s.LCD_HEIGHT
    · rw [if_pos hb, if_pos hb]
    · rw [if_neg hb, if_neg hb]
      have h1 : ¬ ((Y : Int) + ((1 : Nat) : Int) - 1 ≥ s.LCD_HEIGHT) := by omega
      have hy : u16 ((Y : Int) + ((1 : Nat) : Int) - 1) = Y := by unfold u16; omega
      have hsz : ∀ w : Nat, w < 65536 → u32 (((1 : Nat) : Int) * (w : Int)) = w := by
        intro w hw
        unfold u32
        omega
      have hw' : (if (X : Int) + W - 1 ≥ s.LCD_WIDTH then u16 ((s.LCD_WIDTH : Int) - X) else W)
          < 65536 := by
        unfold u16
        split <;> omega
      simp only [if_neg h1, hy, hsz _ hw']
  · unfold ILI9341_Draw_Vertical_Line ILI9341_Draw_Rectangle
    by_cases hb : X ≥ s.LCD_WIDTH ∨ Y ≥ s.LCD_HEIGHT
    · rw [if_pos hb, if_pos hb]
    · rw [if_neg hb, if_neg hb]
      have h1 : ¬ ((X : Int) + ((1 : Nat) : Int) - 1 ≥ s.LCD_WIDTH) := by omega
      have hx : u16 ((X : Int) + ((1 : Nat) : Int) - 1) = X := by unfold u16; omega
      have hsz : ∀ h : Nat, h < 65536 → u32 ((h : Int) * ((1 : Nat) : Int)) = h := by
        intro h hh
        unfold u32
        omega
      have hh' : (if (Y : Int) + H - 1 ≥ s.LCD_HEIGHT then u16 ((s.LCD_HEIGHT : Int) - Y) else H)
          < 65536 := by
        unfold u16
        split <;> omega
      simp only [if_neg h1, hx, hsz _ hh']

/-- Instance of `lines_are_thin_rectangles`: lines of length 30 from
`(230, 310)`, which run past the right and the bottom edge. -/
theorem lines_are_thin_rectangles_witness :
    ILI9341_Draw_Horizontal_Line sampleConfig 230 310 30 0x07E0 (initialLcd sampleConfig)
      = ILI9341_Draw_Rectangle sampleConfig 230 310 30 1 0x07E0 (initialLcd sampleConfig) ∧
    ILI9341_Draw_Vertical_Line sampleConfig 230 310 30 0x07E0 (initialLcd sampleConfig)
      = ILI9341_Draw_Rectangle sampleConfig 230 310 1 30 0x07E0 (initialLcd sampleConfig) :=
  lines_are_thin_rectangles sampleConfig 230 310 30 30 0x07E0 (initialLcd sampleConfig)
    (by decide) (by decide) (by decide) (by decide)

/-- C14: for all 16-bit `X0`, `Y0`, `X1`, `Y1`,
`ILI9341_Draw_Filled_Rectangle_Coord` gives exactly the result (trace and all)
of `ILI9341_Draw_Rectangle (min X0 X1) (min Y0 Y1) |X1-X0| |Y1-Y0| c`, and so
the call with the corners swapped gives the identical result. -/
theorem filled_rectangle_coord_normalises (cfg : Config) (X0 Y0 X1 Y1 Colour : Nat) (s : Lcd)
    (hX0 : X0 < 65536) (hY0 : Y0 < 65536) (hX1 : X1 < 65536) (hY1 : Y1 < 65536) :
    ILI9341_Draw_Filled_Rectangle_Coord cfg X0 Y0 X1 Y1 Colour s
      = ILI9341_Draw_Rectangle cfg (min X0 X1) (min Y0 Y1)
          (((X1 : Int) - X0).natAbs) (((Y1 : Int) - Y0).natAbs) Colour s ∧
    ILI9341_Draw_Filled_Rectangle_Coord cfg X0 Y0 X1 Y1 Colour s
      = ILI9341_Draw_Filled_Rectangle_Coord cfg X1 Y1 X0 Y0 Colour s := by
  have key : ∀ a b : Nat, a < 65536 → b < 65536 →
      (if (!decide ((b : Int) - a < 0)) = true then u16 ((b : Int) - a) else u16 ((a : Int) - b))
        = ((b : Int) - a).natAbs ∧
      (if (!decide ((b : Int) - a < 0)) = true then a else b) = min a b := by
    intro a b ha hb
    by_cases h : (b : Int) - a < 0
    · simp only [h, decide_True, Bool.not_true, Bool.false_eq_true, if_false]
      unfold u16
      omega
    · simp only [h, decide_False, Bool.not_false, if_true]
      unfold u16
      omega
  have main : ∀ a0 b0 a1 b1 : Nat, a0 < 65536 → b0 < 65536 → a1 < 65536 → b1 < 65536 →
      ILI9341_Draw_Filled_Rectangle_Coord cfg a0 b0 a1 b1 Colour s
        = ILI9341_Draw_Rectangle cfg (min a0 a1) (min b0 b1)
            (((a1 : Int) - a0).natAbs) (((b1 : Int) - b0).natAbs) Colour s := by
    intro a0 b0 a1 b1 h1 h2 h3 h4
    unfold ILI9341_Draw_Filled_Rectangle_Coord
    simp only [(key a0 a1 h1 h3).1, (key a0 a1 h1 h3).2, (key b0 b1 h2 h4).1,
      (key b0 b1 h2 h4).2]
  refine ⟨main X0 Y0 X1 Y1 hX0 hY0 hX1 hY1, ?_⟩
  rw [main X0 Y0 X1 Y1 hX0 hY0 hX1 hY1, main X1 Y1 X0 Y0 hX1 hY1 hX0 hY0]
  have e1 : ((X1 : Int) - X0).natAbs = ((X0 : Int) - X1).natAbs := by omega
  have e2 : ((Y1 : Int) - Y0).natAbs = ((Y0 : Int) - Y1).natAbs := by omega
  rw [e1, e2, Nat.min_comm X0 X1, Nat.min_comm Y0 Y1]

/-- Instance of `filled_rectangle_coord_normalises`: corners `(50, 60)` and
`(20, 90)`, reversed in `X` only. -/
theorem filled_rectangle_coord_normalises_witness :
    ILI9341_Draw_Filled_Rectangle_Coord sampleConfig 50 60 20 90 0x001F (initialLcd sampleConfig)
      = ILI9341_Draw_Rectangle sampleConfig (min 50 20) (min 60 90)
          (((20 : Int) - 50).natAbs) (((90 : Int) - 60).natAbs) 0x001F
          (initialLcd sampleConfig) ∧
    ILI9341_Draw_Filled_Rectangle_Coord sampleConfig 50 60 20 90 0x001F (initialLcd sampleConfig)
      = ILI9341_Draw_Filled_Rectangle_Coord sampleConfig 20 90 50 60 0x001F
          (initialLcd sampleConfig) :=
  filled_rectangle_coord_normalises sampleConfig 50 60 20 90 0x001F (initialLcd sampleConfig)
    (by decide) (by decide) (by decide) (by decide)

/-! ## Burst framing and fill screen -/

/-- C20: for every `count ≥ 1` (and chunk constant `≥ 1`) the burst returns
and its calls are, in order: data mode, one chip-select assert, `fullBlocks`
transmits of the whole buffer (`Buffer_Size` bytes each), one transmit of the
first `remainder` bytes of the buffer (made also when `remainder = 0`), one
chip-select deassert; here `fullBlocks = (count*2) / Buffer_Size` and
`remainder = (count*2) % Buffer_Size`, with `count*2` computed in `uint32_t`
(it is `count*2` itself for `count < 2^31`). So there are `fullBlocks + 1`
transmits and no pin is written between the assert and the deassert. -/
theorem burst_framing (cfg : Config) (Colour count : Nat) (s : Lcd)
    (hB : 1 ≤ cfg.BURST_MAX_SIZE) (h1 : 1 ≤ count) :
    ILI9341_Draw_Colour_Burst cfg Colour count s = Except.ok { s with trace := s.trace ++
      ([Event.gpio Pin.DC PinState.GPIO_PIN_SET,
        Event.gpio Pin.CHIP_SELECT PinState.GPIO_PIN_RESET]
       ++ List.replicate (u32 ((count : Int) * 2) / burstBufferSize cfg count)
            (Event.transmit (burstBuffer cfg Colour count))
       ++ [Event.transmit ((burstBuffer cfg Colour count).take
              (u32 ((count : Int) * 2) % burstBufferSize cfg count)),
           Event.gpio Pin.CHIP_SELECT PinState.GPIO_PIN_SET]) } ∧
    (burstBuffer cfg Colour count).length = burstBufferSize cfg count ∧
    ((burstBuffer cfg Colour count).take
        (u32 ((count : Int) * 2) % burstBufferSize cfg count)).length
      = u32 ((count : Int) * 2) % burstBufferSize cfg count ∧
    (transmits
      ([Event.gpio Pin.DC PinState.GPIO_PIN_SET,
        Event.gpio Pin.CHIP_SELECT PinState.GPIO_PIN_RESET]
       ++ List.replicate (u32 ((count : Int) * 2) / burstBufferSize cfg count)
            (Event.transmit (burstBuffer cfg Colour count))
       ++ [Event.transmit ((burstBuffer cfg Colour count).take
              (u32 ((count : Int) * 2) % burstBufferSize cfg count)),
           Event.gpio Pin.CHIP_SELECT PinState.GPIO_PIN_SET])).length
      = u32 ((count : Int) * 2) / burstBufferSize cfg count + 1 ∧
    (count < 2 ^ 31 → u32 ((count : Int) * 2) = count * 2) := by
  have hne : burstBufferSize cfg count ≠ 0 := by
    unfold burstBufferSize
    split <;> omega
  have hm : u32 ((count : Int) * 2) % burstBufferSize cfg count < burstBufferSize cfg count :=
    Nat.mod_lt _ (Nat.pos_of_ne_zero hne)
  refine ⟨?_, burstBuffer_length cfg Colour count, ?_, ?_, u32_double count⟩
  · rw [burst_eq_of_ne_zero cfg Colour count s hne]
    rfl
  · rw [List.length_take, burstBuffer_length]
    omega
  · rw [transmits_append, transmits_append, transmits_replicate_transmit]
    simp [transmits]

/-- Instance of `burst_framing`: 600 pixels with the sample configuration
(two full blocks of 500 bytes and a remainder of 200 bytes). -/
theorem burst_framing_witness :
    ILI9341_Draw_Colour_Burst sampleConfig 0xF800 600 (initialLcd sampleConfig)
      = Except.ok { initialLcd sampleConfig with trace := (initialLcd sampleConfig).trace ++
      ([Event.gpio Pin.DC PinState.GPIO_PIN_SET,
        Event.gpio Pin.CHIP_SELECT PinState.GPIO_PIN_RESET]
       ++ List.replicate (u32 (((600 : Nat) : Int) * 2) / burstBufferSize sampleConfig 600)
            (Event.transmit (burstBuffer sampleConfig 0xF800 600))
       ++ [Event.transmit ((burstBuffer sampleConfig 0xF800 600).take
              (u32 (((600 : Nat) : Int) * 2) % burstBufferSize sampleConfig 600)),
           Event.gpio Pin.CHIP_SELECT PinState.GPIO_PIN_SET]) } ∧
    (burstBuffer sampleConfig 0xF800 600).length = burstBufferSize sampleConfig 600 ∧
    ((burstBuffer sampleConfig 0xF800 600).take
        (u32 (((600 : Nat) : Int) * 2) % burstBufferSize sampleConfig 600)).length
      = u32 (((600 : Nat) : Int) * 2) % burstBufferSize sampleConfig 600 ∧
    (transmits
      ([Event.gpio Pin.DC PinState.GPIO_PIN_SET,
        Event.gpio Pin.CHIP_SELECT PinState.GPIO_PIN_RESET]
       ++ List.replicate (u32 (((600 : Nat) : Int) * 2) / burstBufferSize sampleConfig 600)
            (Event.transmit (burstBuffer sampleConfig 0xF800 600))
       ++ [Event.transmit ((burstBuffer sampleConfig 0xF800 600).take
              (u32 (((600 : Nat) : Int) * 2) % burstBufferSize sampleConfig 600)),
           Event.gpio Pin.CHIP_SELECT PinState.GPIO_PIN_SET])).length
      = u32 (((600 : Nat) : Int) * 2) / burstBufferSize sampleConfig 600 + 1 ∧
    (600 < 2 ^ 31 → u32 (((600 : Nat) : Int) * 2) = 600 * 2) :=
  burst_framing sampleConfig 0xF800 600 (initialLcd sampleConfig) (by decide) (by decide)

/-- C19 (evaluation): for every 16-bit geometry `(W, H)` (area below `2^31`)
`ILI9341_Fill_Screen` sets the address window with `ILI9341_Set_Address 0 0 W H`,
whose end bounds are sent as `W` and `H` themselves (columns `0..W`, rows
`0..H`, one past the panel each way), and then bursts `W*H` pixels, fewer than
the `(W-0+1)*(H-0+1)` pixels of that window. -/
theorem fill_screen_window (cfg : Config) (Colour : Nat) (s : Lcd)
    (hW : s.LCD_WIDTH < 65536) (hH : s.LCD_HEIGHT < 65536)
    (hA : s.LCD_WIDTH * s.LCD_HEIGHT < 2 ^ 31) :
    ILI9341_Fill_Screen cfg Colour s
      = ILI9341_Draw_Colour_Burst cfg Colour (s.LCD_WIDTH * s.LCD_HEIGHT)
          (ILI9341_Set_Address 0 0 s.LCD_WIDTH s.LCD_HEIGHT s) ∧
    transmits (ILI9341_Set_Address 0 0 s.LCD_WIDTH s.LCD_HEIGHT s).trace
      = transmits s.trace ++
        [[0x2A], [0], [0], [s.LCD_WIDTH >>> 8], [s.LCD_WIDTH &&& 0xFF],
         [0x2B], [0], [0], [s.LCD_HEIGHT >>> 8], [s.LCD_HEIGHT &&& 0xFF], [0x2C]] ∧
    s.LCD_WIDTH * s.LCD_HEIGHT < (s.LCD_WIDTH - 0 + 1) * (s.LCD_HEIGHT - 0 + 1) := by
  refine ⟨?_, ?_, ?_⟩
  · unfold ILI9341_Fill_Screen
    have hsz : u32 ((s.LCD_WIDTH : Int) * (s.LCD_HEIGHT : Int)) = s.LCD_WIDTH * s.LCD_HEIGHT := by
      have hc : (s.LCD_WIDTH : Int) * (s.LCD_HEIGHT : Int)
          = ((s.LCD_WIDTH * s.LCD_HEIGHT : Nat) : Int) := by push_cast; rfl
      rw [hc]
      unfold u32
      omega
    simp only [hsz]
  · rw [setAddress_eq]
    unfold setAddressEvents appendTrace
    rw [u8_shift_of_lt _ hW, u8_shift_of_lt _ hH, u8_low s.LCD_WIDTH, u8_low s.LCD_HEIGHT]
    simp [transmits_append, commandFrame, dataFrame, transmits, u8]
  · simp only [Nat.sub_zero]
    nlinarith

/-- Instance of `fill_screen_window`: the 240x320 start state; the end bounds
sent are 240 and 320. -/
theorem fill_screen_window_witness :
    ILI9341_Fill_Screen sampleConfig 0xFFFF (initialLcd sampleConfig)
      = ILI9341_Draw_Colour_Burst sampleConfig 0xFFFF
          ((initialLcd sampleConfig).LCD_WIDTH * (initialLcd sampleConfig).LCD_HEIGHT)
          (ILI9341_Set_Address 0 0 (initialLcd sampleConfig).LCD_WIDTH
            (initialLcd sampleConfig).LCD_HEIGHT (initialLcd sampleConfig)) ∧
    transmits (ILI9341_Set_Address 0 0 (initialLcd sampleConfig).LCD_WIDTH
        (initialLcd sampleConfig).LCD_HEIGHT (initialLcd sampleConfig)).trace
      = transmits (initialLcd sampleConfig).trace ++
        [[0x2A], [0], [0], [(initialLcd sampleConfig).LCD_WIDTH >>> 8],
         [(initialLcd sampleConfig).LCD_WIDTH &&& 0xFF],
         [0x2B], [0], [0], [(initialLcd sampleConfig).LCD_HEIGHT >>> 8],
         [(initialLcd sampleConfig).LCD_HEIGHT &&& 0xFF], [0x2C]] ∧
    (initialLcd sampleConfig).LCD_WIDTH * (initialLcd sampleConfig).LCD_HEIGHT
      < ((initialLcd sampleConfig).LCD_WIDTH - 0 + 1)
        * ((initialLcd sampleConfig).LCD_HEIGHT - 0 + 1) :=
  fill_screen_window sampleConfig 0xFFFF (initialLcd sampleConfig)
    (by decide) (by decide) (by decide)

/-! ## Characters and text -/

/-- C16 (evaluation): for every character code below 32 the glyph columns
that `ILI9341_Draw_Char` draws are those of font row `ch` (the code itself),
not of row 0: the test assigns `Character`, and `function_char` keeps the code. -/
theorem draw_char_below_space_uses_own_row (cfg : Config)
    (ch X Y Colour Size Background_Colour : Nat) (s : Lcd) (h : ch < 32) :
    ILI9341_Draw_Char cfg ch X Y Colour Size Background_Colour s
      = drawGlyph cfg (fun k => u8 (cfg.font ch k)) X Y Colour Size Background_Colour s := by
  have hu : u8 (ch : Int) = ch := u8_of_lt ch (by omega)
  unfold ILI9341_Draw_Char drawGlyph
  simp only [hu, if_pos h]

/-- Instance of `draw_char_below_space_uses_own_row`: the line feed (code 10)
with a font whose row 10 is not blank. -/
theorem draw_char_below_space_uses_own_row_witness :
    ILI9341_Draw_Char markedFontConfig 10 0 0 0xF800 1 0xFFFF (initialLcd markedFontConfig)
      = drawGlyph markedFontConfig (fun k => u8 (markedFontConfig.font 10 k)) 0 0 0xF800 1 0xFFFF
          (initialLcd markedFontConfig) :=
  draw_char_below_space_uses_own_row markedFontConfig 10 0 0 0xF800 1 0xFFFF
    (initialLcd markedFontConfig) (by decide)

/-- With a font whose row 0 is blank and whose row 10 has one set bit, drawing
the character code 10 draws the background and then one foreground pixel. -/
theorem draw_char_line_feed_draws_foreground :
    ILI9341_Draw_Char markedFontConfig 10 0 0 0xF800 1 0xFFFF (initialLcd markedFontConfig)
      = andThen (ILI9341_Draw_Rectangle markedFontConfig 0 0 6 8 0xFFFF
          (initialLcd markedFontConfig))
          (fun s => Except.ok (ILI9341_Draw_Pixel 0 0 0xF800 s)) := by
  rfl

theorem textOrigins_succ (cfg : Config) (X Size n : Nat) :
    textOrigins cfg X Size (n + 1)
      = (X % 256) :: textOrigins cfg ((X + cfg.CHAR_WIDTH * Size) % 256) Size n := by
  unfold textOrigins
  rw [List.range_succ_eq_map, List.map_cons, List.map_map]
  congr 1
  · simp
  · apply List.map_congr_left
    intro k _
    show (X + (k + 1) * (cfg.CHAR_WIDTH * Size)) % 256
      = ((X + cfg.CHAR_WIDTH * Size) % 256 + k * (cfg.CHAR_WIDTH * Size)) % 256
    have e : (k + 1) * (cfg.CHAR_WIDTH * Size)
        = k * (cfg.CHAR_WIDTH * Size) + cfg.CHAR_WIDTH * Size := by ring
    rw [e]
    omega

theorem textOrigins_length (cfg : Config) (X Size n : Nat) :
    (textOrigins cfg X Size n).length = n := by
  simp [textOrigins]

theorem u8_cursor (cfg : Config) (X Size : Nat) :
    u8 ((X : Int) + (cfg.CHAR_WIDTH : Int) * Size) = (X + cfg.CHAR_WIDTH * Size) % 256 := by
  have hc : (X : Int) + (cfg.CHAR_WIDTH : Int) * Size
      = ((X + cfg.CHAR_WIDTH * Size : Nat) : Int) := by push_cast; rfl
  rw [hc]
  unfold u8
  omega

theorem u8_u8 (n : Nat) : u8 ((u8 (n : Int) : Nat) : Int) = u8 (n : Int) := by
  unfold u8
  omega

/-- The character call reads its origin converted to 8 bits. -/
theorem drawChar_u8 (cfg : Config) (ch X Y Colour Size Background_Colour : Nat) (s : Lcd) :
    ILI9341_Draw_Char cfg ch (u8 X) (u8 Y) Colour Size Background_Colour s
      = ILI9341_Draw_Char cfg ch X Y Colour Size Background_Colour s := by
  unfold ILI9341_Draw_Char
  simp only [u8_u8]

theorem drawChar_u8_Y (cfg : Config) (ch X Y Colour Size Background_Colour : Nat) (s : Lcd) :
    ILI9341_Draw_Char cfg ch X (u8 Y) Colour Size Background_Colour s
      = ILI9341_Draw_Char cfg ch X Y Colour Size Background_Colour s := by
  rw [← drawChar_u8 cfg ch X (u8 Y), ← drawChar_u8 cfg ch X Y, u8_u8]

theorem drawCharsAt_u8 (cfg : Config) (Y Colour Size Background_Colour : Nat)
    (l : List (Nat × Nat)) (s : Lcd) :
    drawCharsAt cfg (u8 Y) Colour Size Background_Colour l s
      = drawCharsAt cfg Y Colour Size Background_Colour l s := by
  induction l generalizing s with
  | nil => rfl
  | cons c cs ih =>
    obtain ⟨ch, X⟩ := c
    show andThen (ILI9341_Draw_Char cfg ch X (u8 Y) Colour Size Background_Colour s) _
      = andThen (ILI9341_Draw_Char cfg ch X Y Colour Size Background_Colour s) _
    rw [drawChar_u8_Y]
    congr 1
    funext t
    exact ih t

/-- The text call reads its origin converted to 8 bits. -/
theorem drawText_u8 (cfg : Config) (Text : List Nat)
    (X Y Colour Size Background_Colour : Nat) (s : Lcd) :
    ILI9341_Draw_Text cfg Text (u8 X) (u8 Y) Colour Size Background_Colour s
      = ILI9341_Draw_Text cfg Text X Y Colour Size Background_Colour s := by
  cases Text with
  | nil => rfl
  | cons ch rest =>
    unfold ILI9341_Draw_Text
    simp only [u8_u8]

theorem drawText_u8_Y (cfg : Config) (Text : List Nat)
    (X Y Colour Size Background_Colour : Nat) (s : Lcd) :
    ILI9341_Draw_Text cfg Text X (u8 Y) Colour Size Background_Colour s
      = ILI9341_Draw_Text cfg Text X Y Colour Size Background_Colour s := by
  rw [← drawText_u8 cfg Text X (u8 Y), ← drawText_u8 cfg Text X Y, u8_u8]

/-- The text loop is the sequence of character calls at the 8-bit origins. -/
theorem drawText_eq_drawCharsAt (cfg : Config) (Text : List Nat)
    (X Y Colour Size Background_Colour : Nat) (s : Lcd)
    (hX : X < 256) (h0 : ∀ ch ∈ Text, ch ≠ 0) :
    ILI9341_Draw_Text cfg Text X Y Colour Size Background_Colour s
      = drawCharsAt cfg Y Colour Size Background_Colour
          (Text.zip (textOrigins cfg X Size Text.length)) s := by
  induction Text generalizing X s with
  | nil => rfl
  | cons ch rest ih =>
    have hch : ch ≠ 0 := h0 ch (List.mem_cons_self _ _)
    have hrest : ∀ c ∈ rest, c ≠ 0 := fun c hc => h0 c (List.mem_cons_of_mem _ hc)
    unfold ILI9341_Draw_Text
    simp only []
    rw [if_neg hch, List.length_cons, textOrigins_succ, List.zip_cons_cons,
      Nat.mod_eq_of_lt hX, u8_of_lt X hX]
    unfold drawCharsAt
    rw [drawChar_u8_Y cfg ch X Y]
    congr 1
    funext s1
    rw [u8_cursor, drawText_u8_Y]
    exact ih _ s1 (Nat.mod_lt _ (by decide)) hrest

set_option maxRecDepth 100000 in
/-- C17 (as stated, refuted): the string "AB" at `X = 250`, `Y = 10`, size 1,
on the 320 by 240 panel with the 6 by 8 font cell and a blank glyph. The claim
puts the second character at `250 + CHAR_WIDTH*1 = 256`, whose address window
would start with the column bytes `0x01, 0x00, 0x01, 0x05`. The call returns,
and the bytes it transmits are the window of columns 250..255 with its 48
background pixels and then the window of columns 0..5 (column bytes `0x00,
0x00, 0x00, 0x05`) with its 48 background pixels: the second character is
written from column 0, and no pixel of a column beyond 255 is written. -/
theorem draw_text_cursor_wraps :
    textOrigins_spec landscapeConfig 250 1 2 = [250, 256] ∧
    transmits (setAddressEvents 256 10 261 17)
      = [[0x2A], [1], [0], [1], [5], [0x2B], [0], [10], [0], [17], [0x2C]] ∧
    ∃ t, ILI9341_Draw_Text landscapeConfig [65, 66] 250 10 0x0000 1 0xFFFF
        (initialLcd landscapeConfig) = Except.ok t ∧
      transmits t.trace
        = [[0x2A], [0], [250], [0], [255], [0x2B], [0], [10], [0], [17], [0x2C],
           List.replicate 48 0xFF, List.replicate 48 0xFF, [],
           [0x2A], [0], [0], [0], [5], [0x2B], [0], [10], [0], [17], [0x2C],
           List.replicate 48 0xFF, List.replicate 48 0xFF, []] ∧
      (0, 10) ∈ writtenPixels t.trace ∧
      ∀ p ∈ writtenPixels t.trace, p.1 ≤ 255 := by
  refine ⟨by decide, by decide, _, rfl, by decide, by decide, by decide⟩

/-- C17 (amended): for every string (bytes before the terminating zero), 8-bit
start `X`, `Y` and scale, `ILI9341_Draw_Text` is exactly the sequence of
`len` character calls in string order, the `k`-th at horizontal origin
`(X + k*CHAR_WIDTH*Size) mod 256` and vertical origin `Y`. -/
theorem draw_text_calls (cfg : Config) (Text : List Nat)
    (X Y Colour Size Background_Colour : Nat) (s : Lcd)
    (hX : X < 256) (h0 : ∀ ch ∈ Text, ch ≠ 0) :
    ILI9341_Draw_Text cfg Text X Y Colour Size Background_Colour s
      = drawCharsAt cfg Y Colour Size Background_Colour
          (Text.zip ((List.range Text.length).map
            fun k => (X + k * (cfg.CHAR_WIDTH * Size)) % 256)) s ∧
    (Text.zip ((List.range Text.length).map
        fun k => (X + k * (cfg.CHAR_WIDTH * Size)) % 256)).length = Text.length := by
  constructor
  · exact drawText_eq_drawCharsAt cfg Text X Y Colour Size Background_Colour s hX h0
  · simp

/-- Instance of `draw_text_calls`: the string "AB" at `X = 250`. -/
theorem draw_text_calls_witness :
    ILI9341_Draw_Text sampleConfig [65, 66] 250 10 0x0000 1 0xFFFF (initialLcd sampleConfig)
      = drawCharsAt sampleConfig 10 0x0000 1 0xFFFF
          ([65, 66].zip ((List.range [65, 66].length).map
            fun k => (250 + k * (sampleConfig.CHAR_WIDTH * 1)) % 256))
          (initialLcd sampleConfig) ∧
    ([65, 66].zip ((List.range [65, 66].length).map
        fun k => (250 + k * (sampleConfig.CHAR_WIDTH * 1)) % 256)).length = [65, 66].length :=
  draw_text_calls sampleConfig [65, 66] 250 10 0x0000 1 0xFFFF (initialLcd sampleConfig)
    (by decide) (by decide)

/-! ## Image -/

theorem imageChunks_eq (cfg : Config) (img : List Nat) (n counter : Nat) (s : Lcd) :
    imageChunks cfg img n counter s = appendTrace (imageChunkEvents cfg img n counter) s := by
  induction n generalizing counter s with
  | zero => simp [imageChunks, imageChunkEvents, appendTrace_nil]
  | succ n ih =>
    simp [imageChunks, imageChunkEvents, ih, HAL_SPI_Transmit, emit_eq_appendTrace,
      appendTrace_appendTrace]

theorem chunk_eq_take_drop (l : List Nat) (c m : Nat) (h : c + m ≤ l.length) :
    ((List.range m).map fun k => l.getD (c + k) 0) = (l.drop c).take m := by
  apply List.ext_getElem?
  intro i
  by_cases hi : i < m
  · have hlt : c + i < l.length := by omega
    simp [List.getElem?_take, List.getElem?_drop, List.getElem?_range, hi,
      List.getElem?_eq_getElem hlt]
  · have hge : m ≤ i := by omega
    simp [List.getElem?_take, List.getElem?_drop, hi, List.getElem?_eq_none, hge]

theorem txBytes_imageChunkEvents (cfg : Config) (img : List Nat) (n counter : Nat)
    (h : counter + n * cfg.BURST_MAX_SIZE ≤ img.length) :
    txBytes (imageChunkEvents cfg img n counter)
      = (img.drop counter).take (n * cfg.BURST_MAX_SIZE) := by
  induction n generalizing counter with
  | zero => simp [imageChunkEvents, txBytes]
  | succ n ih =>
    have e : (n + 1) * cfg.BURST_MAX_SIZE = cfg.BURST_MAX_SIZE + n * cfg.BURST_MAX_SIZE := by
      ring
    rw [e] at h ⊢
    simp only [imageChunkEvents, txBytes]
    rw [chunk_eq_take_drop img counter cfg.BURST_MAX_SIZE (by omega),
      ih (counter + cfg.BURST_MAX_SIZE) (by omega), List.take_add, List.drop_drop]

theorem transmits_imageChunkEvents (cfg : Config) (img : List Nat) (n counter : Nat) :
    (transmits (imageChunkEvents cfg img n counter)).length = n ∧
    ∀ chunk ∈ transmits (imageChunkEvents cfg img n counter),
      chunk.length = cfg.BURST_MAX_SIZE := by
  induction n generalizing counter with
  | zero => simp [imageChunkEvents, transmits]
  | succ n ih =>
    simp only [imageChunkEvents, transmits, List.length_cons, List.mem_cons]
    refine ⟨by rw [(ih _).1], ?_⟩
    intro chunk hc
    rcases hc with hc | hc
    · rw [hc]; simp
    · exact (ih _).2 chunk hc

theorem txLength_imageChunkEvents (cfg : Config) (img : List Nat) (n counter : Nat) :
    txLength (imageChunkEvents cfg img n counter) = n * cfg.BURST_MAX_SIZE := by
  induction n generalizing counter with
  | zero => simp [imageChunkEvents, txLength]
  | succ n ih =>
    simp only [imageChunkEvents, txLength, ih, List.length_map, List.length_range]
    ring

/-- With a chunk constant that is not zero, the shared part of the image
transfer returns, having made the calls of one address window, one data-mode
write, one chip-select assert, the chunk transmits and one deassert. -/
theorem drawImageBody_eq (cfg : Config) (img : List Nat) (X2 Y2 : Nat) (s : Lcd)
    (hB : cfg.BURST_MAX_SIZE ≠ 0) :
    drawImageBody cfg img X2 Y2 s = Except.ok (appendTrace
      ([Event.gpio Pin.DC PinState.GPIO_PIN_SET,
        Event.gpio Pin.CHIP_SELECT PinState.GPIO_PIN_RESET]
       ++ imageChunkEvents cfg img
            (cfg.ILI9341_SCREEN_WIDTH * cfg.ILI9341_SCREEN_HEIGHT * 2 / cfg.BURST_MAX_SIZE) 0
       ++ [Event.gpio Pin.CHIP_SELECT PinState.GPIO_PIN_SET])
      (ILI9341_Set_Address 0 0 X2 Y2 s)) := by
  unfold drawImageBody
  simp only [if_neg hB, imageChunks_eq, HAL_GPIO_WritePin, emit_eq_appendTrace,
    appendTrace_appendTrace, List.append_assoc]
  rfl

/-- For each of the four orientation codes the image call is the rotation
followed by the shared transfer with some window end bounds. -/
theorem drawImage_eq_body (cfg : Config) (img : List Nat) (o : Nat) (s : Lcd)
    (ho : o = cfg.SCREEN_HORIZONTAL_1 ∨ o = cfg.SCREEN_HORIZONTAL_2 ∨
      o = cfg.SCREEN_VERTICAL_2 ∨ o = cfg.SCREEN_VERTICAL_1) :
    ∃ X2 Y2, ILI9341_Draw_Image cfg img o s
      = drawImageBody cfg img X2 Y2 (ILI9341_Set_Rotation cfg o s) := by
  unfold ILI9341_Draw_Image
  by_cases h1 : o = cfg.SCREEN_HORIZONTAL_1
  · exact ⟨_, _, by rw [if_pos h1, ← h1]⟩
  · by_cases h2 : o = cfg.SCREEN_HORIZONTAL_2
    · exact ⟨_, _, by rw [if_neg h1, if_pos h2, ← h2]⟩
    · by_cases h3 : o = cfg.SCREEN_VERTICAL_2
      · exact ⟨_, _, by rw [if_neg h1, if_neg h2, if_pos h3, ← h3]⟩
      · by_cases h4 : o = cfg.SCREEN_VERTICAL_1
        · exact ⟨_, _, by rw [if_neg h1, if_neg h2, if_neg h3, if_pos h4, ← h4]⟩
        · rcases ho with h | h | h | h <;> contradiction

theorem imageChunkEvents_all_transmits (cfg : Config) (img : List Nat) (n counter : Nat) :
    imageChunkEvents cfg img n counter
      = (transmits (imageChunkEvents cfg img n counter)).map Event.transmit := by
  induction n generalizing counter with
  | zero => simp [imageChunkEvents, transmits]
  | succ n ih =>
    simp only [imageChunkEvents, transmits, List.map_cons]
    rw [← ih]

theorem txLength_setAddressEvents (X1 Y1 X2 Y2 : Nat) :
    txLength (setAddressEvents X1 Y1 X2 Y2) = 11 := by
  simp [setAddressEvents, commandFrame, dataFrame, txLength]

theorem trace_appendTrace (evs : List Event) (s : Lcd) :
    (appendTrace evs s).trace = s.trace ++ evs := rfl

/-- Evaluation at the failing input of C18: with the chunk constant 500 and an
array of `240*320*2 = 153600` bytes, the call for `SCREEN_HORIZONTAL_1`
transmits 153513 bytes in all (2 for the rotation, 11 for the address window,
153500 of the array), fewer than the array has: its last 100 bytes are not
sent. -/
theorem draw_image_drops_tail :
    txLength (finalState (ILI9341_Draw_Image sampleConfig (List.replicate 153600 0xAB) 1
        (initialLcd sampleConfig))).trace = 2 + 11 + 153500 ∧
    2 + 11 + 153500 < 2 + 11 + (List.replicate 153600 0xAB).length := by
  constructor
  · generalize List.replicate 153600 0xAB = img
    obtain ⟨X2, Y2, h⟩ := drawImage_eq_body sampleConfig img 1
      (initialLcd sampleConfig) (Or.inl rfl)
    rw [h, drawImageBody_eq _ _ _ _ _ (by decide), setAddress_eq]
    have h2 : txLength (ILI9341_Set_Rotation sampleConfig 1 (initialLcd sampleConfig)).trace = 2 := by
      decide
    show txLength (((ILI9341_Set_Rotation sampleConfig 1 (initialLcd sampleConfig)).trace
      ++ setAddressEvents 0 0 X2 Y2) ++ _) = _
    rw [txLength_append, txLength_append, txLength_append, txLength_append,
      txLength_setAddressEvents, txLength_imageChunkEvents, h2]
    rfl
  · rw [List.length_replicate]
    decide

/-- C18 (what the code does): for each of the four orientation codes, every
chunk constant `BURST_MAX_SIZE ≥ 1` and every array of exactly
`WIDTH*HEIGHT*2` bytes, the call returns; after the rotation and the address
window its calls are data mode, one chip-select assert, then only transmits,
`WIDTH*HEIGHT*2 / BURST_MAX_SIZE` of them with `BURST_MAX_SIZE` bytes each,
then one chip-select deassert. The payloads concatenated are the first
`(WIDTH*HEIGHT*2 / BURST_MAX_SIZE) * BURST_MAX_SIZE` bytes of the array, in
order: no transmit follows for the remainder, so the last
`WIDTH*HEIGHT*2 % BURST_MAX_SIZE` bytes of the array are not sent, and the
whole array is sent exactly when the chunk constant divides its size. -/
theorem draw_image_sends_whole_chunks_only (cfg : Config) (img : List Nat) (o : Nat) (s : Lcd)
    (ho : o = cfg.SCREEN_HORIZONTAL_1 ∨ o = cfg.SCREEN_HORIZONTAL_2 ∨
      o = cfg.SCREEN_VERTICAL_2 ∨ o = cfg.SCREEN_VERTICAL_1)
    (hB : 1 ≤ cfg.BURST_MAX_SIZE)
    (hlen : img.length = cfg.ILI9341_SCREEN_WIDTH * cfg.ILI9341_SCREEN_HEIGHT * 2) :
    ∃ (X2 Y2 : Nat) (chunks : List (List Nat)),
      ILI9341_Draw_Image cfg img o s = Except.ok (appendTrace
        ([Event.gpio Pin.DC PinState.GPIO_PIN_SET,
          Event.gpio Pin.CHIP_SELECT PinState.GPIO_PIN_RESET]
         ++ chunks.map Event.transmit
         ++ [Event.gpio Pin.CHIP_SELECT PinState.GPIO_PIN_SET])
        (ILI9341_Set_Address 0 0 X2 Y2 (ILI9341_Set_Rotation cfg o s))) ∧
      chunks.length
        = cfg.ILI9341_SCREEN_WIDTH * cfg.ILI9341_SCREEN_HEIGHT * 2 / cfg.BURST_MAX_SIZE ∧
      (∀ chunk ∈ chunks, chunk.length = cfg.BURST_MAX_SIZE) ∧
      txBytes (chunks.map Event.transmit)
        = img.take (cfg.ILI9341_SCREEN_WIDTH * cfg.ILI9341_SCREEN_HEIGHT * 2
            / cfg.BURST_MAX_SIZE * cfg.BURST_MAX_SIZE) ∧
      (txBytes (chunks.map Event.transmit)).length
          + cfg.ILI9341_SCREEN_WIDTH * cfg.ILI9341_SCREEN_HEIGHT * 2 % cfg.BURST_MAX_SIZE
        = img.length ∧
      (txBytes (chunks.map Event.transmit) = img
        ↔ cfg.BURST_MAX_SIZE ∣ cfg.ILI9341_SCREEN_WIDTH * cfg.ILI9341_SCREEN_HEIGHT * 2) := by
  obtain ⟨X2, Y2, h⟩ := drawImage_eq_body cfg img o s ho
  have hle : cfg.ILI9341_SCREEN_WIDTH * cfg.ILI9341_SCREEN_HEIGHT * 2
      / cfg.BURST_MAX_SIZE * cfg.BURST_MAX_SIZE ≤ img.length := by
    rw [hlen]
    exact Nat.div_mul_le_self _ _
  have hdm := Nat.div_add_mod (cfg.ILI9341_SCREEN_WIDTH * cfg.ILI9341_SCREEN_HEIGHT * 2)
    cfg.BURST_MAX_SIZE
  rw [Nat.mul_comm cfg.BURST_MAX_SIZE] at hdm
  have htx : txBytes ((transmits (imageChunkEvents cfg img
      (cfg.ILI9341_SCREEN_WIDTH * cfg.ILI9341_SCREEN_HEIGHT * 2 / cfg.BURST_MAX_SIZE) 0)).map
        Event.transmit)
      = img.take (cfg.ILI9341_SCREEN_WIDTH * cfg.ILI9341_SCREEN_HEIGHT * 2
          / cfg.BURST_MAX_SIZE * cfg.BURST_MAX_SIZE) := by
    rw [← imageChunkEvents_all_transmits, txBytes_imageChunkEvents _ _ _ _ (by omega),
      List.drop_zero]
  refine ⟨X2, Y2, transmits (imageChunkEvents cfg img
    (cfg.ILI9341_SCREEN_WIDTH * cfg.ILI9341_SCREEN_HEIGHT * 2 / cfg.BURST_MAX_SIZE) 0), ?_,
    (transmits_imageChunkEvents _ _ _ _).1, (transmits_imageChunkEvents _ _ _ _).2, htx, ?_, ?_⟩
  · rw [h, drawImageBody_eq _ _ _ _ _ (by omega), ← imageChunkEvents_all_transmits]
  · rw [htx, List.length_take, Nat.min_eq_left hle]
    omega
  · rw [htx, List.take_eq_self_iff, Nat.dvd_iff_mod_eq_zero]
    omega

/-- Instance of `draw_image_sends_whole_chunks_only`: chunk constant 500,
`SCREEN_HORIZONTAL_1`, an array of 153600 bytes: 307 chunks carry its first
153500 bytes. -/
theorem draw_image_sends_whole_chunks_only_witness :
    ∃ (X2 Y2 : Nat) (chunks : List (List Nat)),
      ILI9341_Draw_Image sampleConfig (List.replicate 153600 0xAB) 1
          (initialLcd sampleConfig) = Except.ok (appendTrace
        ([Event.gpio Pin.DC PinState.GPIO_PIN_SET,
          Event.gpio Pin.CHIP_SELECT PinState.GPIO_PIN_RESET]
         ++ chunks.map Event.transmit
         ++ [Event.gpio Pin.CHIP_SELECT PinState.GPIO_PIN_SET])
        (ILI9341_Set_Address 0 0 X2 Y2
          (ILI9341_Set_Rotation sampleConfig 1 (initialLcd sampleConfig)))) ∧
      chunks.length
        = sampleConfig.ILI9341_SCREEN_WIDTH * sampleConfig.ILI9341_SCREEN_HEIGHT * 2
          / sampleConfig.BURST_MAX_SIZE ∧
      (∀ chunk ∈ chunks, chunk.length = sampleConfig.BURST_MAX_SIZE) ∧
      txBytes (chunks.map Event.transmit)
        = (List.replicate 153600 0xAB).take
            (sampleConfig.ILI9341_SCREEN_WIDTH * sampleConfig.ILI9341_SCREEN_HEIGHT * 2
              / sampleConfig.BURST_MAX_SIZE * sampleConfig.BURST_MAX_SIZE) ∧
      (txBytes (chunks.map Event.transmit)).length
          + sampleConfig.ILI9341_SCREEN_WIDTH * sampleConfig.ILI9341_SCREEN_HEIGHT * 2
            % sampleConfig.BURST_MAX_SIZE
        = (List.replicate 153600 0xAB).length ∧
      (txBytes (chunks.map Event.transmit) = List.replicate 153600 0xAB
        ↔ sampleConfig.BURST_MAX_SIZE
            ∣ sampleConfig.ILI9341_SCREEN_WIDTH * sampleConfig.ILI9341_SCREEN_HEIGHT * 2) :=
  draw_image_sends_whole_chunks_only sampleConfig (List.replicate 153600 0xAB) 1
    (initialLcd sampleConfig) (Or.inl rfl) (by decide)
    (List.length_replicate 153600 0xAB)

/-- The chunk constant 500 does not divide the array size 153600; the
remainder is 100 bytes. -/
theorem sample_chunk_remainder :
    sampleConfig.ILI9341_SCREEN_WIDTH * sampleConfig.ILI9341_SCREEN_HEIGHT * 2
      % sampleConfig.BURST_MAX_SIZE = 100 ∧
    ¬ sampleConfig.BURST_MAX_SIZE
      ∣ sampleConfig.ILI9341_SCREEN_WIDTH * sampleConfig.ILI9341_SCREEN_HEIGHT * 2 := by
  decide

/-! ## Hollow rectangle with reversed corners -/

set_option maxRecDepth 100000 in
/-- C13 (evaluation at the failing input): on the 240x320 panel the call with
corners `(10, 10)`, `(12, 12)` writes the outline of the square they span,
while the call with the same corners swapped writes other pixels: the lines
start at `(12, 12)` and run right and down from there, so `(13, 12)` and
`(12, 13)` are written and `(11, 10)` is not. -/
theorem hollow_rectangle_swapped_corners_differ :
    writtenPixels (finalState (ILI9341_Draw_Hollow_Rectangle_Coord sampleConfig 10 10 12 12
        0xF800 (initialLcd sampleConfig))).trace
      = [(10, 10), (11, 10), (10, 12), (11, 12), (10, 10), (10, 11), (12, 10), (12, 11),
         (12, 12)] ∧
    writtenPixels (finalState (ILI9341_Draw_Hollow_Rectangle_Coord sampleConfig 12 12 10 10
        0xF800 (initialLcd sampleConfig))).trace
      = [(12, 12), (13, 12), (12, 10), (13, 10), (12, 12), (12, 13), (10, 12), (10, 13),
         (10, 10)] := by
  decide

/-! ## Hollow circle -/

theorem drawPixelsAt_append (X Y c : Nat) (a b : List (Int × Int)) (s : Lcd) :
    drawPixelsAt X Y c (a ++ b) s = drawPixelsAt X Y c b (drawPixelsAt X Y c a s) := by
  simp [drawPixelsAt, List.foldl_append]

theorem hollowCirclePoints_eq (X Y c : Nat) (x y : Int) (s : Lcd) :
    hollowCirclePoints X Y c x y s = drawPixelsAt X Y c (hollowCircleStepOffsets x y) s := by
  simp [hollowCirclePoints, drawPixelsAt, hollowCircleStepOffsets, Int.sub_eq_add_neg]

/-- With enough iterations allowed (more than `x - y`), the loop of the hollow
circle returns, and what it did is the pixel calls at the collected offsets. -/
theorem hollowCircleLoop_eq (X Y R c : Nat) (fuel : Nat) (x y dx dy err : Int) (s : Lcd)
    (hfuel : x - y < fuel) :
    hollowCircleLoop X Y R c fuel x y dx dy err s
      = Except.ok (drawPixelsAt X Y c (hollowCircleLoopOffsets R fuel x y dx dy err) s) := by
  induction fuel generalizing x y dx dy err s with
  | zero =>
    have hlt : ¬ x ≥ y := by omega
    simp [hollowCircleLoop, hollowCircleLoopOffsets, hlt, drawPixelsAt]
  | succ n ih =>
    unfold hollowCircleLoop hollowCircleLoopOffsets
    by_cases hxy : x ≥ y
    · rw [if_pos hxy, if_pos hxy]
      simp only []
      rw [drawPixelsAt_append, ← hollowCirclePoints_eq]
      apply ih
      by_cases h1 : err ≤ 0
      · by_cases h2 : err + dy > 0
        · simp only [h1, h2, if_true]; omega
        · simp only [h1, h2, if_true, if_false]; omega
      · have h2 : err > 0 := by omega
        simp only [h1, h2, if_true, if_false]; omega
    · rw [if_neg hxy, if_neg hxy]
      rfl

theorem reflections_mem_stepOffsets (x y : Int) (p : Int × Int)
    (hp : p ∈ hollowCircleStepOffsets x y) :
    ∀ q ∈ reflections p, q ∈ hollowCircleStepOffsets x y := by
  simp only [hollowCircleStepOffsets, List.mem_cons, List.mem_singleton, List.not_mem_nil,
    or_false] at hp
  rcases hp with h | h | h | h | h | h | h | h <;> subst h <;>
    simp [reflections, hollowCircleStepOffsets]

theorem norm_stepOffsets (x y : Int) (p : Int × Int)
    (hp : p ∈ hollowCircleStepOffsets x y) :
    p.1 * p.1 + p.2 * p.2 = x * x + y * y := by
  simp only [hollowCircleStepOffsets, List.mem_cons, List.mem_singleton, List.not_mem_nil,
    or_false] at hp
  rcases hp with h | h | h | h | h | h | h | h <;> subst h <;> ring

theorem reflections_mem_loopOffsets (R : Nat) (fuel : Nat) (x y dx dy err : Int)
    (p : Int × Int) (hp : p ∈ hollowCircleLoopOffsets R fuel x y dx dy err) :
    ∀ q ∈ reflections p, q ∈ hollowCircleLoopOffsets R fuel x y dx dy err := by
  induction fuel generalizing x y dx dy err with
  | zero => simp [hollowCircleLoopOffsets] at hp
  | succ n ih =>
    unfold hollowCircleLoopOffsets at hp ⊢
    by_cases hxy : x ≥ y
    · rw [if_pos hxy] at hp ⊢
      simp only [List.mem_append] at hp ⊢
      intro q hq
      rcases hp with hp | hp
      · exact Or.inl (reflections_mem_stepOffsets x y p hp q hq)
      · exact Or.inr (ih _ _ _ _ _ hp q hq)
    · rw [if_neg hxy] at hp
      simp at hp

/-- Loop invariant of the hollow circle: `err = x² + y² - R²`, `dy = 2y + 1`,
`dx = 2(R - 1 - x) + 1`, and `err ≤ 2` at every plotted state; hence every
collected offset has squared norm at most `(R + 1)²`. -/
theorem norm_loopOffsets (R : Nat) (fuel : Nat) (x y dx dy err : Int)
    (hy : 0 ≤ y) (hx : x ≤ (R : Int) - 1) (herr : err = x * x + y * y - (R : Int) * R)
    (hdy : dy = 2 * y + 1) (hdx : dx = 2 * ((R : Int) - 1 - x) + 1)
    (hle : y ≤ x → err ≤ 2)
    (p : Int × Int) (hp : p ∈ hollowCircleLoopOffsets R fuel x y dx dy err) :
    p.1 * p.1 + p.2 * p.2 ≤ ((R : Int) + 1) * ((R : Int) + 1) := by
  induction fuel generalizing x y dx dy err with
  | zero => simp [hollowCircleLoopOffsets] at hp
  | succ n ih =>
    unfold hollowCircleLoopOffsets at hp
    by_cases hxy : x ≥ y
    · rw [if_pos hxy] at hp
      simp only [List.mem_append] at hp
      have he2 : err ≤ 2 := hle hxy
      rcases hp with hp | hp
      · rw [norm_stepOffsets x y p hp]
        have hR : (1 : Int) ≤ R := by omega
        nlinarith
      · by_cases h1 : err ≤ 0
        · by_cases h2 : err + dy > 0
          · simp only [h1, h2, if_true] at hp
            refine ih (x - 1) (y + 1) (dx + 2) (dy + 2) _ (by omega) (by omega) ?_ (by omega)
              (by omega) ?_ hp
            · rw [herr, hdy, hdx]; ring
            · intro _; omega
          · simp only [h1, h2, if_true, if_false] at hp
            refine ih x (y + 1) dx (dy + 2) _ (by omega) hx ?_ (by omega) hdx ?_ hp
            · rw [herr, hdy]; ring
            · intro _; omega
        · have h2 : err > 0 := by omega
          simp only [h1, h2, if_true, if_false] at hp
          refine ih (x - 1) y (dx + 2) dy _ hy (by omega) ?_ hdy (by omega) ?_ hp
          · rw [herr, hdx]; ring
          · intro _; omega
    · rw [if_neg hxy] at hp
      simp at hp

/-- C15: for every radius `R`, `ILI9341_Draw_Hollow_Circle` returns and its
pixel calls are exactly those at the offsets `hollowCircleOffsets R` from the
centre; with every offset `(dx, dy)` of that list all eight reflections
`(±dx, ±dy)`, `(±dy, ±dx)` are in the list, and `dx² + dy² ≤ (R + 1)²`. -/
theorem hollow_circle_offsets (X Y R Colour : Nat) (s : Lcd) :
    ILI9341_Draw_Hollow_Circle X Y R Colour s
      = Except.ok (drawPixelsAt X Y Colour (hollowCircleOffsets R) s) ∧
    ∀ p ∈ hollowCircleOffsets R,
      (∀ q ∈ reflections p, q ∈ hollowCircleOffsets R) ∧
      p.1 * p.1 + p.2 * p.2 ≤ ((R : Int) + 1) * ((R : Int) + 1) := by
  refine ⟨?_, ?_⟩
  · unfold ILI9341_Draw_Hollow_Circle hollowCircleOffsets
    exact hollowCircleLoop_eq X Y R Colour (R + 1) ((R : Int) - 1) 0 1 1 _ s (by omega)
  · intro p hp
    refine ⟨reflections_mem_loopOffsets R _ _ _ _ _ _ p hp, ?_⟩
    refine norm_loopOffsets R (R + 1) ((R : Int) - 1) 0 1 1 (1 - (R : Int) * 2)
      (by omega) (by omega) ?_ (by omega) (by omega) ?_ p hp
    · ring
    · intro _; omega

/-- For every character code from 32 up (8-bit), the glyph columns that
`ILI9341_Draw_Char` draws are those of font row `ch - 32`. -/
theorem drawChar_printable_row (cfg : Config)
    (ch X Y Colour Size Background_Colour : Nat) (s : Lcd) (h : 32 ≤ ch) (h8 : ch < 256) :
    ILI9341_Draw_Char cfg ch X Y Colour Size Background_Colour s
      = drawGlyph cfg (fun k => u8 (cfg.font (ch - 32) k)) X Y Colour Size Background_Colour s := by
  have hu : u8 (ch : Int) = ch := u8_of_lt ch h8
  have hs : u8 ((ch : Int) - 32) = ch - 32 := by unfold u8; omega
  unfold ILI9341_Draw_Char drawGlyph
  simp only [hu, if_neg (show ¬ ch < 32 by omega), hs]

/-! ## Register encoding and single-byte framing -/

/-- C25: with pairwise different mode constants, for each of the four modes
`ILI9341_Set_Rotation` sends the command `0x36` and then exactly one data
byte: `0x48` for `SCREEN_VERTICAL_1`, `0x28` for `SCREEN_HORIZONTAL_1`, `0x88`
for `SCREEN_VERTICAL_2`, `0xE8` for `SCREEN_HORIZONTAL_2`; each byte has the
bit `0x08` set, and the bit `0x20` is set in exactly the two bytes whose mode
makes the geometry 320 wide. -/
theorem set_rotation_register_bytes (cfg : Config) (hd : cfg.modesDistinct) (s : Lcd) :
    ILI9341_Set_Rotation cfg cfg.SCREEN_VERTICAL_1 s
      = { LCD_WIDTH := 240, LCD_HEIGHT := 320,
          trace := s.trace ++ (commandFrame 0x36 ++ [Event.delay 1] ++ dataFrame 0x48) } ∧
    ILI9341_Set_Rotation cfg cfg.SCREEN_HORIZONTAL_1 s
      = { LCD_WIDTH := 320, LCD_HEIGHT := 240,
          trace := s.trace ++ (commandFrame 0x36 ++ [Event.delay 1] ++ dataFrame 0x28) } ∧
    ILI9341_Set_Rotation cfg cfg.SCREEN_VERTICAL_2 s
      = { LCD_WIDTH := 240, LCD_HEIGHT := 320,
          trace := s.trace ++ (commandFrame 0x36 ++ [Event.delay 1] ++ dataFrame 0x88) } ∧
    ILI9341_Set_Rotation cfg cfg.SCREEN_HORIZONTAL_2 s
      = { LCD_WIDTH := 320, LCD_HEIGHT := 240,
          trace := s.trace ++ (commandFrame 0x36 ++ [Event.delay 1] ++ dataFrame 0xE8) } ∧
    (0x48 &&& 0x08 = 0x08 ∧ 0x28 &&& 0x08 = 0x08 ∧ 0x88 &&& 0x08 = 0x08 ∧ 0xE8 &&& 0x08 = 0x08) ∧
    (0x48 &&& 0x20 = 0 ∧ 0x28 &&& 0x20 = 0x20 ∧ 0x88 &&& 0x20 = 0 ∧ 0xE8 &&& 0x20 = 0x20) := by
  obtain ⟨h1, h2, h3, h4, h5, h6⟩ := hd
  refine ⟨?_, ?_, ?_, ?_, by decide, by decide⟩
  · unfold ILI9341_Set_Rotation
    simp [writeCommand_eq, writeData_eq, HAL_Delay, emit_eq_appendTrace, appendTrace,
      commandFrame, dataFrame]
  · unfold ILI9341_Set_Rotation
    simp [writeCommand_eq, writeData_eq, HAL_Delay, emit_eq_appendTrace, appendTrace,
      commandFrame, dataFrame, Ne.symm h1]
  · unfold ILI9341_Set_Rotation
    simp [writeCommand_eq, writeData_eq, HAL_Delay, emit_eq_appendTrace, appendTrace,
      commandFrame, dataFrame, Ne.symm h2, Ne.symm h4]
  · unfold ILI9341_Set_Rotation
    simp [writeCommand_eq, writeData_eq, HAL_Delay, emit_eq_appendTrace, appendTrace,
      commandFrame, dataFrame, Ne.symm h3, Ne.symm h5, Ne.symm h6]

/-- Instance of `set_rotation_register_bytes`: the sample configuration from
its initial state. -/
theorem set_rotation_register_bytes_witness :
    ILI9341_Set_Rotation sampleConfig sampleConfig.SCREEN_VERTICAL_1 (initialLcd sampleConfig)
      = { LCD_WIDTH := 240, LCD_HEIGHT := 320,
          trace := (initialLcd sampleConfig).trace
            ++ (commandFrame 0x36 ++ [Event.delay 1] ++ dataFrame 0x48) } ∧
    ILI9341_Set_Rotation sampleConfig sampleConfig.SCREEN_HORIZONTAL_1 (initialLcd sampleConfig)
      = { LCD_WIDTH := 320, LCD_HEIGHT := 240,
          trace := (initialLcd sampleConfig).trace
            ++ (commandFrame 0x36 ++ [Event.delay 1] ++ dataFrame 0x28) } ∧
    ILI9341_Set_Rotation sampleConfig sampleConfig.SCREEN_VERTICAL_2 (initialLcd sampleConfig)
      = { LCD_WIDTH := 240, LCD_HEIGHT := 320,
          trace := (initialLcd sampleConfig).trace
            ++ (commandFrame 0x36 ++ [Event.delay 1] ++ dataFrame 0x88) } ∧
    ILI9341_Set_Rotation sampleConfig sampleConfig.SCREEN_HORIZONTAL_2 (initialLcd sampleConfig)
      = { LCD_WIDTH := 320, LCD_HEIGHT := 240,
          trace := (initialLcd sampleConfig).trace
            ++ (commandFrame 0x36 ++ [Event.delay 1] ++ dataFrame 0xE8) } ∧
    (0x48 &&& 0x08 = 0x08 ∧ 0x28 &&& 0x08 = 0x08 ∧ 0x88 &&& 0x08 = 0x08 ∧ 0xE8 &&& 0x08 = 0x08) ∧
    (0x48 &&& 0x20 = 0 ∧ 0x28 &&& 0x20 = 0x20 ∧ 0x88 &&& 0x20 = 0 ∧ 0xE8 &&& 0x20 = 0x20) :=
  set_rotation_register_bytes sampleConfig (by decide) (initialLcd sampleConfig)

/-- C26 (as stated, refuted): the calls of `ILI9341_Write_Data 0x55` are not
select, data mode, transmit, deselect in that order. -/
theorem write_data_mode_precedes_select :
    (ILI9341_Write_Data 0x55 (initialLcd sampleConfig)).trace
      ≠ (initialLcd sampleConfig).trace ++ singleByteFrame_spec PinState.GPIO_PIN_SET 0x55 := by
  decide

/-- C26 (amended): for every byte, `ILI9341_Write_Command` makes exactly the
four calls select, command mode, one transmit of that byte, deselect, and
`ILI9341_Write_Data` exactly the four calls data mode, select, one transmit of
that byte, deselect, in these orders. -/
theorem single_byte_framing (b : Nat) (s : Lcd) :
    ILI9341_Write_Command b s = { s with trace := s.trace ++
      [Event.gpio Pin.CHIP_SELECT PinState.GPIO_PIN_RESET,
       Event.gpio Pin.DC PinState.GPIO_PIN_RESET,
       Event.transmit [b],
       Event.gpio Pin.CHIP_SELECT PinState.GPIO_PIN_SET] } ∧
    ILI9341_Write_Data b s = { s with trace := s.trace ++
      [Event.gpio Pin.DC PinState.GPIO_PIN_SET,
       Event.gpio Pin.CHIP_SELECT PinState.GPIO_PIN_RESET,
       Event.transmit [b],
       Event.gpio Pin.CHIP_SELECT PinState.GPIO_PIN_SET] } :=
  ⟨writeCommand_eq b s, writeData_eq b s⟩

/-! ## Zero-size bursts and the fill loop -/

theorem burstBufferSize_zero (cfg : Config) : burstBufferSize cfg 0 = 0 := by
  unfold burstBufferSize
  split
  · rfl
  · rename_i h
    have : u32 (((0 : Nat) : Int) * 2) = 0 := by decide
    omega

/-- C27 (evaluation at the failing inputs): for every origin inside the panel,
a rectangle of width 0 or of height 0 and a line of length 0 pass the bounds
check and call the burst with 0 pixels, which stops at the division by the
buffer size 0. -/
theorem zero_size_reaches_burst (cfg : Config) (X Y L Colour : Nat) (s : Lcd)
    (hX : X < s.LCD_WIDTH) (hY : Y < s.LCD_HEIGHT) :
    (∃ t, ILI9341_Draw_Rectangle cfg X Y 0 L Colour s = ILI9341_Draw_Colour_Burst cfg Colour 0 t) ∧
    (∃ t, ILI9341_Draw_Rectangle cfg X Y L 0 Colour s = ILI9341_Draw_Colour_Burst cfg Colour 0 t) ∧
    (∃ t, ILI9341_Draw_Horizontal_Line cfg X Y 0 Colour s
        = ILI9341_Draw_Colour_Burst cfg Colour 0 t) ∧
    (∃ t, ILI9341_Draw_Vertical_Line cfg X Y 0 Colour s
        = ILI9341_Draw_Colour_Burst cfg Colour 0 t) ∧
    (∀ t, ILI9341_Draw_Colour_Burst cfg Colour 0 t
        = Except.error (Fault.divByZero (appendTrace
            [Event.gpio Pin.DC PinState.GPIO_PIN_SET,
             Event.gpio Pin.CHIP_SELECT PinState.GPIO_PIN_RESET] t))) := by
  have hb : ¬ (X ≥ s.LCD_WIDTH ∨ Y ≥ s.LCD_HEIGHT) := by omega
  have hw0 : ¬ ((X : Int) + ((0 : Nat) : Int) - 1 ≥ s.LCD_WIDTH) := by omega
  have hh0 : ¬ ((Y : Int) + ((0 : Nat) : Int) - 1 ≥ s.LCD_HEIGHT) := by omega
  have z1 : ∀ a : Int, u32 (a * ((0 : Nat) : Int)) = 0 := by
    intro a
    simp [u32]
  have z2 : ∀ a : Int, u32 (((0 : Nat) : Int) * a) = 0 := by
    intro a
    simp [u32]
  refine ⟨?_, ?_, ?_, ?_, fun t => burst_eq_of_zero cfg Colour 0 t (burstBufferSize_zero cfg)⟩
  · unfold ILI9341_Draw_Rectangle
    rw [if_neg hb]
    simp only [if_neg hw0, z1]
    exact ⟨_, rfl⟩
  · unfold ILI9341_Draw_Rectangle
    rw [if_neg hb]
    simp only [if_neg hh0, z2]
    exact ⟨_, rfl⟩
  · unfold ILI9341_Draw_Horizontal_Line
    rw [if_neg hb]
    simp only [if_neg hw0]
    exact ⟨_, rfl⟩
  · unfold ILI9341_Draw_Vertical_Line
    rw [if_neg hb]
    simp only [if_neg hh0]
    exact ⟨_, rfl⟩

/-- Instance of `zero_size_reaches_burst`: origin `(5, 5)` on the 240x320 panel. -/
theorem zero_size_reaches_burst_witness :
    (∃ t, ILI9341_Draw_Rectangle sampleConfig 5 5 0 4 0xF800 (initialLcd sampleConfig)
        = ILI9341_Draw_Colour_Burst sampleConfig 0xF800 0 t) ∧
    (∃ t, ILI9341_Draw_Rectangle sampleConfig 5 5 4 0 0xF800 (initialLcd sampleConfig)
        = ILI9341_Draw_Colour_Burst sampleConfig 0xF800 0 t) ∧
    (∃ t, ILI9341_Draw_Horizontal_Line sampleConfig 5 5 0 0xF800 (initialLcd sampleConfig)
        = ILI9341_Draw_Colour_Burst sampleConfig 0xF800 0 t) ∧
    (∃ t, ILI9341_Draw_Vertical_Line sampleConfig 5 5 0 0xF800 (initialLcd sampleConfig)
        = ILI9341_Draw_Colour_Burst sampleConfig 0xF800 0 t) ∧
    (∀ t, ILI9341_Draw_Colour_Burst sampleConfig 0xF800 0 t
        = Except.error (Fault.divByZero (appendTrace
            [Event.gpio Pin.DC PinState.GPIO_PIN_SET,
             Event.gpio Pin.CHIP_SELECT PinState.GPIO_PIN_RESET] t))) :=
  zero_size_reaches_burst sampleConfig 5 5 4 0xF800 (initialLcd sampleConfig)
    (by decide) (by decide)

/-- The rectangle-from-coordinates call with `X0 = X1` stops at the division
by zero of the burst, after the address window and the two pin writes. -/
theorem filled_rectangle_coord_degenerate_faults :
    ILI9341_Draw_Filled_Rectangle_Coord sampleConfig 5 5 5 9 0xF800 (initialLcd sampleConfig)
      = Except.error (Fault.divByZero (appendTrace
          [Event.gpio Pin.DC PinState.GPIO_PIN_SET,
           Event.gpio Pin.CHIP_SELECT PinState.GPIO_PIN_RESET]
          (ILI9341_Set_Address 5 5 4 8 (initialLcd sampleConfig)))) := by
  rfl

theorem mem_fillBurstIndices_of_odd (fuel j B : Nat) (hj : j < B) (hpar : (B - 1 - j) % 2 = 0)
    (hfuel : B - j ≤ 2 * fuel) : B ∈ fillBurstIndices fuel j B := by
  induction fuel generalizing j with
  | zero => omega
  | succ n ih =>
    unfold fillBurstIndices
    rw [if_pos hj]
    by_cases hlast : j + 1 = B
    · simp [hlast]
    · have h2 : B ∈ fillBurstIndices n (j + 2) B := ih (j + 2) (by omega) (by omega) (by omega)
      simp [h2]

/-- C28 (evaluation at the failing inputs): for every odd pixel count with
`count*2 < BURST_MAX_SIZE`, the buffer has `Buffer_Size = count` bytes and the
fill loop stores to the index `Buffer_Size` itself, one past the last element. -/
theorem burst_fill_writes_past_end (cfg : Config) (count : Nat)
    (hodd : count % 2 = 1) (hlt : count * 2 < cfg.BURST_MAX_SIZE) :
    burstBufferSize cfg count = count ∧
    burstBufferSize cfg count ∈ burstFillIndices cfg count ∧
    ¬ (∀ idx ∈ burstFillIndices cfg count, idx < burstBufferSize cfg count) := by
  have hsz : burstBufferSize cfg count = count := by
    unfold burstBufferSize
    have hu : u32 ((count : Int) * 2) ≤ count * 2 := by
      unfold u32
      omega
    rw [if_pos (by omega)]
  have hmem : burstBufferSize cfg count ∈ burstFillIndices cfg count := by
    unfold burstFillIndices
    rw [hsz]
    exact mem_fillBurstIndices_of_odd count 0 count (by omega) (by omega) (by omega)
  refine ⟨hsz, hmem, ?_⟩
  intro hall
  exact Nat.lt_irrefl _ (hall _ hmem)

/-- Instance of `burst_fill_writes_past_end`: one pixel, chunk constant 500:
the buffer has one byte and the stores go to the indices 0 and 1. -/
theorem burst_fill_writes_past_end_witness :
    burstBufferSize sampleConfig 1 = 1 ∧
    burstBufferSize sampleConfig 1 ∈ burstFillIndices sampleConfig 1 ∧
    ¬ (∀ idx ∈ burstFillIndices sampleConfig 1, idx < burstBufferSize sampleConfig 1) :=
  burst_fill_writes_past_end sampleConfig 1 (by decide) (by decide)

/-- The stores of the fill loop for one pixel: indices 0 and 1 of a 1-byte buffer. -/
theorem burstFillIndices_one_pixel : burstFillIndices sampleConfig 1 = [0, 1] := by
  decide

/-! ## Filled circle -/

theorem drawPixelsAt_nil (X Y c : Nat) (s : Lcd) : drawPixelsAt X Y c [] s = s := rfl

theorem foldl_span_eq (X Y c : Nat) (a r1 r2 : Int) (ks : List Nat) (s : Lcd) :
    ks.foldl (fun (s : Lcd) (k : Nat) =>
        ILI9341_Draw_Pixel (u16 ((X : Int) - a + (k : Int))) (u16 ((Y : Int) + r2)) c
          (ILI9341_Draw_Pixel (u16 ((X : Int) - a + (k : Int))) (u16 ((Y : Int) + r1)) c s)) s
      = drawPixelsAt X Y c
          (ks.flatMap fun k => [(-a + (k : Int), r1), (-a + (k : Int), r2)]) s := by
  induction ks generalizing s with
  | nil => rfl
  | cons k ks ih =>
    rw [List.foldl_cons, List.flatMap_cons, drawPixelsAt_append, ih]
    have e : (X : Int) - a + (k : Int) = (X : Int) + (-a + (k : Int)) := by ring
    simp [drawPixelsAt, e]

theorem filledCircleSpan_eq (X Y c : Nat) (a r1 r2 : Int) (s : Lcd) :
    filledCircleSpan c ((X : Int) - a) ((X : Int) + a) ((Y : Int) + r1) ((Y : Int) + r2) s
      = drawPixelsAt X Y c (filledCircleSpanOffsets a r1 r2) s := by
  unfold filledCircleSpan filledCircleSpanOffsets
  have e : ((X : Int) + a - ((X : Int) - a) + 1) = (a - (-a) + 1) := by ring
  rw [e]
  exact foldl_span_eq X Y c a r1 r2 _ s

/-- With enough iterations allowed (more than `x - y`), the loop of the filled
circle returns, and what it did is the pixel calls at the collected offsets. -/
theorem filledCircleLoop_eq (X Y c : Nat) (fuel : Nat) (x y xc yc re : Int) (s : Lcd)
    (hfuel : x - y < fuel) :
    filledCircleLoop X Y c fuel x y xc yc re s
      = Except.ok (drawPixelsAt X Y c (filledCircleLoopOffsets fuel x y xc yc re) s) := by
  induction fuel generalizing x y xc yc re s with
  | zero =>
    have hlt : ¬ x ≥ y := by omega
    simp [filledCircleLoop, filledCircleLoopOffsets, hlt, drawPixelsAt]
  | succ n ih =>
    unfold filledCircleLoop filledCircleLoopOffsets
    by_cases hxy : x ≥ y
    · rw [if_pos hxy, if_pos hxy]
      have e1 : filledCircleSpan c ((X : Int) - x) ((X : Int) + x) ((Y : Int) + y)
          ((Y : Int) - y) s = drawPixelsAt X Y c (filledCircleSpanOffsets x y (-y)) s := by
        rw [show (Y : Int) - y = (Y : Int) + -y from Int.sub_eq_add_neg]
        exact filledCircleSpan_eq X Y c x y (-y) s
      have e2 : ∀ t, filledCircleSpan c ((X : Int) - y) ((X : Int) + y) ((Y : Int) + x)
          ((Y : Int) - x) t = drawPixelsAt X Y c (filledCircleSpanOffsets y x (-x)) t := by
        intro t
        rw [show (Y : Int) - x = (Y : Int) + -x from Int.sub_eq_add_neg]
        exact filledCircleSpan_eq X Y c y x (-x) t
      simp only [e1, e2]
      by_cases hdec : (re + yc) * 2 + xc > 0
      · rw [if_pos hdec, if_pos hdec, ih _ _ _ _ _ _ (by omega), drawPixelsAt_append,
          drawPixelsAt_append]
      · rw [if_neg hdec, if_neg hdec, ih _ _ _ _ _ _ (by omega), drawPixelsAt_append,
          drawPixelsAt_append]
    · rw [if_neg hxy, if_neg hxy]
      rfl

theorem mem_filledCircleSpanOffsets (a r1 r2 : Int) (p : Int × Int) :
    p ∈ filledCircleSpanOffsets a r1 r2 ↔ -a ≤ p.1 ∧ p.1 ≤ a ∧ (p.2 = r1 ∨ p.2 = r2) := by
  unfold filledCircleSpanOffsets
  simp only [List.mem_flatMap, List.mem_range, List.mem_cons, List.mem_singleton,
    List.not_mem_nil, or_false, Prod.ext_iff]
  constructor
  · rintro ⟨k, hk, h | h⟩
    · exact ⟨by omega, by omega, Or.inl h.2⟩
    · exact ⟨by omega, by omega, Or.inr h.2⟩
  · rintro ⟨h1, h2, h3⟩
    refine ⟨(p.1 + a).toNat, by omega, ?_⟩
    rcases h3 with h3 | h3
    · exact Or.inl ⟨by omega, h3⟩
    · exact Or.inr ⟨by omega, h3⟩

theorem mem_filledCircleLoopOffsets (fuel : Nat) (x y xc yc re : Int) (p : Int × Int) :
    p ∈ filledCircleLoopOffsets fuel x y xc yc re
      ↔ ∃ st ∈ filledCircleLoopSteps fuel x y xc yc re, inSpans_spec st.1 st.2 p := by
  induction fuel generalizing x y xc yc re with
  | zero => simp [filledCircleLoopOffsets, filledCircleLoopSteps]
  | succ n ih =>
    unfold filledCircleLoopOffsets filledCircleLoopSteps
    by_cases hxy : x ≥ y
    · rw [if_pos hxy, if_pos hxy]
      have hhere : p ∈ filledCircleSpanOffsets x y (-y) ++ filledCircleSpanOffsets y x (-x)
          ↔ inSpans_spec x y p := by
        rw [List.mem_append, mem_filledCircleSpanOffsets, mem_filledCircleSpanOffsets]
        rfl
      by_cases hdec : (re + yc) * 2 + xc > 0
      · simp only [if_pos hdec, List.mem_append, List.mem_cons, exists_eq_or_imp, ih]
        rw [← List.mem_append, hhere]
      · simp only [if_neg hdec, List.mem_append, List.mem_cons, exists_eq_or_imp, ih]
        rw [← List.mem_append, hhere]
    · rw [if_neg hxy, if_neg hxy]
      simp

/-- C22: for every radius, `ILI9341_Draw_Filled_Circle` returns and its pixel
calls are exactly those at the offsets `filledCircleOffsets R` from the
centre; an offset is in that list exactly when, for some step `(x, y)` of the
midpoint iteration, it lies in the span `[-x, x]` of row `+y` or `-y`, or in
the span `[-y, y]` of row `+x` or `-x`. -/
theorem filled_circle_offsets (X Y R Colour : Nat) (s : Lcd) :
    ILI9341_Draw_Filled_Circle X Y R Colour s
      = Except.ok (drawPixelsAt X Y Colour (filledCircleOffsets R) s) ∧
    ∀ p : Int × Int, p ∈ filledCircleOffsets R
      ↔ ∃ st ∈ filledCircleSteps R, inSpans_spec st.1 st.2 p := by
  constructor
  · unfold ILI9341_Draw_Filled_Circle filledCircleOffsets
    exact filledCircleLoop_eq X Y Colour (R + 1) (R : Int) 0 _ 0 0 s (by omega)
  · intro p
    exact mem_filledCircleLoopOffsets _ _ _ _ _ _ p

/-- C29: for every radius (0 included) both circle calls return: the loop of
`ILI9341_Draw_Hollow_Circle` and the loop of `ILI9341_Draw_Filled_Circle`
leave within `Radius + 1` iterations; and from any loop state, each loop
leaves within any number of iterations above `x - y`, since `x - y` drops by
at least 1 in every iteration (in the hollow loop one or both of `y++`, `x--`
happen, in the filled loop `y++` always). -/
theorem circle_loops_terminate (X Y R Colour : Nat) (s : Lcd) :
    (∃ t, ILI9341_Draw_Hollow_Circle X Y R Colour s = Except.ok t) ∧
    (∃ t, ILI9341_Draw_Filled_Circle X Y R Colour s = Except.ok t) ∧
    (∀ (fuel : Nat) (x y dx dy err : Int) (u : Lcd), x - y < fuel →
      ∃ t, hollowCircleLoop X Y R Colour fuel x y dx dy err u = Except.ok t) ∧
    (∀ (fuel : Nat) (x y xChange yChange radiusError : Int) (u : Lcd), x - y < fuel →
      ∃ t, filledCircleLoop X Y Colour fuel x y xChange yChange radiusError u = Except.ok t) := by
  refine ⟨?_, ?_, ?_, ?_⟩
  · unfold ILI9341_Draw_Hollow_Circle
    exact ⟨_, hollowCircleLoop_eq X Y R Colour (R + 1) ((R : Int) - 1) 0 1 1 _ s (by omega)⟩
  · unfold ILI9341_Draw_Filled_Circle
    exact ⟨_, filledCircleLoop_eq X Y Colour (R + 1) (R : Int) 0 _ 0 0 s (by omega)⟩
  · intro fuel x y dx dy err u h
    exact ⟨_, hollowCircleLoop_eq X Y R Colour fuel x y dx dy err u h⟩
  · intro fuel x y xc yc re u h
    exact ⟨_, filledCircleLoop_eq X Y Colour fuel x y xc yc re u h⟩

/-! ## What the controller writes -/

theorem memoryWritePixels_add (cs ce rs re : Nat) (r a b : Nat) :
    memoryWritePixels cs ce rs re r (a + b)
      = memoryWritePixels cs ce rs re r a ++ memoryWritePixels cs ce rs re (r + a) b := by
  induction a generalizing r with
  | zero => simp [memoryWritePixels]
  | succ n ih =>
    have e : n + 1 + b = (n + b) + 1 := by omega
    rw [e]
    simp only [memoryWritePixels, ih, List.append_assoc]
    have e2 : r + 1 + n = r + (n + 1) := by omega
    rw [e2]

theorem mem_memoryWritePixels (cs ce rs re : Nat) (r n : Nat) (p : Nat × Nat) :
    p ∈ memoryWritePixels cs ce rs re r n
      ↔ ∃ j, r ≤ j ∧ j < r + n ∧ j % 2 = 1 ∧
          p = (cs + j / 2 % (ce + 1 - cs), rs + j / 2 / (ce + 1 - cs) % (re + 1 - rs)) := by
  induction n generalizing r with
  | zero =>
    simp only [memoryWritePixels, List.not_mem_nil, false_iff]
    rintro ⟨j, h1, h2, _⟩
    omega
  | succ n ih =>
    simp only [memoryWritePixels, List.mem_append, ih]
    constructor
    · rintro (h | ⟨j, h1, h2, h3, h4⟩)
      · by_cases hr : r % 2 = 1
        · rw [if_pos hr] at h
          simp only [List.mem_singleton] at h
          exact ⟨r, by omega, by omega, hr, h⟩
        · rw [if_neg hr] at h
          simp at h
      · exact ⟨j, by omega, by omega, h3, h4⟩
    · rintro ⟨j, h1, h2, h3, h4⟩
      by_cases hj : j = r
      · left
        subst hj
        rw [if_pos h3]
        simp [h4]
      · right
        exact ⟨j, by omega, by omega, h3, h4⟩

/-- In memory-write mode, `bs.length` data bytes advance the byte count and
write the pixels that complete. -/
theorem foldl_byte_memoryWrite (bs : List Nat) (k : Controller)
    (hdc : k.dc = PinState.GPIO_PIN_SET) (hcmd : k.command = 0x2C) :
    bs.foldl Controller.byte k
      = { k with received := k.received + bs.length,
                 written := k.written ++ memoryWritePixels k.colStart k.colEnd k.rowStart
                   k.rowEnd k.received bs.length } := by
  induction bs generalizing k with
  | nil =>
    obtain ⟨dc, cmd, ps, cs, ce, rs, re, rc, wr⟩ := k
    simp [memoryWritePixels]
  | cons b bs ih =>
    obtain ⟨dc, cmd, ps, cs, ce, rs, re, rc, wr⟩ := k
    simp only at hdc hcmd
    subst hdc hcmd
    rw [List.foldl_cons]
    by_cases hr : rc % 2 = 1
    · have hstep : Controller.byte ⟨PinState.GPIO_PIN_SET, 0x2C, ps, cs, ce, rs, re, rc, wr⟩ b
          = ⟨PinState.GPIO_PIN_SET, 0x2C, ps, cs, ce, rs, re, rc + 1,
              wr ++ [(cs + rc / 2 % (ce + 1 - cs), rs + rc / 2 / (ce + 1 - cs) % (re + 1 - rs))]⟩ := by
        simp [Controller.byte, hr]
      rw [hstep, ih _ rfl rfl]
      simp [memoryWritePixels, hr, Nat.add_assoc, Nat.add_comm 1]
    · have hstep : Controller.byte ⟨PinState.GPIO_PIN_SET, 0x2C, ps, cs, ce, rs, re, rc, wr⟩ b
          = ⟨PinState.GPIO_PIN_SET, 0x2C, ps, cs, ce, rs, re, rc + 1, wr⟩ := by
        simp [Controller.byte, hr]
      rw [hstep, ih _ rfl rfl]
      simp [memoryWritePixels, hr, Nat.add_assoc, Nat.add_comm 1]

/-- In memory-write mode, a run of transmits and chip-select writes is seen by
the controller as `txLength` data bytes. -/
theorem foldl_event_dataOnly (evs : List Event) (k : Controller) (hd : dataOnly evs)
    (hdc : k.dc = PinState.GPIO_PIN_SET) (hcmd : k.command = 0x2C) :
    evs.foldl Controller.event k
      = { k with received := k.received + txLength evs,
                 written := k.written ++ memoryWritePixels k.colStart k.colEnd k.rowStart
                   k.rowEnd k.received (txLength evs) } := by
  induction evs generalizing k with
  | nil =>
    obtain ⟨dc, cmd, ps, cs, ce, rs, re, rc, wr⟩ := k
    simp [txLength, memoryWritePixels]
  | cons e es ih =>
    have hes : dataOnly es := fun e' he' => hd e' (List.mem_cons_of_mem _ he')
    obtain ⟨dc, cmd, ps, cs, ce, rs, re, rc, wr⟩ := k
    simp only at hdc hcmd
    subst hdc hcmd
    rcases hd e (List.mem_cons_self _ _) with ⟨bs, rfl⟩ | ⟨l, rfl⟩
    · rw [List.foldl_cons]
      have hstep : Controller.event ⟨PinState.GPIO_PIN_SET, 0x2C, ps, cs, ce, rs, re, rc, wr⟩
          (Event.transmit bs)
          = bs.foldl Controller.byte ⟨PinState.GPIO_PIN_SET, 0x2C, ps, cs, ce, rs, re, rc, wr⟩ :=
        rfl
      rw [hstep, foldl_byte_memoryWrite bs _ rfl rfl]
      rw [ih ⟨PinState.GPIO_PIN_SET, 0x2C, ps, cs, ce, rs, re, rc + bs.length,
        wr ++ memoryWritePixels cs ce rs re rc bs.length⟩ hes rfl rfl]
      simp [txLength, memoryWritePixels_add, Nat.add_assoc]
    · rw [List.foldl_cons]
      have hstep : Controller.event ⟨PinState.GPIO_PIN_SET, 0x2C, ps, cs, ce, rs, re, rc, wr⟩
          (Event.gpio Pin.CHIP_SELECT l)
          = ⟨PinState.GPIO_PIN_SET, 0x2C, ps, cs, ce, rs, re, rc, wr⟩ := rfl
      rw [hstep, ih _ hes rfl rfl]
      simp [txLength]

theorem u8_be16 (n : Nat) (h : n < 65536) : u8 ((n >>> 8 : Nat) : Int) * 256 + u8 (n : Int) = n := by
  rw [u8_shift_of_lt n h, u8_low]
  exact be16_decode n

/-- After the calls of `ILI9341_Set_Address` the controller holds the window
`X1..X2` by `Y1..Y2` and is at the start of a memory write; what it has
written so far is unchanged. -/
theorem foldl_event_setAddress (X1 Y1 X2 Y2 : Nat) (k : Controller)
    (hX1 : X1 < 65536) (hY1 : Y1 < 65536) (hX2 : X2 < 65536) (hY2 : Y2 < 65536) :
    (setAddressEvents X1 Y1 X2 Y2).foldl Controller.event k
      = { dc := PinState.GPIO_PIN_RESET, command := 0x2C, params := [],
          colStart := X1, colEnd := X2, rowStart := Y1, rowEnd := Y2,
          received := 0, written := k.written } := by
  obtain ⟨dc, cmd, ps, cs, ce, rs, re, rc, wr⟩ := k
  simp [setAddressEvents, commandFrame, dataFrame, Controller.event, Controller.byte,
    u8_be16 X1 hX1, u8_be16 X2 hX2, u8_be16 Y1 hY1, u8_be16 Y2 hY2]

theorem dataOnly_burst_tail (n : Nat) (buf tl : List Nat) :
    dataOnly (Event.gpio Pin.CHIP_SELECT PinState.GPIO_PIN_RESET
      :: (List.replicate n (Event.transmit buf)
        ++ [Event.transmit tl, Event.gpio Pin.CHIP_SELECT PinState.GPIO_PIN_SET])) := by
  intro e he
  simp only [List.mem_cons, List.mem_append, List.mem_replicate, List.mem_singleton,
    List.not_mem_nil, or_false] at he
  rcases he with h | ⟨_, h⟩ | h | h
  · exact Or.inr ⟨_, h⟩
  · exact Or.inl ⟨_, h⟩
  · exact Or.inl ⟨_, h⟩
  · exact Or.inr ⟨_, h⟩

/-- At the start of a memory write, the calls of a burst of `Size` pixels
(`1 ≤ Size < 2^31`, buffer size not 0) make the controller write the first
`Size` pixels of its window. -/
theorem foldl_event_burst (cfg : Config) (Colour Size : Nat) (k : Controller)
    (hne : burstBufferSize cfg Size ≠ 0) (hS : Size < 2 ^ 31)
    (hcmd : k.command = 0x2C) (hrc : k.received = 0) :
    ((burstEvents cfg Colour Size).foldl Controller.event k).written
      = k.written ++ memoryWritePixels k.colStart k.colEnd k.rowStart k.rowEnd 0 (Size * 2) := by
  have hlen := txLength_burstEvents cfg Colour Size hne
  rw [u32_double Size hS] at hlen
  obtain ⟨dc, cmd, ps, cs, ce, rs, re, rc, wr⟩ := k
  simp only at hcmd hrc
  subst hcmd hrc
  have hE : burstEvents cfg Colour Size
      = Event.gpio Pin.DC PinState.GPIO_PIN_SET
        :: (Event.gpio Pin.CHIP_SELECT PinState.GPIO_PIN_RESET
          :: (List.replicate (u32 ((Size : Int) * 2) / burstBufferSize cfg Size)
                (Event.transmit (burstBuffer cfg Colour Size))
            ++ [Event.transmit ((burstBuffer cfg Colour Size).take
                  (u32 ((Size : Int) * 2) % burstBufferSize cfg Size)),
                Event.gpio Pin.CHIP_SELECT PinState.GPIO_PIN_SET])) := by
    simp [burstEvents]
  rw [hE] at hlen ⊢
  have hl : txLength (Event.gpio Pin.CHIP_SELECT PinState.GPIO_PIN_RESET
      :: (List.replicate (u32 ((Size : Int) * 2) / burstBufferSize cfg Size)
            (Event.transmit (burstBuffer cfg Colour Size))
        ++ [Event.transmit ((burstBuffer cfg Colour Size).take
              (u32 ((Size : Int) * 2) % burstBufferSize cfg Size)),
            Event.gpio Pin.CHIP_SELECT PinState.GPIO_PIN_SET])) = Size * 2 := hlen
  rw [List.foldl_cons]
  have hstep : Controller.event ⟨dc, 0x2C, ps, cs, ce, rs, re, 0, wr⟩
      (Event.gpio Pin.DC PinState.GPIO_PIN_SET)
      = ⟨PinState.GPIO_PIN_SET, 0x2C, ps, cs, ce, rs, re, 0, wr⟩ := rfl
  rw [hstep, foldl_event_dataOnly _ ⟨PinState.GPIO_PIN_SET, 0x2C, ps, cs, ce, rs, re, 0, wr⟩
    (dataOnly_burst_tail _ _ _) rfl rfl, hl]

/-- The calls of `ILI9341_Draw_Pixel` for a point inside the panel make the
controller write exactly the pixel `(X, Y)`. -/
theorem foldl_event_drawPixel (X Y Colour : Nat) (k : Controller)
    (hX : X < 65535) (hY : Y < 65535) :
    ((drawPixelEvents X Y Colour).foldl Controller.event k).written = k.written ++ [(X, Y)] := by
  obtain ⟨dc, cmd, ps, cs, ce, rs, re, rc, wr⟩ := k
  have hx1 : u8 (((X + 1) >>> 8 : Nat) : Int) * 256 + u8 ((X : Int) + 1) = X + 1 := by
    have := u8_be16 (X + 1) (by omega)
    push_cast at this
    exact this
  have hy1 : u8 (((Y + 1) >>> 8 : Nat) : Int) * 256 + u8 ((Y : Int) + 1) = Y + 1 := by
    have := u8_be16 (Y + 1) (by omega)
    push_cast at this
    exact this
  simp [drawPixelEvents, Controller.event, Controller.byte, u8_be16 X (by omega),
    u8_be16 Y (by omega), hx1, hy1]

theorem writtenPixels_append (a b : List Event) :
    writtenPixels (a ++ b)
      = (b.foldl Controller.event (a.foldl Controller.event Controller.start)).written := by
  unfold writtenPixels
  rw [List.foldl_append]

/-- The calls of an address window followed by a burst of `Size` pixels make
the controller write the first `Size` pixels of that window. -/
theorem foldl_event_window_burst (cfg : Config) (X1 Y1 X2 Y2 Colour Size : Nat) (k : Controller)
    (hX1 : X1 < 65536) (hY1 : Y1 < 65536) (hX2 : X2 < 65536) (hY2 : Y2 < 65536)
    (hne : burstBufferSize cfg Size ≠ 0) (hS : Size < 2 ^ 31) :
    ((setAddressEvents X1 Y1 X2 Y2 ++ burstEvents cfg Colour Size).foldl Controller.event k).written
      = k.written ++ memoryWritePixels X1 X2 Y1 Y2 0 (Size * 2) := by
  rw [List.foldl_append, foldl_event_setAddress X1 Y1 X2 Y2 k hX1 hY1 hX2 hY2,
    foldl_event_burst cfg Colour Size _ hne hS rfl rfl]

theorem mem_rowPixels (X Y L : Nat) (hL : 1 ≤ L) (p : Nat × Nat) :
    p ∈ memoryWritePixels X (X + L - 1) Y Y 0 (L * 2) ↔ p.2 = Y ∧ X ≤ p.1 ∧ p.1 < X + L := by
  rw [mem_memoryWritePixels]
  have hw : X + L - 1 + 1 - X = L := by omega
  have hh : Y + 1 - Y = 1 := by omega
  rw [hw, hh]
  constructor
  · rintro ⟨j, _, hj, _, rfl⟩
    have hlt : j / 2 < L := by omega
    rw [Nat.mod_eq_of_lt hlt, Nat.mod_one]
    exact ⟨by simp, by simp, by simp; omega⟩
  · rintro ⟨h1, h2, h3⟩
    refine ⟨2 * (p.1 - X) + 1, by omega, by omega, by omega, ?_⟩
    have hd : (2 * (p.1 - X) + 1) / 2 = p.1 - X := by omega
    rw [hd, Nat.mod_eq_of_lt (by omega), Nat.mod_one]
    apply Prod.ext
    · simp; omega
    · simp [h1]

theorem mem_columnPixels (X Y L : Nat) (hL : 1 ≤ L) (p : Nat × Nat) :
    p ∈ memoryWritePixels X X Y (Y + L - 1) 0 (L * 2) ↔ p.1 = X ∧ Y ≤ p.2 ∧ p.2 < Y + L := by
  rw [mem_memoryWritePixels]
  have hw : X + 1 - X = 1 := by omega
  have hh : Y + L - 1 + 1 - Y = L := by omega
  rw [hw, hh]
  constructor
  · rintro ⟨j, _, hj, _, rfl⟩
    have hlt : j / 2 < L := by omega
    rw [Nat.mod_one, Nat.div_one, Nat.mod_eq_of_lt hlt]
    exact ⟨by simp, by simp, by simp; omega⟩
  · rintro ⟨h1, h2, h3⟩
    refine ⟨2 * (p.2 - Y) + 1, by omega, by omega, by omega, ?_⟩
    have hd : (2 * (p.2 - Y) + 1) / 2 = p.2 - Y := by omega
    rw [hd, Nat.mod_one, Nat.div_one, Nat.mod_eq_of_lt (by omega)]
    apply Prod.ext
    · simp [h1]
    · simp; omega

theorem burstBufferSize_ne_zero (cfg : Config) (Size : Nat) (hB : 1 ≤ cfg.BURST_MAX_SIZE)
    (hS : 1 ≤ Size) : burstBufferSize cfg Size ≠ 0 := by
  unfold burstBufferSize
  split <;> omega

/-- A horizontal line of length `L ≥ 1` that fits the panel returns, having
set the window `X..X+L-1` by `Y..Y` and burst `L` pixels. -/
theorem drawHorizontalLine_eq (cfg : Config) (X Y L Colour : Nat) (s : Lcd)
    (hB : 1 ≤ cfg.BURST_MAX_SIZE) (hW : s.LCD_WIDTH < 65536)
    (hY : Y < s.LCD_HEIGHT) (hL : 1 ≤ L) (hfit : X + L ≤ s.LCD_WIDTH) :
    ILI9341_Draw_Horizontal_Line cfg X Y L Colour s
      = Except.ok (appendTrace
          (setAddressEvents X Y (X + L - 1) Y ++ burstEvents cfg Colour L) s) := by
  unfold ILI9341_Draw_Horizontal_Line
  rw [if_neg (by omega)]
  have hc : ¬ ((X : Int) + (L : Int) - 1 ≥ s.LCD_WIDTH) := by omega
  have hx2 : u16 ((X : Int) + (L : Int) - 1) = X + L - 1 := by unfold u16; omega
  simp only [if_neg hc, hx2]
  rw [setAddress_eq, burst_eq_of_ne_zero _ _ _ _ (burstBufferSize_ne_zero cfg L hB hL),
    appendTrace_appendTrace]

/-- A vertical line of length `L ≥ 1` that fits the panel returns, having set
the window `X..X` by `Y..Y+L-1` and burst `L` pixels. -/
theorem drawVerticalLine_eq (cfg : Config) (X Y L Colour : Nat) (s : Lcd)
    (hB : 1 ≤ cfg.BURST_MAX_SIZE) (hH : s.LCD_HEIGHT < 65536)
    (hX : X < s.LCD_WIDTH) (hL : 1 ≤ L) (hfit : Y + L ≤ s.LCD_HEIGHT) :
    ILI9341_Draw_Vertical_Line cfg X Y L Colour s
      = Except.ok (appendTrace
          (setAddressEvents X Y X (Y + L - 1) ++ burstEvents cfg Colour L) s) := by
  unfold ILI9341_Draw_Vertical_Line
  rw [if_neg (by omega)]
  have hc : ¬ ((Y : Int) + (L : Int) - 1 ≥ s.LCD_HEIGHT) := by omega
  have hy2 : u16 ((Y : Int) + (L : Int) - 1) = Y + L - 1 := by unfold u16; omega
  simp only [if_neg hc, hy2]
  rw [setAddress_eq, burst_eq_of_ne_zero _ _ _ _ (burstBufferSize_ne_zero cfg L hB hL),
    appendTrace_appendTrace]

/-! ## Hollow rectangle with ordered corners -/

theorem hollowRectangle_eq_chain (cfg : Config) (X0 Y0 X1 Y1 Colour : Nat) (s : Lcd)
    (hX : X0 < X1) (hX1 : X1 < 65536) (hY : Y0 < Y1) (hY1 : Y1 < 65536) :
    ILI9341_Draw_Hollow_Rectangle_Coord cfg X0 Y0 X1 Y1 Colour s
      = andThen (ILI9341_Draw_Horizontal_Line cfg X0 Y0 (X1 - X0) Colour s) fun s =>
        andThen (ILI9341_Draw_Horizontal_Line cfg X0 Y1 (X1 - X0) Colour s) fun s =>
        andThen (ILI9341_Draw_Vertical_Line cfg X0 Y0 (Y1 - Y0) Colour s) fun s =>
        andThen (ILI9341_Draw_Vertical_Line cfg X1 Y0 (Y1 - Y0) Colour s) fun s =>
        Except.ok (ILI9341_Draw_Pixel X1 Y1 Colour s) := by
  have key : ∀ a b : Nat, a < b → b < 65536 →
      (if (!decide ((b : Int) - a < 0)) = true then u16 ((b : Int) - a) else u16 ((a : Int) - b))
        = b - a := by
    intro a b hab hb
    have h : ¬ ((b : Int) - a < 0) := by omega
    simp only [h, decide_False, Bool.not_false, if_true]
    unfold u16
    omega
  unfold ILI9341_Draw_Hollow_Rectangle_Coord
  simp only [key X0 X1 hX hX1, key Y0 Y1 hY hY1]
  have hpos : X1 - X0 > 0 ∨ Y1 - Y0 > 0 := Or.inl (by omega)
  simp only [if_pos hpos]

/-- C21: for all corners with `X0 < X1 < LCD_WIDTH` and `Y0 < Y1 < LCD_HEIGHT`
(16-bit geometry, chunk constant at least 1) the call is, in this order,
`Draw_Horizontal_Line(X0, Y0, X1-X0)`, `Draw_Horizontal_Line(X0, Y1, X1-X0)`,
`Draw_Vertical_Line(X0, Y0, Y1-Y0)`, `Draw_Vertical_Line(X1, Y0, Y1-Y0)` and
then `Draw_Pixel(X1, Y1)`; it returns, and the pixels that the controller
writes during it are exactly those of the outline of `[X0, X1] x [Y0, Y1]`. -/
theorem hollow_rectangle_ordered_corners (cfg : Config) (X0 Y0 X1 Y1 Colour : Nat) (s : Lcd)
    (hB : 1 ≤ cfg.BURST_MAX_SIZE) (hW : s.LCD_WIDTH < 65536) (hH : s.LCD_HEIGHT < 65536)
    (hX : X0 < X1) (hX1 : X1 < s.LCD_WIDTH) (hY : Y0 < Y1) (hY1 : Y1 < s.LCD_HEIGHT) :
    ILI9341_Draw_Hollow_Rectangle_Coord cfg X0 Y0 X1 Y1 Colour s
      = (andThen (ILI9341_Draw_Horizontal_Line cfg X0 Y0 (X1 - X0) Colour s) fun s =>
         andThen (ILI9341_Draw_Horizontal_Line cfg X0 Y1 (X1 - X0) Colour s) fun s =>
         andThen (ILI9341_Draw_Vertical_Line cfg X0 Y0 (Y1 - Y0) Colour s) fun s =>
         andThen (ILI9341_Draw_Vertical_Line cfg X1 Y0 (Y1 - Y0) Colour s) fun s =>
         Except.ok (ILI9341_Draw_Pixel X1 Y1 Colour s)) ∧
    ∃ (t : Lcd) (px : List (Nat × Nat)),
      ILI9341_Draw_Hollow_Rectangle_Coord cfg X0 Y0 X1 Y1 Colour s = Except.ok t ∧
      writtenPixels t.trace = writtenPixels s.trace ++ px ∧
      ∀ p : Nat × Nat, p ∈ px ↔
        (X0 ≤ p.1 ∧ p.1 ≤ X1 ∧ Y0 ≤ p.2 ∧ p.2 ≤ Y1 ∧
          (p.1 = X0 ∨ p.1 = X1 ∨ p.2 = Y0 ∨ p.2 = Y1)) := by
  have hchain := hollowRectangle_eq_chain cfg X0 Y0 X1 Y1 Colour s hX (by omega) hY (by omega)
  refine ⟨hchain, ?_⟩
  have hLx : 1 ≤ X1 - X0 := by omega
  have hLy : 1 ≤ Y1 - Y0 := by omega
  have e1 := drawHorizontalLine_eq cfg X0 Y0 (X1 - X0) Colour s hB hW (by omega) hLx (by omega)
  have e2 := drawHorizontalLine_eq cfg X0 Y1 (X1 - X0) Colour
    (appendTrace (setAddressEvents X0 Y0 (X0 + (X1 - X0) - 1) Y0
      ++ burstEvents cfg Colour (X1 - X0)) s) hB hW hY1 hLx (by show X0 + (X1 - X0) ≤ s.LCD_WIDTH; omega)
  have e3 := drawVerticalLine_eq cfg X0 Y0 (Y1 - Y0) Colour
    (appendTrace (setAddressEvents X0 Y1 (X0 + (X1 - X0) - 1) Y1
      ++ burstEvents cfg Colour (X1 - X0))
    (appendTrace (setAddressEvents X0 Y0 (X0 + (X1 - X0) - 1) Y0
      ++ burstEvents cfg Colour (X1 - X0)) s)) hB hH
    (by show X0 < s.LCD_WIDTH; omega) hLy (by show Y0 + (Y1 - Y0) ≤ s.LCD_HEIGHT; omega)
  have e4 := drawVerticalLine_eq cfg X1 Y0 (Y1 - Y0) Colour
    (appendTrace (setAddressEvents X0 Y0 X0 (Y0 + (Y1 - Y0) - 1)
      ++ burstEvents cfg Colour (Y1 - Y0))
    (appendTrace (setAddressEvents X0 Y1 (X0 + (X1 - X0) - 1) Y1
      ++ burstEvents cfg Colour (X1 - X0))
    (appendTrace (setAddressEvents X0 Y0 (X0 + (X1 - X0) - 1) Y0
      ++ burstEvents cfg Colour (X1 - X0)) s))) hB hH
    hX1 hLy (by show Y0 + (Y1 - Y0) ≤ s.LCD_HEIGHT; omega)
  have e5 := drawPixel_of_inBounds X1 Y1 Colour
    (appendTrace (setAddressEvents X1 Y0 X1 (Y0 + (Y1 - Y0) - 1)
      ++ burstEvents cfg Colour (Y1 - Y0))
    (appendTrace (setAddressEvents X0 Y0 X0 (Y0 + (Y1 - Y0) - 1)
      ++ burstEvents cfg Colour (Y1 - Y0))
    (appendTrace (setAddressEvents X0 Y1 (X0 + (X1 - X0) - 1) Y1
      ++ burstEvents cfg Colour (X1 - X0))
    (appendTrace (setAddressEvents X0 Y0 (X0 + (X1 - X0) - 1) Y0
      ++ burstEvents cfg Colour (X1 - X0)) s)))) hX1 hY1
  refine ⟨appendTrace (drawPixelEvents X1 Y1 Colour)
    (appendTrace (setAddressEvents X1 Y0 X1 (Y0 + (Y1 - Y0) - 1)
      ++ burstEvents cfg Colour (Y1 - Y0))
    (appendTrace (setAddressEvents X0 Y0 X0 (Y0 + (Y1 - Y0) - 1)
      ++ burstEvents cfg Colour (Y1 - Y0))
    (appendTrace (setAddressEvents X0 Y1 (X0 + (X1 - X0) - 1) Y1
      ++ burstEvents cfg Colour (X1 - X0))
    (appendTrace (setAddressEvents X0 Y0 (X0 + (X1 - X0) - 1) Y0
      ++ burstEvents cfg Colour (X1 - X0)) s)))),
    memoryWritePixels X0 (X0 + (X1 - X0) - 1) Y0 Y0 0 ((X1 - X0) * 2)
      ++ memoryWritePixels X0 (X0 + (X1 - X0) - 1) Y1 Y1 0 ((X1 - X0) * 2)
      ++ memoryWritePixels X0 X0 Y0 (Y0 + (Y1 - Y0) - 1) 0 ((Y1 - Y0) * 2)
      ++ memoryWritePixels X1 X1 Y0 (Y0 + (Y1 - Y0) - 1) 0 ((Y1 - Y0) * 2)
      ++ [(X1, Y1)], ?_, ?_, ?_⟩
  · rw [hchain, e1]
    show andThen (ILI9341_Draw_Horizontal_Line cfg X0 Y1 (X1 - X0) Colour _) _ = _
    rw [e2]
    show andThen (ILI9341_Draw_Vertical_Line cfg X0 Y0 (Y1 - Y0) Colour _) _ = _
    rw [e3]
    show andThen (ILI9341_Draw_Vertical_Line cfg X1 Y0 (Y1 - Y0) Colour _) _ = _
    rw [e4]
    show Except.ok (ILI9341_Draw_Pixel X1 Y1 Colour _) = _
    rw [e5]
  · have hne1 := burstBufferSize_ne_zero cfg (X1 - X0) hB hLx
    have hne2 := burstBufferSize_ne_zero cfg (Y1 - Y0) hB hLy
    simp only [trace_appendTrace]
    unfold writtenPixels
    simp only [List.foldl_append]
    rw [foldl_event_drawPixel _ _ _ _ (by omega) (by omega)]
    rw [← List.foldl_append,
      foldl_event_window_burst cfg X1 Y0 X1 (Y0 + (Y1 - Y0) - 1) Colour (Y1 - Y0) _
        (by omega) (by omega) (by omega) (by omega) hne2 (by omega)]
    rw [← List.foldl_append,
      foldl_event_window_burst cfg X0 Y0 X0 (Y0 + (Y1 - Y0) - 1) Colour (Y1 - Y0) _
        (by omega) (by omega) (by omega) (by omega) hne2 (by omega)]
    rw [← List.foldl_append,
      foldl_event_window_burst cfg X0 Y1 (X0 + (X1 - X0) - 1) Y1 Colour (X1 - X0) _
        (by omega) (by omega) (by omega) (by omega) hne1 (by omega)]
    rw [← List.foldl_append,
      foldl_event_window_burst cfg X0 Y0 (X0 + (X1 - X0) - 1) Y0 Colour (X1 - X0) _
        (by omega) (by omega) (by omega) (by omega) hne1 (by omega)]
    simp only [List.append_assoc]
  · intro p
    obtain ⟨a, b⟩ := p
    simp only [List.mem_append, List.mem_singleton, mem_rowPixels X0 Y0 (X1 - X0) hLx,
      mem_rowPixels X0 Y1 (X1 - X0) hLx, mem_columnPixels X0 Y0 (Y1 - Y0) hLy,
      mem_columnPixels X1 Y0 (Y1 - Y0) hLy, Prod.mk.injEq]
    omega

theorem hollow_rectangle_ordered_corners_witness :
    ∃ (t : Lcd) (px : List (Nat × Nat)),
      ILI9341_Draw_Hollow_Rectangle_Coord sampleConfig 10 10 12 12 0xF800
        (initialLcd sampleConfig) = Except.ok t ∧
      writtenPixels t.trace = writtenPixels (initialLcd sampleConfig).trace ++ px ∧
      ∀ p : Nat × Nat, p ∈ px ↔
        (10 ≤ p.1 ∧ p.1 ≤ 12 ∧ 10 ≤ p.2 ∧ p.2 ≤ 12 ∧
          (p.1 = 10 ∨ p.1 = 12 ∨ p.2 = 10 ∨ p.2 = 12)) :=
  (hollow_rectangle_ordered_corners sampleConfig 10 10 12 12 0xF800 (initialLcd sampleConfig)
    (by decide) (by decide) (by decide) (by decide) (by decide) (by decide) (by decide)).2

/-! ## Clipping of the circles -/

theorem hollowCircleLoopOffsets_bound (R fuel : Nat) (x y dx dy err B : Int)
    (hy : 0 ≤ y) (hx : x ≤ B) :
    ∀ p ∈ hollowCircleLoopOffsets R fuel x y dx dy err,
      -B ≤ p.1 ∧ p.1 ≤ B ∧ -B ≤ p.2 ∧ p.2 ≤ B := by
  induction fuel generalizing x y dx dy err with
  | zero => simp [hollowCircleLoopOffsets]
  | succ n ih =>
    intro p hp
    unfold hollowCircleLoopOffsets at hp
    by_cases hxy : x ≥ y
    · rw [if_pos hxy] at hp
      simp only [List.mem_append] at hp
      rcases hp with hp | hp
      · simp only [hollowCircleStepOffsets, List.mem_cons, List.mem_singleton,
          List.not_mem_nil, or_false] at hp
        rcases hp with h | h | h | h | h | h | h | h <;> subst h <;>
          exact ⟨by simp only []; omega, by simp only []; omega, by simp only []; omega,
            by simp only []; omega⟩
      · refine ih _ _ _ _ _ ?_ ?_ p hp
        · split <;> omega
        · split <;> omega
    · rw [if_neg hxy] at hp
      simp at hp

theorem filledCircleLoopOffsets_bound (fuel : Nat) (x y xc yc re B : Int)
    (hy : 0 ≤ y) (hx : x ≤ B) :
    ∀ p ∈ filledCircleLoopOffsets fuel x y xc yc re,
      -B ≤ p.1 ∧ p.1 ≤ B ∧ -B ≤ p.2 ∧ p.2 ≤ B := by
  induction fuel generalizing x y xc yc re with
  | zero => simp [filledCircleLoopOffsets]
  | succ n ih =>
    intro p hp
    unfold filledCircleLoopOffsets at hp
    by_cases hxy : x ≥ y
    · rw [if_pos hxy] at hp
      have hhere : p ∈ filledCircleSpanOffsets x y (-y) ++ filledCircleSpanOffsets y x (-x) →
          -B ≤ p.1 ∧ p.1 ≤ B ∧ -B ≤ p.2 ∧ p.2 ≤ B := by
        rw [List.mem_append, mem_filledCircleSpanOffsets, mem_filledCircleSpanOffsets]
        rintro (⟨h1, h2, h3 | h3⟩ | ⟨h1, h2, h3 | h3⟩) <;>
          exact ⟨by omega, by omega, by omega, by omega⟩
      by_cases hdec : (re + yc) * 2 + xc > 0
      · simp only [if_pos hdec, List.mem_append] at hp
        rcases hp with hp | hp
        · exact hhere (List.mem_append.mpr hp)
        · exact ih _ _ _ _ _ (by omega) (by omega) p hp
      · simp only [if_neg hdec, List.mem_append] at hp
        rcases hp with hp | hp
        · exact hhere (List.mem_append.mpr hp)
        · exact ih _ _ _ _ _ (by omega) (by omega) p hp
    · rw [if_neg hxy] at hp
      simp at hp

theorem onPanel_iff (W H X Y : Nat) (p : Int × Int) :
    onPanel W H X Y p = true
      ↔ (0 ≤ (X : Int) + p.1 ∧ (X : Int) + p.1 < W ∧ 0 ≤ (Y : Int) + p.2 ∧ (Y : Int) + p.2 < H) := by
  simp [onPanel]

/-- One clipped pixel call: a point off the panel makes no call, a point on
the panel is drawn at its mathematical coordinate. -/
theorem drawPixel_clipped (X Y c : Nat) (p : Int × Int) (t : Lcd)
    (hX : X ≤ 32767) (hY : Y ≤ 32767) (hW : t.LCD_WIDTH ≤ 32768) (hH : t.LCD_HEIGHT ≤ 32768)
    (hb : -32767 ≤ p.1 ∧ p.1 ≤ 32767 ∧ -32767 ≤ p.2 ∧ p.2 ≤ 32767) :
    (onPanel t.LCD_WIDTH t.LCD_HEIGHT X Y p = false →
      ILI9341_Draw_Pixel (u16 ((X : Int) + p.1)) (u16 ((Y : Int) + p.2)) c t = t) ∧
    (onPanel t.LCD_WIDTH t.LCD_HEIGHT X Y p = true →
      ILI9341_Draw_Pixel (u16 ((X : Int) + p.1)) (u16 ((Y : Int) + p.2)) c t
        = appendTrace (drawPixelEvents ((X : Int) + p.1).toNat ((Y : Int) + p.2).toNat c) t) := by
  obtain ⟨a, b⟩ := p
  obtain ⟨h1, h2, h3, h4⟩ := hb
  simp only [] at h1 h2 h3 h4
  constructor
  · intro h
    have h0 : ¬ (onPanel t.LCD_WIDTH t.LCD_HEIGHT X Y (a, b) = true) := by simp [h]
    rw [onPanel_iff] at h0
    simp only [] at h0
    apply drawPixel_of_outOfBounds
    unfold u16
    omega
  · intro h
    rw [onPanel_iff] at h
    simp only [] at h
    have ea : u16 ((X : Int) + a) = ((X : Int) + a).toNat := by unfold u16; omega
    have eb : u16 ((Y : Int) + b) = ((Y : Int) + b).toNat := by unfold u16; omega
    simp only [ea, eb]
    apply drawPixel_of_inBounds <;> omega

theorem drawPixelsAt_clipped (X Y c : Nat) (offs : List (Int × Int)) (s : Lcd)
    (hX : X ≤ 32767) (hY : Y ≤ 32767) (hW : s.LCD_WIDTH ≤ 32768) (hH : s.LCD_HEIGHT ≤ 32768)
    (hb : ∀ p ∈ offs, -32767 ≤ p.1 ∧ p.1 ≤ 32767 ∧ -32767 ≤ p.2 ∧ p.2 ≤ 32767) :
    drawPixelsAt X Y c offs s
      = appendTrace (clippedPixelEvents_spec s.LCD_WIDTH s.LCD_HEIGHT X Y c offs) s := by
  induction offs generalizing s with
  | nil => simp [drawPixelsAt, clippedPixelEvents_spec, clippedPixels_spec, appendTrace_nil]
  | cons p ps ih =>
    have hp := hb p (List.mem_cons_self _ _)
    have hps : ∀ q ∈ ps, -32767 ≤ q.1 ∧ q.1 ≤ 32767 ∧ -32767 ≤ q.2 ∧ q.2 ≤ 32767 :=
      fun q hq => hb q (List.mem_cons_of_mem _ hq)
    have hstep : drawPixelsAt X Y c (p :: ps) s
        = drawPixelsAt X Y c ps
            (ILI9341_Draw_Pixel (u16 ((X : Int) + p.1)) (u16 ((Y : Int) + p.2)) c s) := rfl
    rw [hstep]
    have hc := drawPixel_clipped X Y c p s hX hY hW hH hp
    cases hon : onPanel s.LCD_WIDTH s.LCD_HEIGHT X Y p with
    | false =>
      rw [hc.1 hon, ih s hW hH hps]
      simp [clippedPixelEvents_spec, clippedPixels_spec, List.filter_cons, hon]
    | true =>
      rw [hc.2 hon, ih _ (by exact hW) (by exact hH) hps, appendTrace_appendTrace]
      simp [clippedPixelEvents_spec, clippedPixels_spec, List.filter_cons, hon, appendTrace]

theorem foldl_event_pixelCalls (c : Nat) (qs : List (Nat × Nat)) (k : Controller)
    (hq : ∀ q ∈ qs, q.1 < 65535 ∧ q.2 < 65535) :
    ((qs.flatMap fun q => drawPixelEvents q.1 q.2 c).foldl Controller.event k).written
      = k.written ++ qs := by
  induction qs generalizing k with
  | nil => simp
  | cons q qs ih =>
    have h := hq q (List.mem_cons_self _ _)
    rw [List.flatMap_cons, List.foldl_append,
      ih _ (fun r hr => hq r (List.mem_cons_of_mem _ hr)),
      foldl_event_drawPixel q.1 q.2 c k h.1 h.2]
    simp

theorem clippedPixels_lt (W H X Y : Nat) (offs : List (Int × Int))
    (hW : W ≤ 32768) (hH : H ≤ 32768) :
    ∀ q ∈ clippedPixels_spec W H X Y offs, q.1 < 65535 ∧ q.2 < 65535 := by
  intro q hq
  unfold clippedPixels_spec at hq
  rw [List.mem_map] at hq
  obtain ⟨p, hp, rfl⟩ := hq
  rw [List.mem_filter, onPanel_iff] at hp
  obtain ⟨_, h1, h2, h3, h4⟩ := hp
  constructor
  · show ((X : Int) + p.1).toNat < 65535
    omega
  · show ((Y : Int) + p.2).toNat < 65535
    omega

theorem writtenPixels_clipped (W H X Y c : Nat) (offs : List (Int × Int)) (s : Lcd)
    (hW : W ≤ 32768) (hH : H ≤ 32768) :
    writtenPixels (appendTrace (clippedPixelEvents_spec W H X Y c offs) s).trace
      = writtenPixels s.trace ++ clippedPixels_spec W H X Y offs := by
  rw [trace_appendTrace, writtenPixels_append]
  unfold clippedPixelEvents_spec
  rw [foldl_event_pixelCalls c _ _ (clippedPixels_lt W H X Y offs hW hH)]
  rfl

/-- C30: for `ILI9341_Draw_Hollow_Circle` and `ILI9341_Draw_Filled_Circle`
with `X, Y ≤ 32767` and `Radius ≤ 32767` (panel sizes at most 32768): every
offset the loops emit lies within `-Radius..Radius`; a point whose
mathematical coordinate `centre + offset` is negative or at least the panel
size makes, after the conversion to 16 bits, no call at all, and a point on
the panel is drawn at its mathematical coordinate; so each call returns with
exactly the pixel calls of the on-panel points appended, and the pixels the
controller writes are exactly those points at their mathematical coordinates. -/
theorem circles_clipped_not_wrapped (X Y R Colour : Nat) (s : Lcd)
    (hX : X ≤ 32767) (hY : Y ≤ 32767) (hR : R ≤ 32767)
    (hW : s.LCD_WIDTH ≤ 32768) (hH : s.LCD_HEIGHT ≤ 32768) :
    (∀ p : Int × Int, p ∈ hollowCircleOffsets R ∨ p ∈ filledCircleOffsets R →
      (-(R : Int) ≤ p.1 ∧ p.1 ≤ R ∧ -(R : Int) ≤ p.2 ∧ p.2 ≤ R) ∧
      ∀ t : Lcd, geometry t = geometry s →
        (((X : Int) + p.1 < 0 ∨ (X : Int) + p.1 ≥ s.LCD_WIDTH ∨
          (Y : Int) + p.2 < 0 ∨ (Y : Int) + p.2 ≥ s.LCD_HEIGHT) →
          ILI9341_Draw_Pixel (u16 ((X : Int) + p.1)) (u16 ((Y : Int) + p.2)) Colour t = t) ∧
        ((0 ≤ (X : Int) + p.1 ∧ (X : Int) + p.1 < s.LCD_WIDTH ∧
          0 ≤ (Y : Int) + p.2 ∧ (Y : Int) + p.2 < s.LCD_HEIGHT) →
          ILI9341_Draw_Pixel (u16 ((X : Int) + p.1)) (u16 ((Y : Int) + p.2)) Colour t
            = appendTrace
                (drawPixelEvents ((X : Int) + p.1).toNat ((Y : Int) + p.2).toNat Colour) t)) ∧
    ILI9341_Draw_Hollow_Circle X Y R Colour s
      = Except.ok (appendTrace
          (clippedPixelEvents_spec s.LCD_WIDTH s.LCD_HEIGHT X Y Colour (hollowCircleOffsets R)) s) ∧
    ILI9341_Draw_Filled_Circle X Y R Colour s
      = Except.ok (appendTrace
          (clippedPixelEvents_spec s.LCD_WIDTH s.LCD_HEIGHT X Y Colour (filledCircleOffsets R)) s) ∧
    writtenPixels (finalState (ILI9341_Draw_Hollow_Circle X Y R Colour s)).trace
      = writtenPixels s.trace
          ++ clippedPixels_spec s.LCD_WIDTH s.LCD_HEIGHT X Y (hollowCircleOffsets R) ∧
    writtenPixels (finalState (ILI9341_Draw_Filled_Circle X Y R Colour s)).trace
      = writtenPixels s.trace
          ++ clippedPixels_spec s.LCD_WIDTH s.LCD_HEIGHT X Y (filledCircleOffsets R) := by
  have hbH : ∀ p ∈ hollowCircleOffsets R,
      -(R : Int) ≤ p.1 ∧ p.1 ≤ R ∧ -(R : Int) ≤ p.2 ∧ p.2 ≤ R :=
    hollowCircleLoopOffsets_bound R (R + 1) _ 0 1 1 _ (R : Int) (by omega) (by omega)
  have hbF : ∀ p ∈ filledCircleOffsets R,
      -(R : Int) ≤ p.1 ∧ p.1 ≤ R ∧ -(R : Int) ≤ p.2 ∧ p.2 ≤ R :=
    filledCircleLoopOffsets_bound (R + 1) _ 0 _ 0 0 (R : Int) (by omega) (by omega)
  have hb : ∀ p : Int × Int, p ∈ hollowCircleOffsets R ∨ p ∈ filledCircleOffsets R →
      -(R : Int) ≤ p.1 ∧ p.1 ≤ R ∧ -(R : Int) ≤ p.2 ∧ p.2 ≤ R := by
    rintro p (hp | hp)
    · exact hbH p hp
    · exact hbF p hp
  have eH : ILI9341_Draw_Hollow_Circle X Y R Colour s
      = Except.ok (appendTrace
          (clippedPixelEvents_spec s.LCD_WIDTH s.LCD_HEIGHT X Y Colour (hollowCircleOffsets R))
          s) := by
    rw [← drawPixelsAt_clipped X Y Colour _ s hX hY hW hH
      (fun p hp => by have := hbH p hp; omega)]
    unfold ILI9341_Draw_Hollow_Circle hollowCircleOffsets
    exact hollowCircleLoop_eq X Y R Colour (R + 1) ((R : Int) - 1) 0 1 1 _ s (by omega)
  have eF : ILI9341_Draw_Filled_Circle X Y R Colour s
      = Except.ok (appendTrace
          (clippedPixelEvents_spec s.LCD_WIDTH s.LCD_HEIGHT X Y Colour (filledCircleOffsets R))
          s) := by
    rw [← drawPixelsAt_clipped X Y Colour _ s hX hY hW hH
      (fun p hp => by have := hbF p hp; omega)]
    unfold ILI9341_Draw_Filled_Circle filledCircleOffsets
    exact filledCircleLoop_eq X Y Colour (R + 1) (R : Int) 0 _ 0 0 s (by omega)
  refine ⟨?_, eH, eF, ?_, ?_⟩
  · intro p hp
    refine ⟨hb p hp, ?_⟩
    intro t ht
    have hg : t.LCD_WIDTH = s.LCD_WIDTH ∧ t.LCD_HEIGHT = s.LCD_HEIGHT := by
      simpa [geometry] using ht
    have hc := drawPixel_clipped X Y Colour p t hX hY (by omega) (by omega)
      (by have := hb p hp; omega)
    rw [hg.1, hg.2] at hc
    constructor
    · intro hout
      apply hc.1
      cases hon : onPanel s.LCD_WIDTH s.LCD_HEIGHT X Y p with
      | false => rfl
      | true =>
        rw [onPanel_iff] at hon
        omega
    · intro hin
      exact hc.2 ((onPanel_iff _ _ _ _ _).mpr hin)
  · rw [eH]
    exact writtenPixels_clipped _ _ X Y Colour _ s hW hH
  · rw [eF]
    exact writtenPixels_clipped _ _ X Y Colour _ s hW hH

theorem circles_clipped_not_wrapped_witness :
    ILI9341_Draw_Hollow_Circle 5 5 10 0xF800 (initialLcd sampleConfig)
      = Except.ok (appendTrace
          (clippedPixelEvents_spec 240 320 5 5 0xF800 (hollowCircleOffsets 10))
          (initialLcd sampleConfig)) ∧
    ILI9341_Draw_Filled_Circle 5 5 10 0xF800 (initialLcd sampleConfig)
      = Except.ok (appendTrace
          (clippedPixelEvents_spec 240 320 5 5 0xF800 (filledCircleOffsets 10))
          (initialLcd sampleConfig)) :=
  have h := circles_clipped_not_wrapped 5 5 10 0xF800 (initialLcd sampleConfig)
    (by decide) (by decide) (by decide) (by decide) (by decide)
  ⟨h.2.1, h.2.2.1⟩

/-! ## Address window of the image call -/

theorem setRotation_geometry_modes (cfg : Config) (hd : cfg.modesDistinct) (s : Lcd) :
    geometry (ILI9341_Set_Rotation cfg cfg.SCREEN_HORIZONTAL_1 s) = (320, 240) ∧
    geometry (ILI9341_Set_Rotation cfg cfg.SCREEN_HORIZONTAL_2 s) = (320, 240) ∧
    geometry (ILI9341_Set_Rotation cfg cfg.SCREEN_VERTICAL_2 s) = (240, 320) ∧
    geometry (ILI9341_Set_Rotation cfg cfg.SCREEN_VERTICAL_1 s) = (240, 320) := by
  obtain ⟨h1, h2, h3, h4, h5, h6⟩ := hd
  refine ⟨?_, ?_, ?_, ?_⟩
  · unfold ILI9341_Set_Rotation
    simp [geometry, Ne.symm h1]
  · unfold ILI9341_Set_Rotation
    simp [geometry, Ne.symm h3, Ne.symm h5, Ne.symm h6]
  · unfold ILI9341_Set_Rotation
    simp [geometry, Ne.symm h2, Ne.symm h4]
  · unfold ILI9341_Set_Rotation
    simp [geometry]

theorem drawImageBody_eq_transfer (cfg : Config) (img : List Nat) (X2 Y2 : Nat) (s : Lcd)
    (hB : cfg.BURST_MAX_SIZE ≠ 0) :
    drawImageBody cfg img X2 Y2 s
      = Except.ok (appendTrace (imageTransferEvents cfg img) (ILI9341_Set_Address 0 0 X2 Y2 s)) :=
  drawImageBody_eq cfg img X2 Y2 s hB

/-- C24 (what the code does): with pairwise different mode constants and a
nonzero chunk constant, `ILI9341_Draw_Image` sets the rotation, which makes
the geometry 320x240 for the horizontal modes and 240x320 for the vertical
modes, and then calls `ILI9341_Set_Address(0, 0, ILI9341_SCREEN_WIDTH,
ILI9341_SCREEN_HEIGHT)` for the horizontal modes and `ILI9341_Set_Address(0,
0, ILI9341_SCREEN_HEIGHT, ILI9341_SCREEN_WIDTH)` for the vertical modes; the
controller then holds a window whose last column and last row are these end
arguments themselves, not the arguments less one. -/
theorem draw_image_window (cfg : Config) (img : List Nat) (s : Lcd)
    (hd : cfg.modesDistinct) (hB : cfg.BURST_MAX_SIZE ≠ 0) :
    (geometry (ILI9341_Set_Rotation cfg cfg.SCREEN_HORIZONTAL_1 s) = (320, 240) ∧
      ILI9341_Draw_Image cfg img cfg.SCREEN_HORIZONTAL_1 s
        = Except.ok (appendTrace (imageTransferEvents cfg img)
            (ILI9341_Set_Address 0 0 cfg.ILI9341_SCREEN_WIDTH cfg.ILI9341_SCREEN_HEIGHT
              (ILI9341_Set_Rotation cfg cfg.SCREEN_HORIZONTAL_1 s)))) ∧
    (geometry (ILI9341_Set_Rotation cfg cfg.SCREEN_HORIZONTAL_2 s) = (320, 240) ∧
      ILI9341_Draw_Image cfg img cfg.SCREEN_HORIZONTAL_2 s
        = Except.ok (appendTrace (imageTransferEvents cfg img)
            (ILI9341_Set_Address 0 0 cfg.ILI9341_SCREEN_WIDTH cfg.ILI9341_SCREEN_HEIGHT
              (ILI9341_Set_Rotation cfg cfg.SCREEN_HORIZONTAL_2 s)))) ∧
    (geometry (ILI9341_Set_Rotation cfg cfg.SCREEN_VERTICAL_2 s) = (240, 320) ∧
      ILI9341_Draw_Image cfg img cfg.SCREEN_VERTICAL_2 s
        = Except.ok (appendTrace (imageTransferEvents cfg img)
            (ILI9341_Set_Address 0 0 cfg.ILI9341_SCREEN_HEIGHT cfg.ILI9341_SCREEN_WIDTH
              (ILI9341_Set_Rotation cfg cfg.SCREEN_VERTICAL_2 s)))) ∧
    (geometry (ILI9341_Set_Rotation cfg cfg.SCREEN_VERTICAL_1 s) = (240, 320) ∧
      ILI9341_Draw_Image cfg img cfg.SCREEN_VERTICAL_1 s
        = Except.ok (appendTrace (imageTransferEvents cfg img)
            (ILI9341_Set_Address 0 0 cfg.ILI9341_SCREEN_HEIGHT cfg.ILI9341_SCREEN_WIDTH
              (ILI9341_Set_Rotation cfg cfg.SCREEN_VERTICAL_1 s)))) ∧
    (∀ (X2 Y2 : Nat) (t : Lcd) (k : Controller), X2 < 65536 → Y2 < 65536 →
      ILI9341_Set_Address 0 0 X2 Y2 t = appendTrace (setAddressEvents 0 0 X2 Y2) t ∧
      ((setAddressEvents 0 0 X2 Y2).foldl Controller.event k).colStart = 0 ∧
      ((setAddressEvents 0 0 X2 Y2).foldl Controller.event k).colEnd = X2 ∧
      ((setAddressEvents 0 0 X2 Y2).foldl Controller.event k).rowStart = 0 ∧
      ((setAddressEvents 0 0 X2 Y2).foldl Controller.event k).rowEnd = Y2) := by
  have hg := setRotation_geometry_modes cfg hd s
  obtain ⟨h1, h2, h3, h4, h5, h6⟩ := hd
  refine ⟨⟨hg.1, ?_⟩, ⟨hg.2.1, ?_⟩, ⟨hg.2.2.1, ?_⟩, ⟨hg.2.2.2, ?_⟩, ?_⟩
  · unfold ILI9341_Draw_Image
    rw [if_pos rfl]
    exact drawImageBody_eq_transfer cfg img _ _ _ hB
  · unfold ILI9341_Draw_Image
    rw [if_neg (Ne.symm h5), if_pos rfl]
    exact drawImageBody_eq_transfer cfg img _ _ _ hB
  · unfold ILI9341_Draw_Image
    rw [if_neg (Ne.symm h4), if_neg h6, if_pos rfl]
    exact drawImageBody_eq_transfer cfg img _ _ _ hB
  · unfold ILI9341_Draw_Image
    rw [if_neg h1, if_neg h3, if_neg h2, if_pos rfl]
    exact drawImageBody_eq_transfer cfg img _ _ _ hB
  · intro X2 Y2 t k hX hY
    rw [foldl_event_setAddress 0 0 X2 Y2 k (by omega) (by omega) hX hY]
    exact ⟨setAddress_eq 0 0 X2 Y2 t, rfl, rfl, rfl, rfl⟩

theorem draw_image_window_witness :
    geometry (ILI9341_Set_Rotation landscapeConfig 1 (initialLcd landscapeConfig)) = (320, 240) ∧
    ILI9341_Draw_Image landscapeConfig [] 1 (initialLcd landscapeConfig)
      = Except.ok (appendTrace (imageTransferEvents landscapeConfig [])
          (ILI9341_Set_Address 0 0 320 240
            (ILI9341_Set_Rotation landscapeConfig 1 (initialLcd landscapeConfig)))) :=
  (draw_image_window landscapeConfig [] (initialLcd landscapeConfig)
    (by decide) (by decide)).1

/-- On the 320 by 240 geometry of a horizontal mode the window set by the image
call ends at column 320 and row 240, one past the last column 319 and the
last row 239. -/
theorem draw_image_window_past_panel :
    ((setAddressEvents 0 0 landscapeConfig.ILI9341_SCREEN_WIDTH
        landscapeConfig.ILI9341_SCREEN_HEIGHT).foldl Controller.event Controller.start).colEnd
      = 320 ∧
    ((setAddressEvents 0 0 landscapeConfig.ILI9341_SCREEN_WIDTH
        landscapeConfig.ILI9341_SCREEN_HEIGHT).foldl Controller.event Controller.start).rowEnd
      = 240 := by
  decide

/-! ## Composition of a character -/

theorem andThen_ok (s : Lcd) (f : Lcd → Except Fault Lcd) : andThen (Except.ok s) f = f s := rfl

theorem andThen_assoc (r : Except Fault Lcd) (f g : Lcd → Except Fault Lcd) :
    andThen (andThen r f) g = andThen r (fun s => andThen (f s) g) := by
  cases r <;> rfl

theorem forEachCell_append (body : Nat × Nat → Lcd → Except Fault Lcd)
    (a b : List (Nat × Nat)) (s : Lcd) :
    forEachCell body (a ++ b) s = andThen (forEachCell body a s) (forEachCell body b) := by
  induction a generalizing s with
  | nil => rfl
  | cons c cs ih =>
    show andThen (body c s) (forEachCell body (cs ++ b)) = _
    rw [show forEachCell body (c :: cs) s = andThen (body c s) (forEachCell body cs) from rfl,
      andThen_assoc]
    congr 1
    funext t
    exact ih t

theorem forEachCell_congr (f g : Nat × Nat → Lcd → Except Fault Lcd) (cells : List (Nat × Nat))
    (h : ∀ c ∈ cells, ∀ s, f c s = g c s) (s : Lcd) :
    forEachCell f cells s = forEachCell g cells s := by
  induction cells generalizing s with
  | nil => rfl
  | cons c cs ih =>
    show andThen (f c s) (forEachCell f cs) = andThen (g c s) (forEachCell g cs)
    rw [h c (List.mem_cons_self _ _) s]
    congr 1
    funext t
    exact ih (fun d hd => h d (List.mem_cons_of_mem _ hd)) t

theorem drawCharCell_eq (cfg : Config) (temp : Nat → Nat) (X Y Colour Size j i : Nat) (s : Lcd) :
    drawCharCell cfg temp X Y Colour Size j i s
      = if temp j &&& (1 <<< i) ≠ 0 then drawCharBlock cfg X Y Colour Size (j, i) s
        else Except.ok s := rfl

theorem forEach_column_eq (cfg : Config) (temp : Nat → Nat) (X Y Colour Size j : Nat)
    (rows : List Nat) (s : Lcd) :
    forEach (drawCharCell cfg temp X Y Colour Size j) rows s
      = forEachCell (drawCharBlock cfg X Y Colour Size)
          ((rows.filter fun i => decide (temp j &&& (1 <<< i) ≠ 0)).map fun i => (j, i)) s := by
  induction rows generalizing s with
  | nil => rfl
  | cons i is ih =>
    show andThen (drawCharCell cfg temp X Y Colour Size j i s)
      (forEach (drawCharCell cfg temp X Y Colour Size j) is) = _
    rw [drawCharCell_eq]
    by_cases hb : temp j &&& (1 <<< i) ≠ 0
    · rw [if_pos hb, List.filter_cons_of_pos (by simpa using hb), List.map_cons]
      show _ = andThen (drawCharBlock cfg X Y Colour Size (j, i) s) _
      congr 1
      funext t
      exact ih t
    · rw [if_neg hb, List.filter_cons_of_neg (by simpa using hb), andThen_ok]
      exact ih s

theorem forEach_columns_eq (cfg : Config) (temp : Nat → Nat) (X Y Colour Size : Nat)
    (cols rows : List Nat) (s : Lcd) :
    forEach (fun j => forEach (drawCharCell cfg temp X Y Colour Size j) rows) cols s
      = forEachCell (drawCharBlock cfg X Y Colour Size)
          (cols.flatMap fun j =>
            (rows.filter fun i => decide (temp j &&& (1 <<< i) ≠ 0)).map fun i => (j, i)) s := by
  induction cols generalizing s with
  | nil => rfl
  | cons j js ih =>
    rw [List.flatMap_cons, forEachCell_append, ← forEach_column_eq]
    show andThen (forEach (drawCharCell cfg temp X Y Colour Size j) rows s) _ = _
    congr 1
    funext t
    exact ih t

/-- The glyph drawing is the background rectangle followed by the guarded
statement of each set cell, in loop order. -/
theorem drawGlyph_eq_cells (cfg : Config) (temp : Nat → Nat)
    (X Y Colour Size Background_Colour : Nat) (s : Lcd) :
    drawGlyph cfg temp X Y Colour Size Background_Colour s
      = andThen (ILI9341_Draw_Rectangle cfg (u8 X) (u8 Y) (u16 ((cfg.CHAR_WIDTH : Int) * Size))
          (u16 ((cfg.CHAR_HEIGHT : Int) * Size)) Background_Colour s)
        (forEachCell (drawCharBlock cfg (u8 X) (u8 Y) Colour Size) (setCells cfg temp)) := by
  unfold drawGlyph setCells
  simp only []
  congr 1
  funext t
  exact forEach_columns_eq cfg temp (u8 X) (u8 Y) Colour Size _ _ t

theorem mem_setCells (cfg : Config) (temp : Nat → Nat) (c : Nat × Nat) :
    c ∈ setCells cfg temp
      ↔ c.1 < cfg.CHAR_WIDTH ∧ c.2 < cfg.CHAR_HEIGHT ∧ temp c.1 &&& (1 <<< c.2) ≠ 0 := by
  obtain ⟨j, i⟩ := c
  unfold setCells
  simp only [List.mem_flatMap, List.mem_range, List.mem_map, List.mem_filter,
    decide_eq_true_eq, Prod.mk.injEq]
  constructor
  · rintro ⟨j', hj, i', ⟨hi, hb⟩, rfl, rfl⟩
    exact ⟨hj, hi, hb⟩
  · rintro ⟨hj, hi, hb⟩
    exact ⟨j, hj, i, ⟨hi, hb⟩, rfl, rfl⟩

theorem cell_inside (n k S : Nat) (h : k < n) : k * S + S ≤ n * S := by
  have h1 : (k + 1) * S ≤ n * S := Nat.mul_le_mul_right S h
  have h2 : (k + 1) * S = k * S + S := by ring
  omega

theorem drawCharBlock_eq_spec (cfg : Config) (X Y Colour Size : Nat) (c : Nat × Nat) (s : Lcd)
    (hS : 1 ≤ Size) (hj : c.1 < cfg.CHAR_WIDTH) (hi : c.2 < cfg.CHAR_HEIGHT)
    (hX : X + cfg.CHAR_WIDTH * Size ≤ 65535) (hY : Y + cfg.CHAR_HEIGHT * Size ≤ 65535) :
    drawCharBlock cfg X Y Colour Size c s = foregroundOp_spec cfg X Y Colour Size c s := by
  have hjS := cell_inside cfg.CHAR_WIDTH c.1 Size hj
  have hiS := cell_inside cfg.CHAR_HEIGHT c.2 Size hi
  have hj1 : c.1 ≤ c.1 * Size := Nat.le_mul_of_pos_right _ hS
  have hi1 : c.2 ≤ c.2 * Size := Nat.le_mul_of_pos_right _ hS
  have e1 : u16 ((X : Int) + (c.1 : Int)) = X + c.1 := by
    have hc : (X : Int) + (c.1 : Int) = ((X + c.1 : Nat) : Int) := by push_cast; rfl
    rw [hc]
    exact u16_of_lt _ (by omega)
  have e2 : u16 ((Y : Int) + (c.2 : Int)) = Y + c.2 := by
    have hc : (Y : Int) + (c.2 : Int) = ((Y + c.2 : Nat) : Int) := by push_cast; rfl
    rw [hc]
    exact u16_of_lt _ (by omega)
  have e3 : u16 ((X : Int) + (c.1 : Int) * (Size : Int)) = X + c.1 * Size := by
    have hc : (X : Int) + (c.1 : Int) * (Size : Int) = ((X + c.1 * Size : Nat) : Int) := by
      push_cast; rfl
    rw [hc]
    exact u16_of_lt _ (by omega)
  have e4 : u16 ((Y : Int) + (c.2 : Int) * (Size : Int)) = Y + c.2 * Size := by
    have hc : (Y : Int) + (c.2 : Int) * (Size : Int) = ((Y + c.2 * Size : Nat) : Int) := by
      push_cast; rfl
    rw [hc]
    exact u16_of_lt _ (by omega)
  unfold drawCharBlock foregroundOp_spec
  rw [e1, e2, e3, e4]

/-- A rectangle call with origin on the panel and 16-bit sizes of at least 1
returns, having set the window of the clamped rectangle and burst its pixels. -/
theorem drawRectangle_eq (cfg : Config) (X Y W H Colour : Nat) (s : Lcd)
    (hB : 1 ≤ cfg.BURST_MAX_SIZE)
    (hGW : s.LCD_WIDTH < 65536) (hGH : s.LCD_HEIGHT < 65536)
    (hX : X < s.LCD_WIDTH) (hY : Y < s.LCD_HEIGHT)
    (hW1 : 1 ≤ W) (hW : W < 65536) (hH1 : 1 ≤ H) (hH : H < 65536) :
    ILI9341_Draw_Rectangle cfg X Y W H Colour s
      = Except.ok (appendTrace
          (setAddressEvents X Y (X + min W (s.LCD_WIDTH - X) - 1)
              (Y + min H (s.LCD_HEIGHT - Y) - 1)
            ++ burstEvents cfg Colour (min W (s.LCD_WIDTH - X) * min H (s.LCD_HEIGHT - Y))) s) := by
  have hw' : (if (X : Int) + W - 1 ≥ s.LCD_WIDTH then u16 ((s.LCD_WIDTH : Int) - X) else W)
      = min W (s.LCD_WIDTH - X) := by
    unfold u16
    split <;> omega
  have hh' : (if (Y : Int) + H - 1 ≥ s.LCD_HEIGHT then u16 ((s.LCD_HEIGHT : Int) - Y) else H)
      = min H (s.LCD_HEIGHT - Y) := by
    unfold u16
    split <;> omega
  have hwpos : 1 ≤ min W (s.LCD_WIDTH - X) := by omega
  have hhpos : 1 ≤ min H (s.LCD_HEIGHT - Y) := by omega
  have hwlt : min W (s.LCD_WIDTH - X) < 65536 := by omega
  have hhlt : min H (s.LCD_HEIGHT - Y) < 65536 := by omega
  have hprod : min W (s.LCD_WIDTH - X) * min H (s.LCD_HEIGHT - Y) < 65536 * 65536 :=
    Nat.mul_lt_mul'' hwlt hhlt
  have hprod1 : 1 ≤ min W (s.LCD_WIDTH - X) * min H (s.LCD_HEIGHT - Y) :=
    Nat.mul_le_mul hwpos hhpos
  have hx2 : u16 ((X : Int) + (min W (s.LCD_WIDTH - X) : Nat) - 1)
      = X + min W (s.LCD_WIDTH - X) - 1 := by
    unfold u16
    omega
  have hy2 : u16 ((Y : Int) + (min H (s.LCD_HEIGHT - Y) : Nat) - 1)
      = Y + min H (s.LCD_HEIGHT - Y) - 1 := by
    unfold u16
    omega
  have hsz : u32 (((min H (s.LCD_HEIGHT - Y) : Nat) : Int) * (min W (s.LCD_WIDTH - X) : Nat))
      = min W (s.LCD_WIDTH - X) * min H (s.LCD_HEIGHT - Y) := by
    have hc : ((min H (s.LCD_HEIGHT - Y) : Nat) : Int) * (min W (s.LCD_WIDTH - X) : Nat)
        = ((min W (s.LCD_WIDTH - X) * min H (s.LCD_HEIGHT - Y) : Nat) : Int) := by
      push_cast
      ring
    rw [hc]
    unfold u32
    omega
  unfold ILI9341_Draw_Rectangle
  rw [if_neg (by omega)]
  simp only [hw', hh', hx2, hy2, hsz]
  rw [setAddress_eq, burst_eq_of_ne_zero _ _ _ _ (burstBufferSize_ne_zero cfg _ hB hprod1),
    appendTrace_appendTrace]

/-- A rectangle call with 16-bit sizes of at least 1 returns from every origin,
and leaves the geometry as it was. -/
theorem drawRectangle_returns (cfg : Config) (X Y W H Colour : Nat) (s : Lcd)
    (hB : 1 ≤ cfg.BURST_MAX_SIZE)
    (hGW : s.LCD_WIDTH < 65536) (hGH : s.LCD_HEIGHT < 65536)
    (hW1 : 1 ≤ W) (hW : W < 65536) (hH1 : 1 ≤ H) (hH : H < 65536) :
    ∃ t, ILI9341_Draw_Rectangle cfg X Y W H Colour s = Except.ok t ∧
      t.LCD_WIDTH = s.LCD_WIDTH ∧ t.LCD_HEIGHT = s.LCD_HEIGHT := by
  by_cases hout : X ≥ s.LCD_WIDTH ∨ Y ≥ s.LCD_HEIGHT
  · refine ⟨s, ?_, rfl, rfl⟩
    unfold ILI9341_Draw_Rectangle
    rw [if_pos hout]
  · exact ⟨_, drawRectangle_eq cfg X Y W H Colour s hB hGW hGH (by omega) (by omega)
      hW1 hW hH1 hH, rfl, rfl⟩

theorem drawPixel_geometry (X Y Colour : Nat) (s : Lcd) :
    (ILI9341_Draw_Pixel X Y Colour s).LCD_WIDTH = s.LCD_WIDTH ∧
    (ILI9341_Draw_Pixel X Y Colour s).LCD_HEIGHT = s.LCD_HEIGHT := by
  by_cases hout : X ≥ s.LCD_WIDTH ∨ Y ≥ s.LCD_HEIGHT
  · rw [drawPixel_of_outOfBounds X Y Colour s hout]
    exact ⟨rfl, rfl⟩
  · rw [drawPixel_of_inBounds X Y Colour s (by omega) (by omega)]
    exact ⟨rfl, rfl⟩

theorem forEachCell_returns (body : Nat × Nat → Lcd → Except Fault Lcd) (W H : Nat)
    (cells : List (Nat × Nat))
    (hbody : ∀ c ∈ cells, ∀ s : Lcd, s.LCD_WIDTH = W → s.LCD_HEIGHT = H →
      ∃ t, body c s = Except.ok t ∧ t.LCD_WIDTH = W ∧ t.LCD_HEIGHT = H)
    (s : Lcd) (hW : s.LCD_WIDTH = W) (hH : s.LCD_HEIGHT = H) :
    ∃ t, forEachCell body cells s = Except.ok t ∧ t.LCD_WIDTH = W ∧ t.LCD_HEIGHT = H := by
  induction cells generalizing s with
  | nil => exact ⟨s, rfl, hW, hH⟩
  | cons c cs ih =>
    obtain ⟨t, ht, htW, htH⟩ := hbody c (List.mem_cons_self _ _) s hW hH
    obtain ⟨u, hu, huW, huH⟩ := ih (fun d hd => hbody d (List.mem_cons_of_mem _ hd)) t htW htH
    refine ⟨u, ?_, huW, huH⟩
    show andThen (body c s) (forEachCell body cs) = _
    rw [ht, andThen_ok, hu]

theorem foregroundOp_returns (cfg : Config) (X Y Colour Size : Nat) (c : Nat × Nat) (s : Lcd)
    (hB : 1 ≤ cfg.BURST_MAX_SIZE) (hS1 : 1 ≤ Size) (hS : Size < 65536)
    (hGW : s.LCD_WIDTH < 65536) (hGH : s.LCD_HEIGHT < 65536) :
    ∃ t, foregroundOp_spec cfg X Y Colour Size c s = Except.ok t ∧
      t.LCD_WIDTH = s.LCD_WIDTH ∧ t.LCD_HEIGHT = s.LCD_HEIGHT := by
  unfold foregroundOp_spec
  by_cases h1 : Size = 1
  · rw [if_pos h1]
    exact ⟨_, rfl, drawPixel_geometry _ _ _ _⟩
  · rw [if_neg h1]
    exact drawRectangle_returns cfg _ _ Size Size Colour s hB hGW hGH hS1 hS hS1 hS

/-- The pixels of a window of `W` by `H` pixels written in full are the points
of the rectangle. -/
theorem mem_rectPixels (X Y W H : Nat) (hW : 1 ≤ W) (hH : 1 ≤ H) (p : Nat × Nat) :
    p ∈ memoryWritePixels X (X + W - 1) Y (Y + H - 1) 0 (W * H * 2)
      ↔ X ≤ p.1 ∧ p.1 < X + W ∧ Y ≤ p.2 ∧ p.2 < Y + H := by
  rw [mem_memoryWritePixels]
  have hw : X + W - 1 + 1 - X = W := by omega
  have hh : Y + H - 1 + 1 - Y = H := by omega
  rw [hw, hh]
  constructor
  · rintro ⟨j, _, hj, _, rfl⟩
    have hlt : j / 2 < W * H := by omega
    have hm : j / 2 % W < W := Nat.mod_lt _ (by omega)
    have hd : j / 2 / W < H := by
      rw [Nat.div_lt_iff_lt_mul (by omega)]
      rw [Nat.mul_comm]
      exact hlt
    rw [Nat.mod_eq_of_lt hd]
    exact ⟨by simp, by simp; omega, by simp, by simp; omega⟩
  · rintro ⟨h1, h2, h3, h4⟩
    obtain ⟨a, b⟩ := p
    simp only at h1 h2 h3 h4
    have hq : (b - Y) * W + (a - X) < W * H := by
      have : (b - Y) * W + W ≤ H * W := cell_inside H (b - Y) W (by omega)
      rw [Nat.mul_comm W H]
      omega
    refine ⟨2 * ((b - Y) * W + (a - X)) + 1, by omega, by omega, by omega, ?_⟩
    have hd : (2 * ((b - Y) * W + (a - X)) + 1) / 2 = (b - Y) * W + (a - X) := by omega
    rw [hd]
    have e1 : ((b - Y) * W + (a - X)) % W = a - X := by
      rw [Nat.add_comm, Nat.add_mul_mod_self_right]
      exact Nat.mod_eq_of_lt (by omega)
    have e2 : ((b - Y) * W + (a - X)) / W = b - Y := by
      rw [Nat.add_comm, Nat.add_mul_div_right _ _ (by omega : 0 < W)]
      rw [Nat.div_eq_of_lt (by omega)]
      omega
    rw [e1, e2, Nat.mod_eq_of_lt (by omega)]
    apply Prod.ext
    · simp; omega
    · simp; omega

/-- The pixels written by a rectangle call with origin on the panel are those
written before and the points of the clamped rectangle. -/
theorem writtenPixels_drawRectangle (cfg : Config) (X Y W H Colour : Nat) (s : Lcd)
    (hB : 1 ≤ cfg.BURST_MAX_SIZE)
    (hGW : s.LCD_WIDTH < 65536) (hGH : s.LCD_HEIGHT < 65536)
    (hArea : s.LCD_WIDTH * s.LCD_HEIGHT < 2 ^ 31)
    (hX : X < s.LCD_WIDTH) (hY : Y < s.LCD_HEIGHT)
    (hW1 : 1 ≤ W) (hW : W < 65536) (hH1 : 1 ≤ H) (hH : H < 65536) :
    ∃ t, ILI9341_Draw_Rectangle cfg X Y W H Colour s = Except.ok t ∧
      t.LCD_WIDTH = s.LCD_WIDTH ∧ t.LCD_HEIGHT = s.LCD_HEIGHT ∧
      ∀ p : Nat × Nat, p ∈ writtenPixels t.trace ↔
        (p ∈ writtenPixels s.trace ∨
          (X ≤ p.1 ∧ p.1 < X + min W (s.LCD_WIDTH - X) ∧
           Y ≤ p.2 ∧ p.2 < Y + min H (s.LCD_HEIGHT - Y))) := by
  refine ⟨_, drawRectangle_eq cfg X Y W H Colour s hB hGW hGH hX hY hW1 hW hH1 hH,
    rfl, rfl, ?_⟩
  intro p
  have hwpos : 1 ≤ min W (s.LCD_WIDTH - X) := by omega
  have hhpos : 1 ≤ min H (s.LCD_HEIGHT - Y) := by omega
  have hwle : min W (s.LCD_WIDTH - X) ≤ s.LCD_WIDTH := by omega
  have hhle : min H (s.LCD_HEIGHT - Y) ≤ s.LCD_HEIGHT := by omega
  have hprod : min W (s.LCD_WIDTH - X) * min H (s.LCD_HEIGHT - Y) < 2 ^ 31 :=
    Nat.lt_of_le_of_lt (Nat.mul_le_mul hwle hhle) hArea
  have hprod1 : 1 ≤ min W (s.LCD_WIDTH - X) * min H (s.LCD_HEIGHT - Y) :=
    Nat.mul_le_mul hwpos hhpos
  rw [trace_appendTrace, writtenPixels_append,
    foldl_event_window_burst cfg X Y _ _ Colour _ _ (by omega) (by omega) (by omega) (by omega)
      (burstBufferSize_ne_zero cfg _ hB hprod1) hprod,
    List.mem_append, mem_rectPixels X Y _ _ hwpos hhpos]
  rfl

/-- C23 (as stated, refuted): with the 6 by 8 font cell and the scale 10923,
`CHAR_WIDTH*S` is 65538, which the call converts to the 16-bit width 2 (and
`CHAR_HEIGHT*S = 87384` to the height 21848): the first operation of
`ILI9341_Draw_Char` for a glyph with one set bit is
`Draw_Rectangle(0, 0, 2, 21848, background)`, which writes only pixels of the
columns 0 and 1, and the foreground block `Draw_Rectangle(0, 0, 10923, 10923,
foreground)` that follows it writes the pixel `(5, 0)`: the block does not lie
inside the background rectangle. -/
theorem draw_char_block_exceeds_background :
    markedFontConfig.CHAR_WIDTH * 10923 = 65538 ∧
    ILI9341_Draw_Char markedFontConfig 42 0 0 0xF800 10923 0xFFFF (initialLcd markedFontConfig)
      = andThen (ILI9341_Draw_Rectangle markedFontConfig 0 0 2 21848 0xFFFF
            (initialLcd markedFontConfig))
          (forEachCell (drawCharBlock markedFontConfig 0 0 0xF800 10923) [(0, 0)]) ∧
    ∃ t1 t2 : Lcd,
      ILI9341_Draw_Rectangle markedFontConfig 0 0 2 21848 0xFFFF (initialLcd markedFontConfig)
        = Except.ok t1 ∧
      (∀ p ∈ writtenPixels t1.trace, p.1 < 2) ∧
      drawCharBlock markedFontConfig 0 0 0xF800 10923 (0, 0) t1
        = ILI9341_Draw_Rectangle markedFontConfig 0 0 10923 10923 0xF800 t1 ∧
      ILI9341_Draw_Rectangle markedFontConfig 0 0 10923 10923 0xF800 t1 = Except.ok t2 ∧
      ILI9341_Draw_Char markedFontConfig 42 0 0 0xF800 10923 0xFFFF (initialLcd markedFontConfig)
        = Except.ok t2 ∧
      (5, 0) ∈ writtenPixels t2.trace := by
  have hcall : ILI9341_Draw_Char markedFontConfig 42 0 0 0xF800 10923 0xFFFF
        (initialLcd markedFontConfig)
      = andThen (ILI9341_Draw_Rectangle markedFontConfig 0 0 2 21848 0xFFFF
            (initialLcd markedFontConfig))
          (forEachCell (drawCharBlock markedFontConfig 0 0 0xF800 10923) [(0, 0)]) := by
    rw [drawChar_printable_row markedFontConfig 42 0 0 0xF800 10923 0xFFFF _
      (by decide) (by decide), drawGlyph_eq_cells]
    have hc : setCells markedFontConfig (fun k => u8 (markedFontConfig.font (42 - 32) k))
        = [(0, 0)] := by decide
    have hw : u16 ((markedFontConfig.CHAR_WIDTH : Int) * (10923 : Nat)) = 2 := by decide
    have hh : u16 ((markedFontConfig.CHAR_HEIGHT : Int) * (10923 : Nat)) = 21848 := by decide
    have h0 : u8 ((0 : Nat) : Int) = 0 := by decide
    rw [hc, hw, hh, h0]
  obtain ⟨t1, ht1, hW1, hH1, hp1⟩ := writtenPixels_drawRectangle markedFontConfig 0 0 2 21848
    0xFFFF (initialLcd markedFontConfig) (by decide) (by decide) (by decide) (by decide)
    (by decide) (by decide) (by decide) (by decide) (by decide) (by decide)
  have hW0 : (initialLcd markedFontConfig).LCD_WIDTH = 240 := rfl
  have hH0 : (initialLcd markedFontConfig).LCD_HEIGHT = 320 := rfl
  rw [hW0] at hW1
  rw [hH0] at hH1
  obtain ⟨t2, ht2, _, _, hp2⟩ := writtenPixels_drawRectangle markedFontConfig 0 0 10923 10923
    0xF800 t1 (by decide) (by omega) (by omega) (by rw [hW1, hH1]; decide)
    (by omega) (by omega) (by decide) (by decide) (by decide) (by decide)
  have hblock : drawCharBlock markedFontConfig 0 0 0xF800 10923 (0, 0) t1
      = ILI9341_Draw_Rectangle markedFontConfig 0 0 10923 10923 0xF800 t1 := rfl
  refine ⟨by decide, hcall, t1, t2, ht1, ?_, hblock, ht2, ?_, ?_⟩
  · intro p hp
    rw [hp1, hW0] at hp
    have hnil : writtenPixels (initialLcd markedFontConfig).trace = [] := rfl
    rw [hnil] at hp
    simp only [List.not_mem_nil, false_or] at hp
    omega
  · rw [hcall, ht1, andThen_ok]
    show andThen (drawCharBlock markedFontConfig 0 0 0xF800 10923 (0, 0) t1) _ = _
    rw [hblock, ht2]
    rfl
  · rw [hp2, hW1, hH1]
    right
    simp only []
    omega

/-- C23 (amended): for every character code from 32 up (8-bit), 8-bit origin
`(X, Y)` (`X ≤ 255`, `Y ≤ 255`, as the `uint8_t` parameters hold) and scale
`S ≥ 1` with `X + CHAR_WIDTH*S ≤ 65535` and `Y + CHAR_HEIGHT*S ≤ 65535` (so
that no 16-bit argument is truncated), and all
colours: `ILI9341_Draw_Char` is the background
`Draw_Rectangle(X, Y, CHAR_WIDTH*S, CHAR_HEIGHT*S, background)` followed, in
loop order, for exactly the cells `(j, i)` with `j < CHAR_WIDTH`,
`i < CHAR_HEIGHT` and bit `i` of glyph column `j` set, by
`Draw_Pixel(X+j, Y+i, fg)` when `S = 1` and by
`Draw_Rectangle(X+j*S, Y+i*S, S, S, fg)` otherwise; every such block lies
inside the background rectangle; and with a chunk constant, a font cell and a
16-bit geometry that are not degenerate the call returns. -/
theorem draw_char_composition (cfg : Config) (ch X Y Colour Size Background_Colour : Nat)
    (s : Lcd) (hch : 32 ≤ ch) (hch8 : ch < 256) (hS : 1 ≤ Size)
    (hX8 : X ≤ 255) (hY8 : Y ≤ 255)
    (hX : X + cfg.CHAR_WIDTH * Size ≤ 65535) (hY : Y + cfg.CHAR_HEIGHT * Size ≤ 65535) :
    ILI9341_Draw_Char cfg ch X Y Colour Size Background_Colour s
      = drawChar_spec cfg (fun k => u8 (cfg.font (ch - 32) k)) X Y Colour Size
          Background_Colour s ∧
    (∀ c : Nat × Nat, c ∈ setCells cfg (fun k => u8 (cfg.font (ch - 32) k)) ↔
      (c.1 < cfg.CHAR_WIDTH ∧ c.2 < cfg.CHAR_HEIGHT ∧
        u8 (cfg.font (ch - 32) c.1) &&& (1 <<< c.2) ≠ 0)) ∧
    (∀ c ∈ setCells cfg (fun k => u8 (cfg.font (ch - 32) k)),
      X + c.1 * Size + Size ≤ X + cfg.CHAR_WIDTH * Size ∧
      Y + c.2 * Size + Size ≤ Y + cfg.CHAR_HEIGHT * Size) ∧
    (1 ≤ cfg.BURST_MAX_SIZE → 1 ≤ cfg.CHAR_WIDTH → 1 ≤ cfg.CHAR_HEIGHT →
      s.LCD_WIDTH < 65536 → s.LCD_HEIGHT < 65536 →
      ∃ t, ILI9341_Draw_Char cfg ch X Y Colour Size Background_Colour s = Except.ok t) := by
  have hw : u16 ((cfg.CHAR_WIDTH : Int) * (Size : Int)) = cfg.CHAR_WIDTH * Size := by
    have hc : (cfg.CHAR_WIDTH : Int) * (Size : Int) = ((cfg.CHAR_WIDTH * Size : Nat) : Int) := by
      push_cast; rfl
    rw [hc]
    exact u16_of_lt _ (by omega)
  have hh : u16 ((cfg.CHAR_HEIGHT : Int) * (Size : Int)) = cfg.CHAR_HEIGHT * Size := by
    have hc : (cfg.CHAR_HEIGHT : Int) * (Size : Int)
        = ((cfg.CHAR_HEIGHT * Size : Nat) : Int) := by
      push_cast; rfl
    rw [hc]
    exact u16_of_lt _ (by omega)
  have hmain : ILI9341_Draw_Char cfg ch X Y Colour Size Background_Colour s
      = drawChar_spec cfg (fun k => u8 (cfg.font (ch - 32) k)) X Y Colour Size
          Background_Colour s := by
    rw [drawChar_printable_row cfg ch X Y Colour Size Background_Colour s hch hch8,
      drawGlyph_eq_cells, hw, hh, u8_of_lt X (by omega), u8_of_lt Y (by omega)]
    unfold drawChar_spec
    congr 1
    funext t
    apply forEachCell_congr
    intro c hc u
    rw [mem_setCells] at hc
    exact drawCharBlock_eq_spec cfg X Y Colour Size c u hS hc.1 hc.2.1 hX hY
  refine ⟨hmain, fun c => mem_setCells cfg _ c, ?_, ?_⟩
  · intro c hc
    rw [mem_setCells] at hc
    have h1 := cell_inside cfg.CHAR_WIDTH c.1 Size hc.1
    have h2 := cell_inside cfg.CHAR_HEIGHT c.2 Size hc.2.1
    omega
  · intro hB hCW hCH hGW hGH
    have hSw : Size ≤ cfg.CHAR_WIDTH * Size := Nat.le_mul_of_pos_left _ hCW
    have hSh : Size ≤ cfg.CHAR_HEIGHT * Size := Nat.le_mul_of_pos_left _ hCH
    obtain ⟨t, ht, htW, htH⟩ := drawRectangle_returns cfg X Y (cfg.CHAR_WIDTH * Size)
      (cfg.CHAR_HEIGHT * Size) Background_Colour s hB hGW hGH (by omega) (by omega)
      (by omega) (by omega)
    obtain ⟨u, hu, _, _⟩ := forEachCell_returns (foregroundOp_spec cfg X Y Colour Size)
      s.LCD_WIDTH s.LCD_HEIGHT (setCells cfg (fun k => u8 (cfg.font (ch - 32) k)))
      (fun c _ v hvW hvH => by
        obtain ⟨w, hw1, hw2, hw3⟩ := foregroundOp_returns cfg X Y Colour Size c v hB hS
          (by omega) (by omega) (by omega)
        exact ⟨w, hw1, by omega, by omega⟩)
      t htW htH
    refine ⟨u, ?_⟩
    rw [hmain]
    unfold drawChar_spec
    rw [ht, andThen_ok, hu]

theorem draw_char_composition_witness :
    ILI9341_Draw_Char markedFontConfig 42 10 20 0xF800 2 0xFFFF (initialLcd markedFontConfig)
      = drawChar_spec markedFontConfig (fun k => u8 (markedFontConfig.font (42 - 32) k))
          10 20 0xF800 2 0xFFFF (initialLcd markedFontConfig) ∧
    ∃ t, ILI9341_Draw_Char markedFontConfig 42 10 20 0xF800 2 0xFFFF
      (initialLcd markedFontConfig) = Except.ok t :=
  have h := draw_char_composition markedFontConfig 42 10 20 0xF800 2 0xFFFF
    (initialLcd markedFontConfig) (by decide) (by decide) (by decide) (by decide) (by decide)
    (by decide) (by decide)
  ⟨h.1, h.2.2.2 (by decide) (by decide) (by decide) (by decide) (by decide)⟩

/-! ## Rows of the filled circle -/

/-- Every row between `y` and `x` in absolute value has the centre column
among the offsets of the loop started at `(x, y)`: the rows `±y` come from
the spans of the steps, whose `y` rises by 1 each, and the rows `±x` from the
steps' second spans, whose `x` drops by at most 1 each, until `x < y`. -/
theorem filledCircleLoopOffsets_rows (fuel : Nat) (x y xc yc re : Int)
    (hy : 0 ≤ y) (hfuel : x - y < fuel) (b : Int)
    (hb : (y ≤ b ∧ b ≤ x) ∨ (y ≤ -b ∧ -b ≤ x)) :
    ((0 : Int), b) ∈ filledCircleLoopOffsets fuel x y xc yc re := by
  induction fuel generalizing x y xc yc re with
  | zero => omega
  | succ n ih =>
    have hxy : x ≥ y := by omega
    unfold filledCircleLoopOffsets
    rw [if_pos hxy]
    have hhere : (b = y ∨ b = -y ∨ b = x ∨ b = -x) →
        ((0 : Int), b) ∈ filledCircleSpanOffsets x y (-y) ++ filledCircleSpanOffsets y x (-x) := by
      intro h
      rw [List.mem_append, mem_filledCircleSpanOffsets, mem_filledCircleSpanOffsets]
      simp only []
      omega
    by_cases hedge : b = y ∨ b = -y ∨ b = x ∨ b = -x
    · by_cases hdec : (re + yc) * 2 + xc > 0
      · simp only [if_pos hdec]
        exact List.mem_append_left _ (hhere hedge)
      · simp only [if_neg hdec]
        exact List.mem_append_left _ (hhere hedge)
    · by_cases hdec : (re + yc) * 2 + xc > 0
      · simp only [if_pos hdec]
        exact List.mem_append_right _ (ih _ _ _ _ _ (by omega) (by omega) (by omega))
      · simp only [if_neg hdec]
        exact List.mem_append_right _ (ih _ _ _ _ _ (by omega) (by omega) (by omega))

/-- In every row the columns among the offsets of the loop started at
`(x, y)` with `0 ≤ y` are none at all or an interval `[-m, m]`. -/
theorem filledCircleLoopOffsets_rowInterval (fuel : Nat) (x y xc yc re : Int)
    (hy : 0 ≤ y) (b : Int) :
    (∀ a : Int, (a, b) ∉ filledCircleLoopOffsets fuel x y xc yc re) ∨
    ∃ m : Int, 0 ≤ m ∧
      ∀ a : Int, (a, b) ∈ filledCircleLoopOffsets fuel x y xc yc re ↔ (-m ≤ a ∧ a ≤ m) := by
  induction fuel generalizing x y xc yc re with
  | zero => left; intro a; simp [filledCircleLoopOffsets]
  | succ n ih =>
    by_cases hxy : x ≥ y
    · have hstep : ∃ (x1 xc1 yc1 re1 : Int), ∀ a : Int,
          (a, b) ∈ filledCircleLoopOffsets (n + 1) x y xc yc re ↔
            (((-x ≤ a ∧ a ≤ x ∧ (b = y ∨ b = -y)) ∨ (-y ≤ a ∧ a ≤ y ∧ (b = x ∨ b = -x))) ∨
              (a, b) ∈ filledCircleLoopOffsets n x1 (y + 1) xc1 yc1 re1) := by
        by_cases hdec : (re + yc) * 2 + xc > 0
        · refine ⟨x - 1, xc + 2, yc + 2, re + yc + xc, fun a => ?_⟩
          rw [filledCircleLoopOffsets, if_pos hxy]
          simp only [if_pos hdec]
          rw [List.mem_append, List.mem_append, mem_filledCircleSpanOffsets,
            mem_filledCircleSpanOffsets]
        · refine ⟨x, xc, yc + 2, re + yc, fun a => ?_⟩
          rw [filledCircleLoopOffsets, if_pos hxy]
          simp only [if_neg hdec]
          rw [List.mem_append, List.mem_append, mem_filledCircleSpanOffsets,
            mem_filledCircleSpanOffsets]
      obtain ⟨x1, xc1, yc1, re1, hmem⟩ := hstep
      rcases ih x1 (y + 1) xc1 yc1 re1 (by omega) with hrest | ⟨m, hm0, hrest⟩
      · by_cases hby : b = y ∨ b = -y
        · right
          refine ⟨x, by omega, fun a => ?_⟩
          rw [hmem a]
          have := hrest a
          constructor
          · rintro (h | h)
            · omega
            · exact absurd h this
          · intro h
            left
            omega
        · by_cases hbx : b = x ∨ b = -x
          · right
            refine ⟨y, hy, fun a => ?_⟩
            rw [hmem a]
            have := hrest a
            constructor
            · rintro (h | h)
              · omega
              · exact absurd h this
            · intro h
              left
              omega
          · left
            intro a
            rw [hmem a]
            have := hrest a
            rintro (h | h)
            · omega
            · exact this h
      · by_cases hby : b = y ∨ b = -y
        · right
          refine ⟨max x m, by omega, fun a => ?_⟩
          rw [hmem a, hrest a]
          constructor
          · intro h
            omega
          · intro h
            by_cases ha : -x ≤ a ∧ a ≤ x
            · left; left; omega
            · right; omega
        · by_cases hbx : b = x ∨ b = -x
          · right
            refine ⟨max y m, by omega, fun a => ?_⟩
            rw [hmem a, hrest a]
            constructor
            · intro h
              omega
            · intro h
              by_cases ha : -y ≤ a ∧ a ≤ y
              · left; right; omega
              · right; omega
          · right
            refine ⟨m, hm0, fun a => ?_⟩
            rw [hmem a, hrest a]
            constructor
            · intro h
              omega
            · intro h
              right
              exact h
    · left
      intro a
      rw [filledCircleLoopOffsets, if_neg hxy]
      simp

/-- C31: for every radius `r` (0 included), `ILI9341_Draw_Filled_Circle`
returns and is the sequence of pixel calls at the offsets `filledCircleOffsets
r`; every emitted offset lies in a row between `-r` and `r`; and in every row
`b` with `-r ≤ b ≤ r` the emitted columns are exactly an interval `[-m, m]`
with `0 ≤ m ≤ r`: the row is covered, without a gap, centred on the centre
column. -/
theorem filled_circle_no_gaps (X Y R Colour : Nat) (s : Lcd) :
    ILI9341_Draw_Filled_Circle X Y R Colour s
      = Except.ok (drawPixelsAt X Y Colour (filledCircleOffsets R) s) ∧
    (∀ p ∈ filledCircleOffsets R, -(R : Int) ≤ p.2 ∧ p.2 ≤ R) ∧
    (∀ b : Int, -(R : Int) ≤ b → b ≤ R →
      ∃ m : Int, 0 ≤ m ∧ m ≤ R ∧
        ∀ a : Int, (a, b) ∈ filledCircleOffsets R ↔ (-m ≤ a ∧ a ≤ m)) := by
  have hbound : ∀ p ∈ filledCircleOffsets R,
      -(R : Int) ≤ p.1 ∧ p.1 ≤ R ∧ -(R : Int) ≤ p.2 ∧ p.2 ≤ R :=
    filledCircleLoopOffsets_bound (R + 1) _ 0 _ 0 0 (R : Int) (by omega) (by omega)
  refine ⟨?_, fun p hp => ⟨(hbound p hp).2.2.1, (hbound p hp).2.2.2⟩, ?_⟩
  · unfold ILI9341_Draw_Filled_Circle filledCircleOffsets
    exact filledCircleLoop_eq X Y Colour (R + 1) (R : Int) 0 _ 0 0 s (by omega)
  · intro b hb1 hb2
    have hcov : ((0 : Int), b) ∈ filledCircleOffsets R :=
      filledCircleLoopOffsets_rows (R + 1) (R : Int) 0 _ 0 0 (by omega)
        (by push_cast; omega) b (by omega)
    rcases filledCircleLoopOffsets_rowInterval (R + 1) (R : Int) 0
      (1 - (R : Int) * 2) 0 0 (by omega) b with hnone | ⟨m, hm0, hm⟩
    · exact absurd hcov (hnone 0)
    · refine ⟨m, hm0, ?_, hm⟩
      have hmem : (m, b) ∈ filledCircleOffsets R := (hm m).mpr ⟨by omega, by omega⟩
      exact (hbound _ hmem).2.1

theorem filled_circle_no_gaps_witness :
    ∃ m : Int, 0 ≤ m ∧ m ≤ (3 : Nat) ∧
      ∀ a : Int, (a, (2 : Int)) ∈ filledCircleOffsets 3 ↔ (-m ≤ a ∧ a ≤ m) :=
  (filled_circle_no_gaps 0 0 3 0 (initialLcd sampleConfig)).2.2 2 (by decide) (by decide)

/-! ## Sizing of the burst buffer -/

/-- C32 (what the code does): for every pixel count with `1 ≤ count < 2^31`
and every chunk constant of at least 1, `ILI9341_Draw_Colour_Burst` returns,
having made the calls `burstEvents`, whose buffer has `Buffer_Size` bytes;
`Buffer_Size` is `count` when `count*2 < BURST_MAX_SIZE`, which is never
`min(count*2, BURST_MAX_SIZE) = count*2`, and it is `BURST_MAX_SIZE =
min(count*2, BURST_MAX_SIZE)` otherwise; in both cases the remainder
`(count*2) % Buffer_Size` is below `Buffer_Size`. -/
theorem burst_buffer_size (cfg : Config) (Colour count : Nat) (s : Lcd)
    (hB : 1 ≤ cfg.BURST_MAX_SIZE) (h1 : 1 ≤ count) (h2 : count < 2 ^ 31) :
    ILI9341_Draw_Colour_Burst cfg Colour count s
      = Except.ok (appendTrace (burstEvents cfg Colour count) s) ∧
    (burstBuffer cfg Colour count).length = burstBufferSize cfg count ∧
    (count * 2 < cfg.BURST_MAX_SIZE →
      burstBufferSize cfg count = count ∧ bufferSize_spec cfg count = count * 2 ∧
      burstBufferSize cfg count ≠ bufferSize_spec cfg count) ∧
    (cfg.BURST_MAX_SIZE ≤ count * 2 →
      burstBufferSize cfg count = cfg.BURST_MAX_SIZE ∧
      burstBufferSize cfg count = bufferSize_spec cfg count) ∧
    count * 2 % burstBufferSize cfg count < burstBufferSize cfg count := by
  have hne := burstBufferSize_ne_zero cfg count hB h1
  have hu := u32_double count h2
  refine ⟨burst_eq_of_ne_zero cfg Colour count s hne, burstBuffer_length cfg Colour count,
    ?_, ?_, Nat.mod_lt _ (Nat.pos_of_ne_zero hne)⟩
  · intro hlt
    have hsz : burstBufferSize cfg count = count := by
      unfold burstBufferSize
      rw [hu, if_pos hlt]
    unfold bufferSize_spec
    rw [hsz]
    omega
  · intro hge
    have hsz : burstBufferSize cfg count = cfg.BURST_MAX_SIZE := by
      unfold burstBufferSize
      rw [hu, if_neg (by omega)]
    unfold bufferSize_spec
    rw [hsz]
    omega

/-- Instance of `burst_buffer_size`: one pixel with the chunk constant 500:
the buffer has 1 byte where the specification has 2. -/
theorem burst_buffer_size_witness :
    burstBufferSize sampleConfig 1 = 1 ∧ bufferSize_spec sampleConfig 1 = 1 * 2 ∧
    burstBufferSize sampleConfig 1 ≠ bufferSize_spec sampleConfig 1 :=
  (burst_buffer_size sampleConfig 0x1234 1 (initialLcd sampleConfig)
    (by decide) (by decide) (by decide)).2.2.1 (by decide)

end ILI9341
